import Mathlib

/-!
Token lifecycle and personal access token registry of memos.

A shallow embedding of `api/v1/auth/auth.go` (token issuer and session cookie
manager) and of the access-token handlers of `api/v2/user_service.go`
(personal access token registry), followed by the properties proved of them.

Conventions of the embedding:

* Go packages become namespaces (`time`, `jwt`, `http`, `echo`, `api.v1.auth`, ...).
* `time.Time` is a wall-clock instant counted in nanoseconds since the Unix
  epoch; the process clock is an explicit sequence of readings, consumed one
  per call of `time.Now()`.
* Third-party library routines whose bodies lie outside the repository
  (HMAC signing, base64/JSON decoding, the slice sorting routine) are fields of
  a structure that every operation takes as an argument.
* Go `error` values are `Except String`; a gRPC status keeps its code only;
  a run-time panic (nil pointer dereference) is an outcome of its own.
-/

/-! ## Package time -/

namespace time

/-- Go `time.Duration`: a signed count of nanoseconds. -/
abbrev Duration := Int

def Nanosecond : Duration := 1
def Second : Duration := 1000000000
def Minute : Duration := 60 * Second
def Hour : Duration := 60 * Minute

/-- Go `time.Time` read as a wall-clock instant: nanoseconds since the Unix epoch
(location and monotonic reading are not represented). -/
structure Time where
  unixNano : Int
deriving DecidableEq, Repr

/-- The zero value `time.Time{}`: January 1, year 1, 00:00:00 UTC, which lies
62135596800 seconds before the Unix epoch. -/
def zeroTime : Time := ⟨-62135596800 * Second⟩

/-- Method `t.IsZero()`. -/
def Time.IsZero (t : Time) : Bool := decide (t = zeroTime)

/-- Method `t.Add(d)`. -/
def Time.Add (t : Time) (d : Duration) : Time := ⟨t.unixNano + d⟩

/-- Method `t.Truncate(d)`: rounds `t` down to a multiple of `d` since the zero time;
returns `t` unchanged when `d <= 0`. -/
def Time.Truncate (t : Time) (d : Duration) : Time :=
  if d ≤ 0 then t else ⟨t.unixNano - (t.unixNano - zeroTime.unixNano) % d⟩

/-- Method `t.Unix()`: whole seconds since the Unix epoch (rounded down). -/
def Time.Unix (t : Time) : Int := t.unixNano / Second

/-- Method `t.Nanosecond()`: the nanosecond offset within the second. -/
def Time.Nanosecond (t : Time) : Int := t.unixNano % Second

/-- Function `time.Unix(sec, nsec)`. -/
def Unix (sec nsec : Int) : Time := ⟨sec * Second + nsec⟩

/-- Method `t.Before(u)`. -/
def Time.Before (t u : Time) : Prop := t.unixNano < u.unixNano

instance (t u : Time) : Decidable (t.Before u) := by
  unfold Time.Before
  exact inferInstance

/-- The process clock as the sequence of its future readings. -/
abbrev Clock := Nat → Time

/-- Function `time.Now()`: takes the next reading and advances the clock. -/
def Now (clk : Clock) : Time × Clock := (clk 0, fun n => clk (n + 1))

end time

/-! ## Package strconv -/

namespace strconv

/-- Function `strconv.Itoa`: the decimal representation of an integer. -/
def Itoa (i : Int) : String := toString i

end strconv

/-! ## Package github.com/golang-jwt/jwt/v4 -/

namespace jwt

/-- Variable `jwt.TimePrecision`, at its default of one second. -/
def TimePrecision : time.Duration := time.Second

/-- Type `jwt.NumericDate`: a `time.Time` carried by a claim. -/
structure NumericDate where
  Time : time.Time
deriving DecidableEq, Repr

/-- Function `jwt.NewNumericDate`: truncates the instant to `TimePrecision`. -/
def NewNumericDate (t : time.Time) : NumericDate := ⟨t.Truncate TimePrecision⟩

/-- Type `jwt.RegisteredClaims`; the pointer-typed dates are optional. -/
structure RegisteredClaims where
  Issuer : String
  Subject : String
  Audience : List String
  ExpiresAt : Option NumericDate
  NotBefore : Option NumericDate
  IssuedAt : Option NumericDate
  ID : String
deriving DecidableEq, Repr

/-- A signing method, identified by the name its `Alg()` method returns. -/
structure SigningMethod where
  Name : String
deriving DecidableEq, Repr

/-- Method `m.Alg()`. -/
def SigningMethod.Alg (m : SigningMethod) : String := m.Name

/-- Variable `jwt.SigningMethodHS256`. -/
def SigningMethodHS256 : SigningMethod := ⟨"HS256"⟩

/-- A value of the token header map `map[string]interface{}`, as JSON decodes it. -/
inductive HeaderValue where
  | str (s : String)
  | num (n : Int)
  | bool (b : Bool)
  | null
  | composite
deriving DecidableEq, Repr

/-- Type `jwt.Token` with claims of type `C`. -/
structure Token (C : Type) where
  Method : SigningMethod
  Header : List (String × HeaderValue)
  Claims : C
deriving DecidableEq, Repr

/-- Map read `t.Header[k]`. -/
def Token.header {C : Type} (t : Token C) (k : String) : Option HeaderValue :=
  t.Header.lookup k

/-- Map write `t.Header[k] = v`. -/
def Token.setHeader {C : Type} (t : Token C) (k : String) (v : HeaderValue) : Token C :=
  { t with Header := (k, v) :: t.Header.filter (fun e => !(e.1 == k)) }

/-- Function `jwt.NewWithClaims`. -/
def NewWithClaims {C : Type} (method : SigningMethod) (claims : C) : Token C :=
  { Method := method,
    Header := [("typ", HeaderValue.str "JWT"), ("alg", HeaderValue.str method.Alg)],
    Claims := claims }

/-- The routines of the library whose bodies are outside the repository.

* `SignedString t key` is method `t.SignedString(key)`;
* `decode s` is the unverified parse of a compact token (splitting, base64 and
  JSON decoding of header and claims, lookup of the signing method named by `alg`);
* `verify s t key` is the validation of the decoded claims at the instant of the
  call together with the check of the signature of `s` under `key`. -/
structure Library (C : Type) where
  SignedString : Token C → String → Except String String
  decode : String → Option (Token C)
  verify : String → Token C → String → Bool

/-- Function `jwt.ParseWithClaims`: decode, ask `keyFunc` for the key, validate.
On success the parsed token is returned; its `Claims` are what the call stored
into the caller-supplied claims value. -/
def ParseWithClaims {C : Type} (J : Library C) (tokenString : String)
    (keyFunc : Token C → Except String String) : Except String (Token C) :=
  match J.decode tokenString with
  | none => .error "token is malformed"
  | some t =>
    match keyFunc t with
    | .error e => .error e
    | .ok key => if J.verify tokenString t key then .ok t else .error "token is invalid"

end jwt

/-! ## Packages net/http and echo -/

namespace http

/-- Type `http.SameSite`; `unset` is the zero value. -/
inductive SameSite where
  | unset
  | SameSiteDefaultMode
  | SameSiteLaxMode
  | SameSiteStrictMode
  | SameSiteNoneMode
deriving DecidableEq, Repr

/-- Type `http.Cookie`. -/
structure Cookie where
  Name : String
  Value : String
  Path : String
  Domain : String
  Expires : time.Time
  MaxAge : Int
  Secure : Bool
  HttpOnly : Bool
  SameSite : SameSite
deriving DecidableEq, Repr

/-- The zero value `new(http.Cookie)`. -/
def Cookie.new : Cookie :=
  { Name := "", Value := "", Path := "", Domain := "", Expires := time.zeroTime,
    MaxAge := 0, Secure := false, HttpOnly := false, SameSite := SameSite.unset }

end http

namespace echo

/-- An `echo.Context`, reduced to the cookies set on its response, oldest first. -/
structure Context where
  cookies : List http.Cookie
deriving DecidableEq, Repr

/-- Method `c.SetCookie(cookie)`. -/
def Context.SetCookie (c : Context) (cookie : http.Cookie) : Context :=
  { cookies := c.cookies ++ [cookie] }

end echo

/-! ## Package store (user records) -/

namespace store

/-- Type `store.Role`. -/
inductive Role where
  | RoleHost
  | RoleAdmin
  | RoleUser
deriving DecidableEq, Repr

/-- Type `store.User`, with the fields the token operations read. -/
structure User where
  ID : Int
  Username : String
  Role : Role
deriving DecidableEq, Repr

end store

/-! ## Package api/v1/auth -/

namespace api.v1.auth

def issuer : String := "memos"
def keyID : String := "v1"
def AccessTokenAudienceName : String := "user.access-token"
def RefreshTokenAudienceName : String := "user.refresh-token"
def apiTokenDuration : time.Duration := 2 * time.Hour
def accessTokenDuration : time.Duration := 24 * time.Hour
def refreshTokenDuration : time.Duration := 7 * 24 * time.Hour
def RefreshThresholdDuration : time.Duration := 1 * time.Hour
def CookieExpDuration : time.Duration := refreshTokenDuration - 1 * time.Minute
def AccessTokenCookieName : String := "memos.access-token"
def RefreshTokenCookieName : String := "memos.refresh-token"

/-- Type `claimsMessage`. -/
structure claimsMessage where
  Name : String
  RegisteredClaims : jwt.RegisteredClaims
deriving DecidableEq, Repr

/-- The claims literal of `generateToken` (lines 108-118); `now` is the reading of
`time.Now()` taken for `IssuedAt`. -/
def generateToken.claims (username : String) (userID : Int) (aud : String)
    (expirationTime now : time.Time) : claimsMessage :=
  { Name := username,
    RegisteredClaims :=
      { Audience := [aud],
        ExpiresAt := some (jwt.NewNumericDate expirationTime),
        IssuedAt := some (jwt.NewNumericDate now),
        Issuer := issuer,
        Subject := strconv.Itoa userID,
        NotBefore := none,
        ID := "" } }

/-- The unsigned token of `generateToken` (lines 108-122): the claims, the HS256
method and the `kid` header. -/
def generateToken.token (username : String) (userID : Int) (aud : String)
    (expirationTime now : time.Time) : jwt.Token claimsMessage :=
  (jwt.NewWithClaims jwt.SigningMethodHS256
    (generateToken.claims username userID aud expirationTime now)).setHeader
      "kid" (jwt.HeaderValue.str keyID)

/-- Function `generateToken`. -/
def generateToken (J : jwt.Library claimsMessage) (username : String) (userID : Int)
    (aud : String) (expirationTime : time.Time) (secret : String) (clk : time.Clock) :
    Except String String × time.Clock :=
  let (now, clk) := time.Now clk
  let token := generateToken.token username userID aud expirationTime now
  match J.SignedString token secret with
  | .error err => (.error err, clk)
  | .ok tokenString => (.ok tokenString, clk)

/-- Function `GenerateAPIToken`. -/
def GenerateAPIToken (J : jwt.Library claimsMessage) (userName : String) (userID : Int)
    (secret : String) (clk : time.Clock) : Except String String × time.Clock :=
  let (now, clk) := time.Now clk
  let expirationTime := now.Add apiTokenDuration
  generateToken J userName userID AccessTokenAudienceName expirationTime secret clk

/-- Function `GenerateAccessToken`. -/
def GenerateAccessToken (J : jwt.Library claimsMessage) (userName : String) (userID : Int)
    (secret : String) (clk : time.Clock) : Except String String × time.Clock :=
  let (now, clk) := time.Now clk
  let expirationTime := now.Add accessTokenDuration
  generateToken J userName userID AccessTokenAudienceName expirationTime secret clk

/-- Function `GenerateRefreshToken`. -/
def GenerateRefreshToken (J : jwt.Library claimsMessage) (userName : String) (userID : Int)
    (secret : String) (clk : time.Clock) : Except String String × time.Clock :=
  let (now, clk) := time.Now clk
  let expirationTime := now.Add refreshTokenDuration
  generateToken J userName userID RefreshTokenAudienceName expirationTime secret clk

/-- Function `setTokenCookie`. -/
def setTokenCookie (c : echo.Context) (name token : String) (expiration : time.Time) :
    echo.Context :=
  let cookie := http.Cookie.new
  let cookie := { cookie with Name := name }
  let cookie := { cookie with Value := token }
  let cookie := { cookie with Expires := expiration }
  let cookie := { cookie with Path := "/" }
  let cookie := { cookie with HttpOnly := true }
  let cookie := { cookie with SameSite := http.SameSite.SameSiteStrictMode }
  c.SetCookie cookie

/-- Function `GenerateTokensAndSetCookies`; returns the error value, the context
with the cookies set so far and the advanced clock. -/
def GenerateTokensAndSetCookies (J : jwt.Library claimsMessage) (c : echo.Context)
    (user : store.User) (secret : String) (clk : time.Clock) :
    Except String Unit × echo.Context × time.Clock :=
  match GenerateAccessToken J user.Username user.ID secret clk with
  | (.error err, clk) => (.error ("failed to generate access token: " ++ err), c, clk)
  | (.ok accessToken, clk) =>
    let (now, clk) := time.Now clk
    let cookieExp := now.Add CookieExpDuration
    let c := setTokenCookie c AccessTokenCookieName accessToken cookieExp
    match GenerateRefreshToken J user.Username user.ID secret clk with
    | (.error err, clk) => (.error ("failed to generate refresh token: " ++ err), c, clk)
    | (.ok refreshToken, clk) =>
      let c := setTokenCookie c RefreshTokenCookieName refreshToken cookieExp
      (.ok (), c, clk)

/-- Function `RemoveTokensAndCookies`. -/
def RemoveTokensAndCookies (c : echo.Context) (clk : time.Clock) :
    echo.Context × time.Clock :=
  let (now, clk) := time.Now clk
  let cookieExp := now.Add (-1 * time.Hour)
  let c := setTokenCookie c AccessTokenCookieName "" cookieExp
  let c := setTokenCookie c RefreshTokenCookieName "" cookieExp
  (c, clk)

end api.v1.auth

/-! ## Package timestamppb -/

namespace timestamppb

/-- Type `timestamppb.Timestamp`. -/
structure Timestamp where
  Seconds : Int
  Nanos : Int
deriving DecidableEq, Repr

/-- Function `timestamppb.New`. -/
def New (t : time.Time) : Timestamp := { Seconds := t.Unix, Nanos := t.Nanosecond }

/-- Method `x.AsTime()`. -/
def Timestamp.AsTime (x : Timestamp) : time.Time := time.Unix x.Seconds x.Nanos

end timestamppb

/-! ## Package golang.org/x/exp/slices -/

namespace slices

/-- The sorting routine of the library, whose body is outside the repository:
`SortFunc E x cmp` is the content of the slice `x` after `slices.SortFunc(x, cmp)`. -/
structure Library where
  SortFunc : (E : Type) → List E → (E → E → Int) → List E

/-- The documented behaviour of `SortFunc`: the slice is rearranged, and when `cmp` orders
the elements of the slice as some integer key does (so that it is a strict weak ordering
on them), the result is ascending in that key. Nothing is promised about the relative
order of elements that `cmp` does not separate. -/
def Library.Sorts (L : Library) : Prop :=
  ∀ (E : Type) (x : List E) (cmp : E → E → Int),
    (L.SortFunc E x cmp).Perm x ∧
    ∀ key : E → Int, (∀ a ∈ x, ∀ b ∈ x, (cmp a b < 0 ↔ key a < key b)) →
      (L.SortFunc E x cmp).Pairwise (fun a b => key a ≤ key b)

/-- One pass of the inner loop of the insertion sort of the library: the element `x` moves
left past every element `y` for which `cmp x y < 0`, and stops at the first one for which
this fails. The sorted part is held in reverse (nearest element first). -/
def insertionSortCmpFunc.inner {E : Type} (cmp : E → E → Int) (x : E) : List E → List E
  | [] => [x]
  | y :: ys => if cmp x y < 0 then y :: insertionSortCmpFunc.inner cmp x ys else x :: y :: ys

/-- Routine `insertionSortCmpFunc` of the library, which is what `SortFunc` runs on a
slice of at most 12 elements. -/
def insertionSortCmpFunc {E : Type} (data : List E) (cmp : E → E → Int) : List E :=
  (data.foldl (fun sorted x => insertionSortCmpFunc.inner cmp x sorted) []).reverse

/-- The library as it behaves on slices of at most 12 elements. -/
def shortSlices : Library := { SortFunc := fun _ x cmp => insertionSortCmpFunc x cmp }

/-- The swap `data[i], data[j] = data[j], data[i]`. -/
def swap {E : Type} (data : List E) (i j : Nat) : List E :=
  match data[i]?, data[j]? with
  | some x, some y => (data.set i y).set j x
  | _, _ => data

/-- The test `cmp(data[i], data[j]) < 0`. -/
def less {E : Type} (cmp : E → E → Int) (data : List E) (i j : Nat) : Bool :=
  match data[i]?, data[j]? with
  | some x, some y => decide (cmp x y < 0)
  | _, _ => false

/-- Routine `insertionSortCmpFunc(data, a, b, cmp)` of the library on the range
`data[a:b]`. -/
def insertionSortCmpFunc.range {E : Type} (data : List E) (a b : Nat) (cmp : E → E → Int) :
    List E :=
  data.take a ++ insertionSortCmpFunc ((data.drop a).take (b - a)) cmp ++ data.drop b

/-- Routine `reverseRangeCmpFunc(data, a, b, cmp)` of the library. -/
def reverseRangeCmpFunc {E : Type} (data : List E) (a b : Nat) : List E :=
  data.take a ++ ((data.drop a).take (b - a)).reverse ++ data.drop b

/-- Type `sortedHint` of the library. -/
inductive sortedHint where
  | unknownHint
  | increasingHint
  | decreasingHint
deriving DecidableEq, Repr

/-- Routine `order2CmpFunc` of the library; the count of swaps is passed and returned. -/
def order2CmpFunc {E : Type} (cmp : E → E → Int) (data : List E) (a b swaps : Nat) :
    Nat × Nat × Nat :=
  if less cmp data b a then (b, a, swaps + 1) else (a, b, swaps)

/-- Routine `medianCmpFunc` of the library. -/
def medianCmpFunc {E : Type} (cmp : E → E → Int) (data : List E) (a b c swaps : Nat) :
    Nat × Nat :=
  let (a, b, swaps) := order2CmpFunc cmp data a b swaps
  let (b, _, swaps) := order2CmpFunc cmp data b c swaps
  let (_, b, swaps) := order2CmpFunc cmp data a b swaps
  (b, swaps)

/-- Routine `choosePivotCmpFunc` of the library on `data[a:b]`; `none` for 50 elements or
more, where the library takes medians of adjacent elements first, which is not modelled. -/
def choosePivotCmpFunc {E : Type} (cmp : E → E → Int) (data : List E) (a b : Nat) :
    Option (Nat × sortedHint) :=
  let l := b - a
  let i := a + l / 4 * 1
  let j := a + l / 4 * 2
  let k := a + l / 4 * 3
  if l ≥ 8 then
    if l ≥ 50 then none
    else
      let (j, swaps) := medianCmpFunc cmp data i j k 0
      if swaps = 0 then some (j, sortedHint.increasingHint)
      else if swaps = 4 * 3 then some (j, sortedHint.decreasingHint)
      else some (j, sortedHint.unknownHint)
  else some (j, sortedHint.increasingHint)

/-- The scan `for i < b && !(cmp(data[i], data[i-1]) < 0) { i++ }` of
`partialInsertionSortCmpFunc`. -/
def partialInsertionSortCmpFunc.scan {E : Type} (cmp : E → E → Int) (data : List E) (b : Nat) :
    Nat → Nat → Nat
  | 0, i => i
  | fuel + 1, i =>
    if i < b && !less cmp data i (i - 1) then
      partialInsertionSortCmpFunc.scan cmp data b fuel (i + 1)
    else i

/-- Routine `partialInsertionSortCmpFunc` of the library on fewer than 50 elements, where it
moves nothing: it reports whether `data[a:b]` is already in order. -/
def partialInsertionSortCmpFunc {E : Type} (cmp : E → E → Int) (data : List E) (a b : Nat) :
    Bool :=
  partialInsertionSortCmpFunc.scan cmp data b (b - a) (a + 1) == b

/-- The scan `for i <= j && (cmp(data[i], data[a]) < 0) { i++ }` of `partitionCmpFunc`. -/
def partitionCmpFunc.up {E : Type} (cmp : E → E → Int) (data : List E) (a j : Nat) :
    Nat → Nat → Nat
  | 0, i => i
  | fuel + 1, i =>
    if i ≤ j && less cmp data i a then partitionCmpFunc.up cmp data a j fuel (i + 1) else i

/-- The scan `for i <= j && !(cmp(data[j], data[a]) < 0) { j-- }` of `partitionCmpFunc`. -/
def partitionCmpFunc.down {E : Type} (cmp : E → E → Int) (data : List E) (a i : Nat) :
    Nat → Nat → Nat
  | 0, j => j
  | fuel + 1, j =>
    if i ≤ j && !less cmp data j a then partitionCmpFunc.down cmp data a i fuel (j - 1) else j

/-- The closing loop of `partitionCmpFunc`; returns the slice and the final `j`. -/
def partitionCmpFunc.loop {E : Type} (cmp : E → E → Int) (a : Nat) :
    Nat → List E → Nat → Nat → List E × Nat
  | 0, data, _, j => (data, j)
  | fuel + 1, data, i, j =>
    let i := partitionCmpFunc.up cmp data a j data.length i
    let j := partitionCmpFunc.down cmp data a i data.length j
    if i > j then (data, j)
    else partitionCmpFunc.loop cmp a fuel (swap data i j) (i + 1) (j - 1)

/-- Routine `partitionCmpFunc` of the library: one partition of `data[a:b]` around
`data[pivot]`; returns the slice, the new place of the pivot and whether the range was
already partitioned. -/
def partitionCmpFunc {E : Type} (cmp : E → E → Int) (data : List E) (a b pivot : Nat) :
    List E × Nat × Bool :=
  let data := swap data a pivot
  let i := a + 1
  let j := b - 1
  let i := partitionCmpFunc.up cmp data a j data.length i
  let j := partitionCmpFunc.down cmp data a i data.length j
  if i > j then (swap data j a, j, true)
  else
    let data := swap data i j
    let (data, j) := partitionCmpFunc.loop cmp a data.length data (i + 1) (j - 1)
    (swap data j a, j, false)

/-- The scan `for i <= j && !(cmp(data[a], data[i]) < 0) { i++ }` of
`partitionEqualCmpFunc`. -/
def partitionEqualCmpFunc.up {E : Type} (cmp : E → E → Int) (data : List E) (a j : Nat) :
    Nat → Nat → Nat
  | 0, i => i
  | fuel + 1, i =>
    if i ≤ j && !less cmp data a i then partitionEqualCmpFunc.up cmp data a j fuel (i + 1)
    else i

/-- The scan `for i <= j && (cmp(data[a], data[j]) < 0) { j-- }` of
`partitionEqualCmpFunc`. -/
def partitionEqualCmpFunc.down {E : Type} (cmp : E → E → Int) (data : List E) (a i : Nat) :
    Nat → Nat → Nat
  | 0, j => j
  | fuel + 1, j =>
    if i ≤ j && less cmp data a j then partitionEqualCmpFunc.down cmp data a i fuel (j - 1)
    else j

/-- The loop of `partitionEqualCmpFunc`; returns the slice and the final `i`. -/
def partitionEqualCmpFunc.loop {E : Type} (cmp : E → E → Int) (a : Nat) :
    Nat → List E → Nat → Nat → List E × Nat
  | 0, data, i, _ => (data, i)
  | fuel + 1, data, i, j =>
    let i := partitionEqualCmpFunc.up cmp data a j data.length i
    let j := partitionEqualCmpFunc.down cmp data a i data.length j
    if i > j then (data, i)
    else partitionEqualCmpFunc.loop cmp a fuel (swap data i j) (i + 1) (j - 1)

/-- Routine `partitionEqualCmpFunc` of the library. -/
def partitionEqualCmpFunc {E : Type} (cmp : E → E → Int) (data : List E) (a b pivot : Nat) :
    List E × Nat :=
  let data := swap data a pivot
  partitionEqualCmpFunc.loop cmp a (data.length + 1) data (a + 1) (b - 1)

/-- Routine `pdqsortCmpFunc(data, a, b, limit, cmp)` of the library, as far as it is
modelled; `wasBalanced` and `wasPartitioned` are its two local flags and `fuel` bounds the
number of rounds. The result is `none` when the run reaches a part that is not modelled:
the heap sort taken at `limit == 0`, the pattern breaking taken after an unbalanced
partition, or a range of 50 elements or more. -/
def pdqsortCmpFunc {E : Type} (cmp : E → E → Int) :
    Nat → List E → Nat → Nat → Nat → Bool → Bool → Option (List E)
  | 0, _, _, _, _, _, _ => none
  | fuel + 1, data, a, b, limit, wasBalanced, wasPartitioned =>
    let length := b - a
    if length ≤ 12 then some (insertionSortCmpFunc.range data a b cmp)
    else if limit = 0 then none
    else if !wasBalanced then none
    else
      match choosePivotCmpFunc cmp data a b with
      | none => none
      | some (pivot, hint) =>
        let reversed := hint == sortedHint.decreasingHint
        let data := if reversed then reverseRangeCmpFunc data a b else data
        let pivot := if reversed then (b - 1) - (pivot - a) else pivot
        let hint := if reversed then sortedHint.increasingHint else hint
        if wasBalanced && wasPartitioned && hint == sortedHint.increasingHint
            && partialInsertionSortCmpFunc cmp data a b then
          some data
        else if a > 0 && !less cmp data (a - 1) pivot then
          let (data, mid) := partitionEqualCmpFunc cmp data a b pivot
          pdqsortCmpFunc cmp fuel data mid b limit wasBalanced wasPartitioned
        else
          let (data, mid, alreadyPartitioned) := partitionCmpFunc cmp data a b pivot
          let leftLen := mid - a
          let rightLen := b - mid
          let balanceThreshold := length / 8
          if leftLen < rightLen then
            match pdqsortCmpFunc cmp fuel data a mid limit true true with
            | none => none
            | some data =>
              pdqsortCmpFunc cmp fuel data (mid + 1) b limit
                (decide (leftLen ≥ balanceThreshold)) alreadyPartitioned
          else
            match pdqsortCmpFunc cmp fuel data (mid + 1) b limit true true with
            | none => none
            | some data =>
              pdqsortCmpFunc cmp fuel data a mid limit
                (decide (rightLen ≥ balanceThreshold)) alreadyPartitioned

/-- Function `bits.Len`: the number of bits needed to write `n`. -/
def bitsLen (n : Nat) : Nat :=
  (List.range n).foldl (fun len k => if 2 ^ k ≤ n then k + 1 else len) 0

/-- Function `slices.SortFunc(x, cmp)` of the library, as far as it is modelled: the run of
`pdqsortCmpFunc(x, 0, n, bits.Len(uint(n)), cmp)`. -/
def SortFunc {E : Type} (x : List E) (cmp : E → E → Int) : Option (List E) :=
  pdqsortCmpFunc cmp (x.length + 1) x 0 x.length (bitsLen x.length) true true

/-- The library as modelled: on a slice whose sorting stays within the modelled part the
sorted slice, on any other slice (for which this is not what the library gives) the slice
as it is. -/
def modelled : Library := { SortFunc := fun _ x cmp => (SortFunc x cmp).getD x }

end slices

/-! ## Package storepb (settings records) -/

namespace storepb

/-- Type `storepb.UserSettingKey`. -/
inductive UserSettingKey where
  | USER_SETTING_KEY_UNSPECIFIED
  | USER_SETTING_ACCESS_TOKENS
deriving DecidableEq, Repr

/-- Type `storepb.AccessTokensUserSetting_AccessToken`: one stored record. -/
structure AccessTokensUserSetting_AccessToken where
  AccessToken : String
  Description : String
deriving DecidableEq, Repr

/-- Type `storepb.AccessTokensUserSetting`. -/
structure AccessTokensUserSetting where
  AccessTokens : List AccessTokensUserSetting_AccessToken
deriving DecidableEq, Repr

/-- The `Value` of a setting: the access-token list, or some other payload. -/
inductive UserSetting_Value where
  | UserSetting_AccessTokens (AccessTokens : AccessTokensUserSetting)
  | other (payload : String)
deriving DecidableEq, Repr

/-- Type `storepb.UserSetting`. -/
structure UserSetting where
  UserId : Int
  Key : UserSettingKey
  Value : UserSetting_Value
deriving DecidableEq, Repr

end storepb

/-! ## Package store (the settings store) -/

namespace store

/-- Type `store.FindUser`, with the one field the handlers set. -/
structure FindUser where
  Username : String
deriving DecidableEq, Repr

/-- Modelled from the spec: the `store.Store` collaborator, whose code is not part of
the sources. It holds the user records and one settings record per user and key
(section 3, "User Settings Record"); each of its three kinds of access (user lookup,
setting read, setting write) either completes or fails with a store failure
(section 7), which the three optional error fields decide. A lookup can also fail for
some user names only, while the lookups of the others complete: `lookupErrOf` lists
those user names, each with the failure its lookup gives. -/
structure Store where
  users : List User
  settings : List storepb.UserSetting
  lookupErr : Option String
  readErr : Option String
  writeErr : Option String
  lookupErrOf : List (String × String) := []
deriving DecidableEq, Repr

/-- Modelled from the spec: `Store.GetUser`, the `lookupUser(identifier) -> UserRecord`
of section 6; absent from the sources. The lookup fails when every lookup of the store
fails or the lookup of this user name does; no matching user is `none`, not an error. -/
def Store.GetUser (s : Store) (find : FindUser) : Except String (Option User) :=
  match s.lookupErr with
  | some err => .error err
  | none =>
    match s.lookupErrOf.lookup find.Username with
    | some err => .error err
    | none => .ok (s.users.find? (fun u => u.Username == find.Username))

/-- The settings record of a user under a key, if there is one. -/
def Store.findSetting (s : Store) (userID : Int) (key : storepb.UserSettingKey) :
    Option storepb.UserSetting :=
  s.settings.find? (fun x => x.UserId == userID && x.Key == key)

/-- Modelled from the spec: `Store.GetUserAccessTokens`, the
`getUserSetting(userID, key) -> Value` of section 6 at the access-tokens key; absent
from the sources. A user without such a record has the empty list. -/
def Store.GetUserAccessTokens (s : Store) (userID : Int) :
    Except String (List storepb.AccessTokensUserSetting_AccessToken) :=
  match s.readErr with
  | some err => .error err
  | none =>
    match s.findSetting userID storepb.UserSettingKey.USER_SETTING_ACCESS_TOKENS with
    | none => .ok []
    | some userSetting =>
      match userSetting.Value with
      | .UserSetting_AccessTokens v => .ok v.AccessTokens
      | .other _ => .ok []

/-- Modelled from the spec: `Store.UpsertUserSettingV1`, the
`putUserSetting(userID, key, Value) -> ()` of section 6; absent from the sources.
The record of that user and key is replaced as a whole; a failed write changes nothing. -/
def Store.UpsertUserSettingV1 (s : Store) (upsert : storepb.UserSetting) :
    Except String storepb.UserSetting × Store :=
  match s.writeErr with
  | some err => (.error err, s)
  | none =>
    let others := s.settings.filter
      (fun x => !(x.UserId == upsert.UserId && x.Key == upsert.Key))
    (.ok upsert, { s with settings := upsert :: others })

end store

/-! ## Package api/auth (issuer of personal access tokens) -/

namespace api.auth

/-- Modelled from the spec: the constant issuer identifier of section 3. -/
def Issuer : String := "memos"

/-- Modelled from the spec: the key-version identifier `v1` of section 4.1. -/
def KeyID : String := "v1"

/-- Modelled from the spec: the audience `personal-access` of section 4.2. -/
def AccessTokenAudienceName : String := "personal-access"

/-- Modelled from the spec: type `auth.ClaimsMessage`, absent from the sources: the
claims of section 3 (principal name and the registered claims). -/
structure ClaimsMessage where
  Name : String
  RegisteredClaims : jwt.RegisteredClaims
deriving DecidableEq, Repr

/-- Accessor for the promoted field `claims.IssuedAt`. -/
def ClaimsMessage.IssuedAt (c : ClaimsMessage) : Option jwt.NumericDate :=
  c.RegisteredClaims.IssuedAt

/-- Accessor for the promoted field `claims.ExpiresAt`. -/
def ClaimsMessage.ExpiresAt (c : ClaimsMessage) : Option jwt.NumericDate :=
  c.RegisteredClaims.ExpiresAt

/-- Modelled from the spec: the claims of `issuePersonalAccess` (section 4.2), which the
four-argument `auth.GenerateAccessToken` absent from the sources builds: audience
`personal-access`, expiry the explicit one if the caller supplied one, else unset.
The caller under `api/v2` passes the zero `time.Time` for "none supplied". -/
def GenerateAccessToken.claims (username : String) (userID : Int)
    (expirationTime now : time.Time) : ClaimsMessage :=
  { Name := username,
    RegisteredClaims :=
      { Audience := [AccessTokenAudienceName],
        ExpiresAt :=
          if expirationTime.IsZero then none else some (jwt.NewNumericDate expirationTime),
        IssuedAt := some (jwt.NewNumericDate now),
        Issuer := Issuer,
        Subject := strconv.Itoa userID,
        NotBefore := none,
        ID := "" } }

/-- Modelled from the spec: the unsigned token of `auth.GenerateAccessToken`, in the
pinned algorithm and with the current key version (section 4.1, `sign`). -/
def GenerateAccessToken.token (username : String) (userID : Int)
    (expirationTime now : time.Time) : jwt.Token ClaimsMessage :=
  (jwt.NewWithClaims jwt.SigningMethodHS256
    (GenerateAccessToken.claims username userID expirationTime now)).setHeader
      "kid" (jwt.HeaderValue.str KeyID)

/-- Modelled from the spec: `auth.GenerateAccessToken(username, userID, expirationTime,
secret)` of package `api/auth`, absent from the sources: `issuePersonalAccess` of
section 4.2, signed as in section 4.1. -/
def GenerateAccessToken (J : jwt.Library ClaimsMessage) (username : String) (userID : Int)
    (expirationTime : time.Time) (secret : String) (clk : time.Clock) :
    Except String String × time.Clock :=
  let (now, clk) := time.Now clk
  match J.SignedString (GenerateAccessToken.token username userID expirationTime now) secret with
  | .error err => (.error err, clk)
  | .ok tokenString => (.ok tokenString, clk)

end api.auth

/-! ## Package apiv2pb (messages of the user service) -/

namespace apiv2pb

/-- Type `apiv2pb.UserAccessToken`. `IssuedAt` is assigned from `timestamppb.New` at
every place the handlers build such a message, so it is kept as a plain value;
`ExpiresAt` is the pointer field that may stay nil. -/
structure UserAccessToken where
  AccessToken : String
  Description : String
  IssuedAt : timestamppb.Timestamp
  ExpiresAt : Option timestamppb.Timestamp
deriving DecidableEq, Repr

/-- Type `apiv2pb.ListUserAccessTokensRequest`. -/
structure ListUserAccessTokensRequest where
  Username : String
deriving DecidableEq, Repr

/-- Type `apiv2pb.ListUserAccessTokensResponse`. -/
structure ListUserAccessTokensResponse where
  AccessTokens : List UserAccessToken
deriving DecidableEq, Repr

/-- Type `apiv2pb.CreateUserAccessTokenRequest`. -/
structure CreateUserAccessTokenRequest where
  Username : String
  Description : String
  ExpiresAt : Option timestamppb.Timestamp
deriving DecidableEq, Repr

/-- Type `apiv2pb.CreateUserAccessTokenResponse`. -/
structure CreateUserAccessTokenResponse where
  AccessToken : UserAccessToken
deriving DecidableEq, Repr

/-- Type `apiv2pb.DeleteUserAccessTokenRequest`. -/
structure DeleteUserAccessTokenRequest where
  Username : String
  AccessToken : String
deriving DecidableEq, Repr

/-- Type `apiv2pb.DeleteUserAccessTokenResponse`. -/
structure DeleteUserAccessTokenResponse where
deriving DecidableEq, Repr

end apiv2pb

/-! ## Package codes and the outcome of a handler -/

namespace codes

/-- The gRPC status codes the handlers return. -/
inductive Code where
  | Internal
  | NotFound
  | PermissionDenied
  | InvalidArgument
deriving DecidableEq, Repr

end codes

/-- What a call of a handler ends with: a response, an error status (`status.Errorf`,
its code kept and its message dropped), or a run-time panic. -/
inductive Outcome (α : Type) where
  | ok (response : α)
  | status (code : codes.Code)
  | panic
deriving DecidableEq, Repr

/-! ## Package api/v2: the access-token handlers of user_service.go -/

namespace api.v2

/-- The request context, reduced to the identifier of the authenticated caller. -/
structure Context where
  username : Option String
deriving DecidableEq, Repr

/-- Type `APIV2Service`, with the two fields the handlers read. -/
structure APIV2Service where
  Secret : String
  Store : store.Store
deriving DecidableEq, Repr

/-- Modelled from the spec: `getCurrentUser(ctx, store)`, absent from the sources: the
caller named by the request context is looked up with `lookupUser` (section 6). A
context without a caller gives no user and no error, the case that
`ListUserAccessTokens` tests with `user == nil`. -/
def getCurrentUser (ctx : Context) (s : store.Store) : Except String (Option store.User) :=
  match ctx.username with
  | none => .ok none
  | some username => s.GetUser { Username := username }

/-- The key function passed to `jwt.ParseWithClaims`, written out identically in
`ListUserAccessTokens` (lines 172-182) and `CreateUserAccessToken` (lines 240-250). -/
def keyFunc {C : Type} (Secret : String) (t : jwt.Token C) : Except String String :=
  if t.Method.Alg != jwt.SigningMethodHS256.Name then
    .error "unexpected access token signing method"
  else
    match t.header "kid" with
    | some (jwt.HeaderValue.str kid) =>
      if kid == "v1" then .ok Secret else .error "unexpected access token kid"
    | _ => .error "unexpected access token kid"

/-- The loop of `ListUserAccessTokens` (lines 169-197) over the stored records still to
visit, `accessTokens` being the slice built so far. Reading `claims.IssuedAt.Time`
through a nil `IssuedAt` panics. -/
def ListUserAccessTokens.loop (J : jwt.Library api.auth.ClaimsMessage) (Secret : String) :
    List storepb.AccessTokensUserSetting_AccessToken → List apiv2pb.UserAccessToken →
    Outcome (List apiv2pb.UserAccessToken)
  | [], accessTokens => .ok accessTokens
  | userAccessToken :: rest, accessTokens =>
    match jwt.ParseWithClaims J userAccessToken.AccessToken (keyFunc Secret) with
    | .error _ => ListUserAccessTokens.loop J Secret rest accessTokens
    | .ok parsed =>
      let claims := parsed.Claims
      match claims.IssuedAt with
      | none => .panic
      | some issuedAt =>
        let entry : apiv2pb.UserAccessToken :=
          { AccessToken := userAccessToken.AccessToken,
            Description := userAccessToken.Description,
            IssuedAt := timestamppb.New issuedAt.Time,
            ExpiresAt :=
              match claims.ExpiresAt with
              | some expiresAt => some (timestamppb.New expiresAt.Time)
              | none => none }
        ListUserAccessTokens.loop J Secret rest (accessTokens ++ [entry])

/-- Two's-complement wrap-around of a 64-bit signed integer. -/
def wrapInt64 (x : Int) : Int := (x + 2 ^ 63) % 2 ^ 64 - 2 ^ 63

/-- The comparison function of `ListUserAccessTokens` (lines 200-202):
`int(i.IssuedAt.Seconds - j.IssuedAt.Seconds)`, an `int64` subtraction converted to
`int` (64 bits wide). -/
def ListUserAccessTokens.cmp (i j : apiv2pb.UserAccessToken) : Int :=
  wrapInt64 (i.IssuedAt.Seconds - j.IssuedAt.Seconds)

/-- The user whose tokens `ListUserAccessTokens` lists (lines 148-162). -/
def ListUserAccessTokens.userID (s : APIV2Service) (user : store.User)
    (request : apiv2pb.ListUserAccessTokensRequest) : Outcome Int :=
  if user.Username != request.Username then
    if user.Role == store.Role.RoleUser then
      .status codes.Code.PermissionDenied
    else
      match s.Store.GetUser { Username := request.Username } with
      | .ok (some requestUser) => .ok requestUser.ID
      | _ => .status codes.Code.NotFound
  else
    .ok user.ID

/-- Method `ListUserAccessTokens`; returns the outcome and the store after the call. -/
def ListUserAccessTokens (J : jwt.Library api.auth.ClaimsMessage) (L : slices.Library)
    (s : APIV2Service) (ctx : Context) (request : apiv2pb.ListUserAccessTokensRequest) :
    Outcome apiv2pb.ListUserAccessTokensResponse × store.Store :=
  match getCurrentUser ctx s.Store with
  | .error _ => (.status codes.Code.Internal, s.Store)
  | .ok none => (.status codes.Code.PermissionDenied, s.Store)
  | .ok (some user) =>
    match ListUserAccessTokens.userID s user request with
    | .panic => (.panic, s.Store)
    | .status code => (.status code, s.Store)
    | .ok userID =>
      match s.Store.GetUserAccessTokens userID with
      | .error _ => (.status codes.Code.Internal, s.Store)
      | .ok userAccessTokens =>
        match ListUserAccessTokens.loop J s.Secret userAccessTokens [] with
        | .panic => (.panic, s.Store)
        | .status code => (.status code, s.Store)
        | .ok accessTokens =>
          let accessTokens := L.SortFunc _ accessTokens ListUserAccessTokens.cmp
          (.ok { AccessTokens := accessTokens }, s.Store)

/-- Method `UpsertAccessTokenToStore`; returns the error value and the store after
the call. -/
def UpsertAccessTokenToStore (s : APIV2Service) (user : store.User)
    (accessToken description : String) : Except String Unit × store.Store :=
  match s.Store.GetUserAccessTokens user.ID with
  | .error err => (.error ("failed to get user access tokens: " ++ err), s.Store)
  | .ok userAccessTokens =>
    let userAccessToken : storepb.AccessTokensUserSetting_AccessToken :=
      { AccessToken := accessToken, Description := description }
    let userAccessTokens := userAccessTokens ++ [userAccessToken]
    match s.Store.UpsertUserSettingV1
        { UserId := user.ID,
          Key := storepb.UserSettingKey.USER_SETTING_ACCESS_TOKENS,
          Value := .UserSetting_AccessTokens { AccessTokens := userAccessTokens } } with
    | (.error err, st) => (.error ("failed to upsert user setting: " ++ err), st)
    | (.ok _, st) => (.ok (), st)

/-- The authorization step of `CreateUserAccessToken` (lines 220-232): `none` when the
call may go on, otherwise the status it returns. -/
def CreateUserAccessToken.check (s : APIV2Service) (user : store.User)
    (request : apiv2pb.CreateUserAccessTokenRequest) : Option codes.Code :=
  if user.Username != request.Username then
    if user.Role == store.Role.RoleUser then
      some codes.Code.PermissionDenied
    else
      match s.Store.GetUser { Username := request.Username } with
      | .ok (some _) => none
      | _ => some codes.Code.NotFound
  else
    none

/-- The `expiresAt` handed to the issuer by `CreateUserAccessToken` (lines 215-218). -/
def CreateUserAccessToken.expiresAt (request : apiv2pb.CreateUserAccessTokenRequest) :
    time.Time :=
  match request.ExpiresAt with
  | some ts => ts.AsTime
  | none => time.zeroTime

/-- Method `CreateUserAccessToken`; returns the outcome, the store and the clock after
the call. Reading `user.Username` through a nil `user`, or `claims.IssuedAt.Time`
through a nil `IssuedAt`, panics. -/
def CreateUserAccessToken (J : jwt.Library api.auth.ClaimsMessage) (s : APIV2Service)
    (ctx : Context) (request : apiv2pb.CreateUserAccessTokenRequest) (clk : time.Clock) :
    Outcome apiv2pb.CreateUserAccessTokenResponse × store.Store × time.Clock :=
  match getCurrentUser ctx s.Store with
  | .error _ => (.status codes.Code.Internal, s.Store, clk)
  | .ok none => (.panic, s.Store, clk)
  | .ok (some user) =>
    let expiresAt := CreateUserAccessToken.expiresAt request
    match CreateUserAccessToken.check s user request with
    | some code => (.status code, s.Store, clk)
    | none =>
      match api.auth.GenerateAccessToken J request.Username user.ID expiresAt s.Secret clk with
      | (.error _, clk) => (.status codes.Code.Internal, s.Store, clk)
      | (.ok accessToken, clk) =>
        match jwt.ParseWithClaims J accessToken (keyFunc s.Secret) with
        | .error _ => (.status codes.Code.Internal, s.Store, clk)
        | .ok parsed =>
          let claims := parsed.Claims
          match UpsertAccessTokenToStore s user accessToken request.Description with
          | (.error _, st) => (.status codes.Code.Internal, st, clk)
          | (.ok _, st) =>
            match claims.IssuedAt with
            | none => (.panic, st, clk)
            | some issuedAt =>
              let userAccessToken : apiv2pb.UserAccessToken :=
                { AccessToken := accessToken,
                  Description := request.Description,
                  IssuedAt := timestamppb.New issuedAt.Time,
                  ExpiresAt :=
                    match claims.ExpiresAt with
                    | some expiresAt => some (timestamppb.New expiresAt.Time)
                    | none => none }
              (.ok { AccessToken := userAccessToken }, st, clk)

/-- The loop of `DeleteUserAccessToken` (lines 284-290): the stored records other than
those whose token is the requested one. -/
def DeleteUserAccessToken.loop (AccessToken : String) :
    List storepb.AccessTokensUserSetting_AccessToken →
    List storepb.AccessTokensUserSetting_AccessToken →
    List storepb.AccessTokensUserSetting_AccessToken
  | [], updatedUserAccessTokens => updatedUserAccessTokens
  | userAccessToken :: rest, updatedUserAccessTokens =>
    if userAccessToken.AccessToken == AccessToken then
      DeleteUserAccessToken.loop AccessToken rest updatedUserAccessTokens
    else
      DeleteUserAccessToken.loop AccessToken rest (updatedUserAccessTokens ++ [userAccessToken])

/-- Method `DeleteUserAccessToken`; returns the outcome and the store after the call.
Reading `user.ID` through a nil `user` panics. -/
def DeleteUserAccessToken (s : APIV2Service) (ctx : Context)
    (request : apiv2pb.DeleteUserAccessTokenRequest) :
    Outcome apiv2pb.DeleteUserAccessTokenResponse × store.Store :=
  match getCurrentUser ctx s.Store with
  | .error _ => (.status codes.Code.Internal, s.Store)
  | .ok none => (.panic, s.Store)
  | .ok (some user) =>
    match s.Store.GetUserAccessTokens user.ID with
    | .error _ => (.status codes.Code.Internal, s.Store)
    | .ok userAccessTokens =>
      let updatedUserAccessTokens := DeleteUserAccessToken.loop request.AccessToken userAccessTokens []
      match s.Store.UpsertUserSettingV1
          { UserId := user.ID,
            Key := storepb.UserSettingKey.USER_SETTING_ACCESS_TOKENS,
            Value := .UserSetting_AccessTokens { AccessTokens := updatedUserAccessTokens } } with
      | (.error _, st) => (.status codes.Code.Internal, st)
      | (.ok _, st) => (.ok {}, st)

end api.v2

/-! ## Tokens issued by the operations of api/v1/auth

The unsigned token that each issuing function hands to `SignedString`, as a function of
the clock at the start of the call: the first reading fixes the expiry, the second one
the issued-at claim. -/

namespace api.v1.auth

/-- The unsigned token of a call of `GenerateAPIToken`. -/
def GenerateAPIToken.token (userName : String) (userID : Int) (clk : time.Clock) :
    jwt.Token claimsMessage :=
  generateToken.token userName userID AccessTokenAudienceName
    ((clk 0).Add apiTokenDuration) (clk 1)

/-- The unsigned token of a call of `GenerateAccessToken`. -/
def GenerateAccessToken.token (userName : String) (userID : Int) (clk : time.Clock) :
    jwt.Token claimsMessage :=
  generateToken.token userName userID AccessTokenAudienceName
    ((clk 0).Add accessTokenDuration) (clk 1)

/-- The unsigned token of a call of `GenerateRefreshToken`. -/
def GenerateRefreshToken.token (userName : String) (userID : Int) (clk : time.Clock) :
    jwt.Token claimsMessage :=
  generateToken.token userName userID RefreshTokenAudienceName
    ((clk 0).Add refreshTokenDuration) (clk 1)

/-- The clock as `GenerateTokensAndSetCookies` finds it when it calls
`GenerateRefreshToken`: three readings have been taken before. -/
def GenerateTokensAndSetCookies.refreshClock (clk : time.Clock) : time.Clock :=
  fun n => clk (n + 3)

end api.v1.auth

/-! ## Sample data -/

namespace sample

/-- A signing library that accepts every token and returns one fixed string. -/
def signer : jwt.Library api.v1.auth.claimsMessage :=
  { SignedString := fun _ _ => .ok "signed",
    decode := fun _ => none,
    verify := fun _ _ _ => false }

/-- A clock that advances by a quarter of a second per reading, from 1.5 s on. -/
def clock : time.Clock := fun n => ⟨1500000000 + 250000000 * n⟩

/-- A user record. -/
def alice : store.User := { ID := 1, Username := "alice", Role := store.Role.RoleUser }

/-- Three stored records of `alice`, two of them holding the same token string. -/
def records : List storepb.AccessTokensUserSetting_AccessToken :=
  [{ AccessToken := "t1", Description := "laptop" },
   { AccessToken := "t2", Description := "ci" },
   { AccessToken := "t1", Description := "copy" }]

/-- A store holding `alice` and her three records, every access succeeding. -/
def settings : store.Store :=
  { users := [alice],
    settings :=
      [{ UserId := 1,
         Key := storepb.UserSettingKey.USER_SETTING_ACCESS_TOKENS,
         Value := .UserSetting_AccessTokens { AccessTokens := records } }],
    lookupErr := none,
    readErr := none,
    writeErr := none }

/-- The service over that store. -/
def service : api.v2.APIV2Service := { Secret := "secret", Store := settings }

/-- The request context of a call made by `alice`. -/
def ctx : api.v2.Context := { username := some "alice" }

/-- A well-formed personal access token, HS256 with key version `v1`, whose claims carry
the given issued-at (in seconds since the epoch), if any, and no expiry. -/
def personal (issuedAt : Option Int) : jwt.Token api.auth.ClaimsMessage :=
  (jwt.NewWithClaims jwt.SigningMethodHS256
    ({ Name := "alice",
       RegisteredClaims :=
         { Audience := [api.auth.AccessTokenAudienceName],
           ExpiresAt := none,
           IssuedAt := issuedAt.map (fun sec => ⟨time.Unix sec 0⟩),
           Issuer := api.auth.Issuer,
           Subject := "1",
           NotBefore := none,
           ID := "" } } : api.auth.ClaimsMessage)).setHeader "kid" (jwt.HeaderValue.str "v1")

/-- The request of `alice` for a token named `phone` that expires 2000 s after the epoch. -/
def request : apiv2pb.CreateUserAccessTokenRequest :=
  { Username := "alice", Description := "phone", ExpiresAt := some { Seconds := 2000, Nanos := 0 } }

/-- A token library with five known token strings. Every signature made with the key
`secret` is accepted; `issued` is the string every signing returns, and it decodes to the
token that `request` makes the issuer build at the first reading of `clock`. -/
def tokens : jwt.Library api.auth.ClaimsMessage :=
  { SignedString := fun _ _ => .ok "issued",
    decode := fun tokenString =>
      if tokenString = "t1" then some (personal (some 100))
      else if tokenString = "t2" then some (personal (some 50))
      else if tokenString = "recent" then some (personal (some 1700000000))
      else if tokenString = "ancient" then some (personal (some (-9223372036854774784)))
      else if tokenString = "no-iat" then some (personal none)
      else if tokenString = "issued" then
        some (api.auth.GenerateAccessToken.token "alice" 1
          (api.v2.CreateUserAccessToken.expiresAt request) (clock 0))
      else none,
    verify := fun _ _ key => key == "secret" }

/-- The service over a store in which `alice` holds the given records. -/
def serviceWith (records : List storepb.AccessTokensUserSetting_AccessToken) :
    api.v2.APIV2Service :=
  { Secret := "secret",
    Store :=
      { users := [alice],
        settings :=
          [{ UserId := 1,
             Key := storepb.UserSettingKey.USER_SETTING_ACCESS_TOKENS,
             Value := .UserSetting_AccessTokens { AccessTokens := records } }],
        lookupErr := none,
        readErr := none,
        writeErr := none } }

/-- A second user record, with the host role. -/
def root : store.User := { ID := 2, Username := "root", Role := store.Role.RoleHost }

/-- The request context of a call made by `root`. -/
def rootCtx : api.v2.Context := { username := some "root" }

/-- A store holding `alice`, with her three records, and `root`, who has none; every
access succeeding. -/
def shared : store.Store :=
  { users := [alice, root],
    settings :=
      [{ UserId := 1,
         Key := storepb.UserSettingKey.USER_SETTING_ACCESS_TOKENS,
         Value := .UserSetting_AccessTokens { AccessTokens := records } }],
    lookupErr := none,
    readErr := none,
    writeErr := none }

/-- The sample store with every read of a setting failing. -/
def unreadable : store.Store := { settings with readErr := some "database is locked" }

/-- A token library that signs exactly the token `t`, as the string `issued`, and refuses
to sign any other; `issued` decodes back to `t`, and every signature made with the key
`secret` is accepted. -/
def issuing (t : jwt.Token api.auth.ClaimsMessage) : jwt.Library api.auth.ClaimsMessage :=
  { SignedString := fun u _ => if u = t then .ok "issued" else .error "unexpected token",
    decode := fun tokenString => if tokenString = "issued" then some t else none,
    verify := fun _ _ key => key == "secret" }

/-- A token library whose signing always fails. -/
def failing : jwt.Library api.auth.ClaimsMessage :=
  { SignedString := fun _ _ => .error "key is invalid",
    decode := fun _ => none,
    verify := fun _ _ _ => false }

/-- Thirteen token strings with their issued-at seconds: `k00` and `k06` are issued at 5 s,
`k01` to `k05` at 1 s and `k07` to `k12` at 9 s. -/
def thirteen : List (String × Int) :=
  [("k00", 5), ("k01", 1), ("k02", 1), ("k03", 1), ("k04", 1), ("k05", 1), ("k06", 5),
   ("k07", 9), ("k08", 9), ("k09", 9), ("k10", 9), ("k11", 9), ("k12", 9)]

/-- A token library that knows the thirteen token strings and accepts every signature
made with the key `secret`. -/
def tokens13 : jwt.Library api.auth.ClaimsMessage :=
  { SignedString := fun _ _ => .error "not a signer",
    decode := fun tokenString => (thirteen.lookup tokenString).map (fun sec => personal (some sec)),
    verify := fun _ _ key => key == "secret" }

/-- The thirteen tokens as stored records, each described by its own token string. -/
def records13 : List storepb.AccessTokensUserSetting_AccessToken :=
  thirteen.map (fun e => { AccessToken := e.1, Description := e.1 })

/-- A store in which `alice` holds her three records and a setting under another key, and
`root` holds a record of his own with the token string `t1`; every access succeeding. -/
def crowded : store.Store :=
  { users := [alice, root],
    settings :=
      [{ UserId := 1,
         Key := storepb.UserSettingKey.USER_SETTING_KEY_UNSPECIFIED,
         Value := .other "locale=en" },
       { UserId := 2,
         Key := storepb.UserSettingKey.USER_SETTING_ACCESS_TOKENS,
         Value := .UserSetting_AccessTokens
           { AccessTokens := [{ AccessToken := "t1", Description := "desk" }] } },
       { UserId := 1,
         Key := storepb.UserSettingKey.USER_SETTING_ACCESS_TOKENS,
         Value := .UserSetting_AccessTokens { AccessTokens := records } }],
    lookupErr := none,
    readErr := none,
    writeErr := none }

/-- The store of `alice` and `root` in which the lookup of `alice` and that of `carol`
fail with a timeout, while every other access succeeds. -/
def flaky : store.Store :=
  { shared with lookupErrOf := [("alice", "timeout"), ("carol", "timeout")] }

/-- A signing library that returns, instead of a signature, the audience of the token it
is given to sign. -/
def audiences : jwt.Library api.v1.auth.claimsMessage :=
  { SignedString := fun t _ => .ok (String.intercalate "," t.Claims.RegisteredClaims.Audience),
    decode := fun _ => none,
    verify := fun _ _ _ => false }

end sample

/-! ## Arithmetic of instants -/

theorem time.Truncate_Second_unixNano (t : time.Time) :
    (t.Truncate time.Second).unixNano = t.unixNano - t.unixNano % 1000000000 := by
  simp only [time.Time.Truncate, time.Second, time.zeroTime]
  rw [if_neg (by decide)]
  show t.unixNano - (t.unixNano - -62135596800 * 1000000000) % 1000000000 = _
  omega

theorem jwt.NewNumericDate_unixNano (t : time.Time) :
    (jwt.NewNumericDate t).Time.unixNano = t.unixNano - t.unixNano % 1000000000 := by
  simp only [jwt.NewNumericDate, jwt.TimePrecision]
  exact time.Truncate_Second_unixNano t

theorem jwt.NewNumericDate_Unix (t : time.Time) :
    (jwt.NewNumericDate t).Time.Unix = t.Unix ∧ (jwt.NewNumericDate t).Time.Nanosecond = 0 := by
  simp only [time.Time.Unix, time.Time.Nanosecond, jwt.NewNumericDate_unixNano, time.Second]
  constructor <;> omega

/-! ## The issuing functions sign the tokens named above -/

theorem api.v1.auth.generateToken_eq (J : jwt.Library api.v1.auth.claimsMessage)
    (username : String) (userID : Int) (aud : String) (expirationTime : time.Time)
    (secret : String) (clk : time.Clock) :
    api.v1.auth.generateToken J username userID aud expirationTime secret clk =
      (J.SignedString
        (api.v1.auth.generateToken.token username userID aud expirationTime (clk 0)) secret,
       fun n => clk (n + 1)) := by
  simp only [api.v1.auth.generateToken, time.Now]
  cases J.SignedString
    (api.v1.auth.generateToken.token username userID aud expirationTime (clk 0)) secret <;> rfl

theorem api.v1.auth.GenerateAPIToken_eq (J : jwt.Library api.v1.auth.claimsMessage)
    (userName : String) (userID : Int) (secret : String) (clk : time.Clock) :
    api.v1.auth.GenerateAPIToken J userName userID secret clk =
      (J.SignedString (api.v1.auth.GenerateAPIToken.token userName userID clk) secret,
       fun n => clk (n + 2)) := by
  simp only [api.v1.auth.GenerateAPIToken, time.Now, api.v1.auth.generateToken_eq,
    api.v1.auth.GenerateAPIToken.token]

theorem api.v1.auth.GenerateAccessToken_eq (J : jwt.Library api.v1.auth.claimsMessage)
    (userName : String) (userID : Int) (secret : String) (clk : time.Clock) :
    api.v1.auth.GenerateAccessToken J userName userID secret clk =
      (J.SignedString (api.v1.auth.GenerateAccessToken.token userName userID clk) secret,
       fun n => clk (n + 2)) := by
  simp only [api.v1.auth.GenerateAccessToken, time.Now, api.v1.auth.generateToken_eq,
    api.v1.auth.GenerateAccessToken.token]

theorem api.v1.auth.GenerateRefreshToken_eq (J : jwt.Library api.v1.auth.claimsMessage)
    (userName : String) (userID : Int) (secret : String) (clk : time.Clock) :
    api.v1.auth.GenerateRefreshToken J userName userID secret clk =
      (J.SignedString (api.v1.auth.GenerateRefreshToken.token userName userID clk) secret,
       fun n => clk (n + 2)) := by
  simp only [api.v1.auth.GenerateRefreshToken, time.Now, api.v1.auth.generateToken_eq,
    api.v1.auth.GenerateRefreshToken.token]

theorem api.v1.auth.setTokenCookie_cookies (c : echo.Context) (name token : String)
    (expiration : time.Time) :
    (api.v1.auth.setTokenCookie c name token expiration).cookies =
      c.cookies ++
        [{ Name := name, Value := token, Path := "/", Domain := "", Expires := expiration,
           MaxAge := 0, Secure := false, HttpOnly := true,
           SameSite := http.SameSite.SameSiteStrictMode }] := by
  rfl

theorem api.v1.auth.GenerateTokensAndSetCookies_eq (J : jwt.Library api.v1.auth.claimsMessage)
    (c : echo.Context) (user : store.User) (secret : String) (clk : time.Clock) :
    api.v1.auth.GenerateTokensAndSetCookies J c user secret clk =
      match J.SignedString
          (api.v1.auth.GenerateAccessToken.token user.Username user.ID clk) secret with
      | .error err => (.error ("failed to generate access token: " ++ err), c, fun n => clk (n + 2))
      | .ok accessToken =>
        match J.SignedString
            (api.v1.auth.GenerateRefreshToken.token user.Username user.ID
              (api.v1.auth.GenerateTokensAndSetCookies.refreshClock clk)) secret with
        | .error err =>
          (.error ("failed to generate refresh token: " ++ err),
           api.v1.auth.setTokenCookie c api.v1.auth.AccessTokenCookieName accessToken
             ((clk 2).Add api.v1.auth.CookieExpDuration),
           fun n => clk (n + 5))
        | .ok refreshToken =>
          (.ok (),
           api.v1.auth.setTokenCookie
             (api.v1.auth.setTokenCookie c api.v1.auth.AccessTokenCookieName accessToken
               ((clk 2).Add api.v1.auth.CookieExpDuration))
             api.v1.auth.RefreshTokenCookieName refreshToken
             ((clk 2).Add api.v1.auth.CookieExpDuration),
           fun n => clk (n + 5)) := by
  unfold api.v1.auth.GenerateTokensAndSetCookies
  rw [api.v1.auth.GenerateAccessToken_eq]
  cases J.SignedString
      (api.v1.auth.GenerateAccessToken.token user.Username user.ID clk) secret with
  | error e => rfl
  | ok accessToken =>
    simp only [time.Now, api.v1.auth.GenerateRefreshToken_eq]
    show (match (J.SignedString
          (api.v1.auth.GenerateRefreshToken.token user.Username user.ID
            (api.v1.auth.GenerateTokensAndSetCookies.refreshClock clk)) secret,
          fun n => clk (n + 5)) with
      | (.error err, clk1) => _
      | (.ok refreshToken, clk1) => _) = _
    cases J.SignedString
        (api.v1.auth.GenerateRefreshToken.token user.Username user.ID
          (api.v1.auth.GenerateTokensAndSetCookies.refreshClock clk)) secret with
    | error e => rfl
    | ok refreshToken => rfl

theorem api.v1.auth.GenerateTokensAndSetCookies_ok (J : jwt.Library api.v1.auth.claimsMessage)
    (c : echo.Context) (user : store.User) (secret : String) (clk : time.Clock)
    (hok : (api.v1.auth.GenerateTokensAndSetCookies J c user secret clk).1 = .ok ()) :
    ∃ accessToken refreshToken,
      J.SignedString
        (api.v1.auth.GenerateAccessToken.token user.Username user.ID clk) secret
        = .ok accessToken ∧
      J.SignedString
        (api.v1.auth.GenerateRefreshToken.token user.Username user.ID
          (api.v1.auth.GenerateTokensAndSetCookies.refreshClock clk)) secret
        = .ok refreshToken ∧
      api.v1.auth.GenerateTokensAndSetCookies J c user secret clk =
        (.ok (),
         api.v1.auth.setTokenCookie
           (api.v1.auth.setTokenCookie c api.v1.auth.AccessTokenCookieName accessToken
             ((clk 2).Add api.v1.auth.CookieExpDuration))
           api.v1.auth.RefreshTokenCookieName refreshToken
           ((clk 2).Add api.v1.auth.CookieExpDuration),
         fun n => clk (n + 5)) := by
  rw [api.v1.auth.GenerateTokensAndSetCookies_eq] at hok ⊢
  cases ha : J.SignedString
      (api.v1.auth.GenerateAccessToken.token user.Username user.ID clk) secret with
  | error e =>
    rw [ha] at hok
    cases hok
  | ok accessToken =>
    cases hr : J.SignedString
        (api.v1.auth.GenerateRefreshToken.token user.Username user.ID
          (api.v1.auth.GenerateTokensAndSetCookies.refreshClock clk)) secret with
    | error e =>
      rw [ha] at hok
      simp only [hr] at hok
      cases hok
    | ok refreshToken => exact ⟨accessToken, refreshToken, rfl, rfl, rfl⟩

/-! ## Session cookie manager and token issuer (api/v1/auth) -/

/-- C7: when `GenerateTokensAndSetCookies` succeeds, and the clock reading taken for the
cookie expiry (the third of the call) is not later than the one taken next for the expiry
of the refresh token, both cookies the call sets expire strictly before the expires-at
claim (truncated to whole seconds) of the refresh token signed in the same call. -/
theorem api.v1.auth.cookie_expiry_before_refresh_expiry
    (J : jwt.Library api.v1.auth.claimsMessage) (c : echo.Context) (user : store.User)
    (secret : String) (clk : time.Clock)
    (hclock : (clk 2).unixNano ≤ (clk 3).unixNano)
    (hok : (api.v1.auth.GenerateTokensAndSetCookies J c user secret clk).1 = .ok ()) :
    ∃ refreshToken expiresAt set,
      J.SignedString
        (api.v1.auth.GenerateRefreshToken.token user.Username user.ID
          (api.v1.auth.GenerateTokensAndSetCookies.refreshClock clk)) secret
        = .ok refreshToken ∧
      (api.v1.auth.GenerateRefreshToken.token user.Username user.ID
          (api.v1.auth.GenerateTokensAndSetCookies.refreshClock clk)).Claims.RegisteredClaims.ExpiresAt
        = some expiresAt ∧
      (api.v1.auth.GenerateTokensAndSetCookies J c user secret clk).2.1.cookies
        = c.cookies ++ set ∧
      set.length = 2 ∧
      (∃ cookie ∈ set, cookie.Name = api.v1.auth.RefreshTokenCookieName ∧
        cookie.Value = refreshToken) ∧
      ∀ cookie ∈ set, cookie.Expires.Before expiresAt.Time := by
  obtain ⟨accessToken, refreshToken, _, hr, heq⟩ :=
    api.v1.auth.GenerateTokensAndSetCookies_ok J c user secret clk hok
  refine ⟨refreshToken,
    jwt.NewNumericDate ((clk 3).Add api.v1.auth.refreshTokenDuration),
    [{ Name := api.v1.auth.AccessTokenCookieName, Value := accessToken, Path := "/",
       Domain := "", Expires := (clk 2).Add api.v1.auth.CookieExpDuration, MaxAge := 0,
       Secure := false, HttpOnly := true, SameSite := http.SameSite.SameSiteStrictMode },
     { Name := api.v1.auth.RefreshTokenCookieName, Value := refreshToken, Path := "/",
       Domain := "", Expires := (clk 2).Add api.v1.auth.CookieExpDuration, MaxAge := 0,
       Secure := false, HttpOnly := true, SameSite := http.SameSite.SameSiteStrictMode }],
    hr, rfl, ?_, rfl, ?_, ?_⟩
  · rw [heq]
    simp only [api.v1.auth.setTokenCookie_cookies, List.append_assoc, List.singleton_append]
  · exact ⟨_, List.mem_cons_of_mem _ (List.mem_singleton.mpr rfl), rfl, rfl⟩
  · intro cookie hmem
    have hexp : cookie.Expires = (clk 2).Add api.v1.auth.CookieExpDuration := by
      simp only [List.mem_cons, List.mem_singleton, List.not_mem_nil, or_false] at hmem
      rcases hmem with h | h <;> rw [h]
    rw [hexp]
    simp only [time.Time.Before, jwt.NewNumericDate_unixNano, time.Time.Add,
      api.v1.auth.CookieExpDuration, api.v1.auth.refreshTokenDuration, time.Hour, time.Minute,
      time.Second]
    omega

/-- C7 on the sample clock, whose readings advance by a quarter of a second: the cookies
expire at 604742 s and the refresh token at 604802 s. -/
theorem api.v1.auth.cookie_expiry_before_refresh_expiry_witness :
    (sample.clock 2).unixNano ≤ (sample.clock 3).unixNano ∧
    (api.v1.auth.GenerateTokensAndSetCookies sample.signer ⟨[]⟩ sample.alice "secret"
      sample.clock).1 = .ok () ∧
    ∃ refreshToken expiresAt set,
      sample.signer.SignedString
        (api.v1.auth.GenerateRefreshToken.token sample.alice.Username sample.alice.ID
          (api.v1.auth.GenerateTokensAndSetCookies.refreshClock sample.clock)) "secret"
        = .ok refreshToken ∧
      (api.v1.auth.GenerateRefreshToken.token sample.alice.Username sample.alice.ID
          (api.v1.auth.GenerateTokensAndSetCookies.refreshClock
            sample.clock)).Claims.RegisteredClaims.ExpiresAt
        = some expiresAt ∧
      (api.v1.auth.GenerateTokensAndSetCookies sample.signer ⟨[]⟩ sample.alice "secret"
        sample.clock).2.1.cookies = [] ++ set ∧
      set.length = 2 ∧
      (∃ cookie ∈ set, cookie.Name = api.v1.auth.RefreshTokenCookieName ∧
        cookie.Value = refreshToken) ∧
      ∀ cookie ∈ set, cookie.Expires.Before expiresAt.Time :=
  ⟨by decide, rfl,
    api.v1.auth.cookie_expiry_before_refresh_expiry sample.signer ⟨[]⟩ sample.alice "secret"
      sample.clock (by decide) rfl⟩

/-- C8, as amended: for every clock, `GenerateAccessToken` signs a token whose audience is
the access-token audience and whose expiry is the first clock reading plus 24 hours,
truncated to whole seconds; `GenerateRefreshToken` signs one whose audience is the
refresh-token audience and whose expiry is the reading plus 7 days, truncated to whole
seconds. In both the subject is the decimal string of the user id, the name is the given
user name and the issuer is the constant `memos`. -/
theorem api.v1.auth.session_token_claims (J : jwt.Library api.v1.auth.claimsMessage)
    (userName : String) (userID : Int) (secret : String) (clk : time.Clock) :
    (api.v1.auth.GenerateAccessToken J userName userID secret clk).1 =
        J.SignedString (api.v1.auth.GenerateAccessToken.token userName userID clk) secret ∧
    (api.v1.auth.GenerateRefreshToken J userName userID secret clk).1 =
        J.SignedString (api.v1.auth.GenerateRefreshToken.token userName userID clk) secret ∧
    (∃ expiresAt,
      (api.v1.auth.GenerateAccessToken.token userName userID clk).Claims.RegisteredClaims
        = { Audience := [api.v1.auth.AccessTokenAudienceName],
            ExpiresAt := some expiresAt,
            IssuedAt := some (jwt.NewNumericDate (clk 1)),
            Issuer := "memos",
            Subject := strconv.Itoa userID,
            NotBefore := none,
            ID := "" } ∧
      expiresAt.Time.Unix = ((clk 0).Add (24 * time.Hour)).Unix ∧
      expiresAt.Time.Nanosecond = 0) ∧
    (∃ expiresAt,
      (api.v1.auth.GenerateRefreshToken.token userName userID clk).Claims.RegisteredClaims
        = { Audience := [api.v1.auth.RefreshTokenAudienceName],
            ExpiresAt := some expiresAt,
            IssuedAt := some (jwt.NewNumericDate (clk 1)),
            Issuer := "memos",
            Subject := strconv.Itoa userID,
            NotBefore := none,
            ID := "" } ∧
      expiresAt.Time.Unix = ((clk 0).Add (7 * 24 * time.Hour)).Unix ∧
      expiresAt.Time.Nanosecond = 0) ∧
    (api.v1.auth.GenerateAccessToken.token userName userID clk).Claims.Name = userName ∧
    (api.v1.auth.GenerateRefreshToken.token userName userID clk).Claims.Name = userName := by
  refine ⟨?_, ?_, ?_, ?_, rfl, rfl⟩
  · rw [api.v1.auth.GenerateAccessToken_eq]
  · rw [api.v1.auth.GenerateRefreshToken_eq]
  · exact ⟨jwt.NewNumericDate ((clk 0).Add api.v1.auth.accessTokenDuration), rfl,
      jwt.NewNumericDate_Unix _⟩
  · exact ⟨jwt.NewNumericDate ((clk 0).Add api.v1.auth.refreshTokenDuration), rfl,
      jwt.NewNumericDate_Unix _⟩

/-- C8 fails as stated: at a clock reading of 1.5 s after the epoch, the expiry claim of
the access token is 86401 s and that of the refresh token 604801 s, neither of which is
exactly the reading plus 24 hours or plus 7 days. -/
theorem api.v1.auth.session_token_expiry_not_exact :
    (api.v1.auth.GenerateAccessToken.token "alice" 1 sample.clock).Claims.RegisteredClaims.ExpiresAt
      = some ⟨⟨86401000000000⟩⟩ ∧
    (sample.clock 0).Add (24 * time.Hour) = ⟨86401500000000⟩ ∧
    (api.v1.auth.GenerateRefreshToken.token "alice" 1 sample.clock).Claims.RegisteredClaims.ExpiresAt
      = some ⟨⟨604801000000000⟩⟩ ∧
    (sample.clock 0).Add (7 * 24 * time.Hour) = ⟨604801500000000⟩ := by
  decide

/-- C9, as amended: for every signing library, secret and clocks, each of
`GenerateAPIToken`, `GenerateAccessToken` and `GenerateRefreshToken` returns the signature
of the token it builds; the token that `GenerateRefreshToken` builds carries the audience
`user.refresh-token`, which differs from the audience of the two other kinds, while the
tokens that `GenerateAPIToken` and `GenerateAccessToken` build carry the same audience,
`user.access-token`. -/
theorem api.v1.auth.token_audiences (J : jwt.Library api.v1.auth.claimsMessage)
    (userName : String) (userID : Int) (secret : String)
    (clkAPI clkAccess clkRefresh : time.Clock) :
    (api.v1.auth.GenerateAPIToken J userName userID secret clkAPI).1 =
        J.SignedString (api.v1.auth.GenerateAPIToken.token userName userID clkAPI) secret ∧
    (api.v1.auth.GenerateAccessToken J userName userID secret clkAccess).1 =
        J.SignedString (api.v1.auth.GenerateAccessToken.token userName userID clkAccess) secret ∧
    (api.v1.auth.GenerateRefreshToken J userName userID secret clkRefresh).1 =
        J.SignedString (api.v1.auth.GenerateRefreshToken.token userName userID clkRefresh) secret ∧
    (api.v1.auth.GenerateAPIToken.token userName userID clkAPI).Claims.RegisteredClaims.Audience
      = ["user.access-token"] ∧
    (api.v1.auth.GenerateAccessToken.token userName userID clkAccess).Claims.RegisteredClaims.Audience
      = ["user.access-token"] ∧
    (api.v1.auth.GenerateRefreshToken.token userName userID clkRefresh).Claims.RegisteredClaims.Audience
      = ["user.refresh-token"] ∧
    (api.v1.auth.GenerateRefreshToken.token userName userID clkRefresh).Claims.RegisteredClaims.Audience
      ≠ (api.v1.auth.GenerateAccessToken.token userName userID clkAccess).Claims.RegisteredClaims.Audience ∧
    (api.v1.auth.GenerateRefreshToken.token userName userID clkRefresh).Claims.RegisteredClaims.Audience
      ≠ (api.v1.auth.GenerateAPIToken.token userName userID clkAPI).Claims.RegisteredClaims.Audience := by
  refine ⟨?_, ?_, ?_, rfl, rfl, rfl, ?_, ?_⟩
  · rw [api.v1.auth.GenerateAPIToken_eq]
  · rw [api.v1.auth.GenerateAccessToken_eq]
  · rw [api.v1.auth.GenerateRefreshToken_eq]
  · show ["user.refresh-token"] ≠ ["user.access-token"]
    decide
  · show ["user.refresh-token"] ≠ ["user.access-token"]
    decide

/-- C9 fails as stated: run with a signing library that returns the audience of the token
it is given to sign, `GenerateAPIToken` and `GenerateAccessToken` both return
`user.access-token` for one user, and `GenerateRefreshToken` returns `user.refresh-token`;
so the audiences of the three kinds are not pairwise different, the API token and the
session access token carry the same one. -/
theorem api.v1.auth.token_audiences_not_pairwise_different :
    (api.v1.auth.GenerateAPIToken sample.audiences "alice" 1 "secret" sample.clock).1
      = .ok "user.access-token" ∧
    (api.v1.auth.GenerateAccessToken sample.audiences "alice" 1 "secret" sample.clock).1
      = .ok "user.access-token" ∧
    (api.v1.auth.GenerateRefreshToken sample.audiences "alice" 1 "secret" sample.clock).1
      = .ok "user.refresh-token" ∧
    (api.v1.auth.GenerateAPIToken sample.audiences "alice" 1 "secret" sample.clock).1
      = (api.v1.auth.GenerateAccessToken sample.audiences "alice" 1 "secret" sample.clock).1 ∧
    ¬ ((api.v1.auth.GenerateAPIToken.token "alice" 1 sample.clock).Claims.RegisteredClaims.Audience
        ≠ (api.v1.auth.GenerateAccessToken.token "alice" 1 sample.clock).Claims.RegisteredClaims.Audience ∧
       (api.v1.auth.GenerateAPIToken.token "alice" 1 sample.clock).Claims.RegisteredClaims.Audience
        ≠ (api.v1.auth.GenerateRefreshToken.token "alice" 1 sample.clock).Claims.RegisteredClaims.Audience ∧
       (api.v1.auth.GenerateAccessToken.token "alice" 1 sample.clock).Claims.RegisteredClaims.Audience
        ≠ (api.v1.auth.GenerateRefreshToken.token "alice" 1 sample.clock).Claims.RegisteredClaims.Audience) :=
  ⟨rfl, rfl, rfl, rfl, fun h => h.1 rfl⟩

/-! ## Key selection of token verification (api/v2) -/

/-- C6: the key function of token verification returns the signing secret exactly when the
algorithm of the token is HS256 and its `kid` header is the string `v1`; for every other
token (another algorithm, no `kid`, a `kid` that is not a string, another `kid` string) it
returns an error, and `jwt.ParseWithClaims` with this key function then fails on every
token string that decodes to such a token. -/
theorem api.v2.keyFunc_spec {C : Type} (Secret : String) (t : jwt.Token C) :
    (api.v2.keyFunc Secret t = .ok Secret ↔
      (t.Method.Alg = "HS256" ∧ t.header "kid" = some (jwt.HeaderValue.str "v1"))) ∧
    (¬ (t.Method.Alg = "HS256" ∧ t.header "kid" = some (jwt.HeaderValue.str "v1")) →
      ∃ err, api.v2.keyFunc Secret t = .error err ∧
        ∀ (J : jwt.Library C) (tokenString : String), J.decode tokenString = some t →
          jwt.ParseWithClaims J tokenString (api.v2.keyFunc Secret) = .error err) := by
  have key : ∀ err, api.v2.keyFunc Secret t = .error err →
      ∀ (J : jwt.Library C) (tokenString : String), J.decode tokenString = some t →
        jwt.ParseWithClaims J tokenString (api.v2.keyFunc Secret) = .error err := by
    intro err herr J tokenString hdec
    simp only [jwt.ParseWithClaims, hdec, herr]
  by_cases halg : t.Method.Alg = "HS256"
  · cases hkid : t.header "kid" with
    | none =>
      have h : api.v2.keyFunc Secret t = .error "unexpected access token kid" := by
        simp [api.v2.keyFunc, halg, hkid, jwt.SigningMethodHS256]
      exact ⟨by simp [h], fun _ => ⟨_, h, key _ h⟩⟩
    | some v =>
      cases v with
      | str kid =>
        by_cases hv : kid = "v1"
        · subst hv
          have h : api.v2.keyFunc Secret t = .ok Secret := by
            simp [api.v2.keyFunc, halg, hkid, jwt.SigningMethodHS256]
          exact ⟨by simp [h, halg], fun hn => absurd ⟨halg, rfl⟩ hn⟩
        · have h : api.v2.keyFunc Secret t = .error "unexpected access token kid" := by
            simp [api.v2.keyFunc, halg, hkid, hv, jwt.SigningMethodHS256]
          exact ⟨by simp [h, hv], fun _ => ⟨_, h, key _ h⟩⟩
      | num n =>
        have h : api.v2.keyFunc Secret t = .error "unexpected access token kid" := by
          simp [api.v2.keyFunc, halg, hkid, jwt.SigningMethodHS256]
        exact ⟨by simp [h], fun _ => ⟨_, h, key _ h⟩⟩
      | bool b =>
        have h : api.v2.keyFunc Secret t = .error "unexpected access token kid" := by
          simp [api.v2.keyFunc, halg, hkid, jwt.SigningMethodHS256]
        exact ⟨by simp [h], fun _ => ⟨_, h, key _ h⟩⟩
      | null =>
        have h : api.v2.keyFunc Secret t = .error "unexpected access token kid" := by
          simp [api.v2.keyFunc, halg, hkid, jwt.SigningMethodHS256]
        exact ⟨by simp [h], fun _ => ⟨_, h, key _ h⟩⟩
      | composite =>
        have h : api.v2.keyFunc Secret t = .error "unexpected access token kid" := by
          simp [api.v2.keyFunc, halg, hkid, jwt.SigningMethodHS256]
        exact ⟨by simp [h], fun _ => ⟨_, h, key _ h⟩⟩
  · have h : api.v2.keyFunc Secret t = .error "unexpected access token signing method" := by
      simp [api.v2.keyFunc, halg, jwt.SigningMethodHS256]
    exact ⟨by simp [h, halg], fun _ => ⟨_, h, key _ h⟩⟩

/-! ## The settings store -/

theorem store.GetUserAccessTokens_readErr (s : store.Store) (userID : Int)
    (records : List storepb.AccessTokensUserSetting_AccessToken)
    (h : s.GetUserAccessTokens userID = .ok records) : s.readErr = none := by
  cases hr : s.readErr with
  | none => rfl
  | some err =>
    simp only [store.Store.GetUserAccessTokens, hr] at h
    cases h

theorem store.UpsertUserSettingV1_writeErr (s : store.Store) (upsert : storepb.UserSetting)
    (err : String) (h : s.writeErr = some err) :
    s.UpsertUserSettingV1 upsert = (.error err, s) := by
  simp only [store.Store.UpsertUserSettingV1, h]

theorem store.UpsertUserSettingV1_ok (s : store.Store) (upsert : storepb.UserSetting)
    (h : s.writeErr = none) :
    s.UpsertUserSettingV1 upsert =
      (.ok upsert,
       { s with
         settings := upsert :: s.settings.filter
                       (fun x => !(x.UserId == upsert.UserId && x.Key == upsert.Key)) }) := by
  simp only [store.Store.UpsertUserSettingV1, h]

/-- Reading the access tokens of a user back after a write of them returns what was
written. -/
theorem store.GetUserAccessTokens_UpsertUserSettingV1 (s : store.Store) (userID : Int)
    (records : List storepb.AccessTokensUserSetting_AccessToken)
    (hr : s.readErr = none) (hw : s.writeErr = none) :
    (s.UpsertUserSettingV1
        { UserId := userID,
          Key := storepb.UserSettingKey.USER_SETTING_ACCESS_TOKENS,
          Value := .UserSetting_AccessTokens { AccessTokens := records } }).2.GetUserAccessTokens
      userID = .ok records := by
  rw [store.UpsertUserSettingV1_ok _ _ hw]
  simp [store.Store.GetUserAccessTokens, store.Store.findSetting, hr]

/-- A write changes neither the user records nor the error behaviour of the store. -/
theorem store.UpsertUserSettingV1_frame (s : store.Store) (upsert : storepb.UserSetting) :
    (s.UpsertUserSettingV1 upsert).2.users = s.users ∧
    (s.UpsertUserSettingV1 upsert).2.lookupErr = s.lookupErr ∧
    (s.UpsertUserSettingV1 upsert).2.readErr = s.readErr ∧
    (s.UpsertUserSettingV1 upsert).2.writeErr = s.writeErr := by
  cases hw : s.writeErr with
  | none => simp [store.UpsertUserSettingV1_ok _ _ hw, hw]
  | some err => simp [store.UpsertUserSettingV1_writeErr _ _ err hw, hw]

/-- A write leaves the user names whose lookup fails as they were. -/
theorem store.UpsertUserSettingV1_lookupErrOf (s : store.Store) (upsert : storepb.UserSetting) :
    (s.UpsertUserSettingV1 upsert).2.lookupErrOf = s.lookupErrOf := by
  cases hw : s.writeErr with
  | none => simp [store.UpsertUserSettingV1_ok _ _ hw, hw]
  | some err => simp [store.UpsertUserSettingV1_writeErr _ _ err hw, hw]

theorem api.v2.getCurrentUser_UpsertUserSettingV1 (ctx : api.v2.Context) (s : store.Store)
    (upsert : storepb.UserSetting) :
    api.v2.getCurrentUser ctx (s.UpsertUserSettingV1 upsert).2 = api.v2.getCurrentUser ctx s := by
  obtain ⟨hu, hl, _, _⟩ := store.UpsertUserSettingV1_frame s upsert
  simp only [api.v2.getCurrentUser, store.Store.GetUser, hu, hl,
    store.UpsertUserSettingV1_lookupErrOf]

/-- Writing the same record twice is the same as writing it once. -/
theorem store.UpsertUserSettingV1_twice (s : store.Store) (upsert : storepb.UserSetting) :
    ((s.UpsertUserSettingV1 upsert).2.UpsertUserSettingV1 upsert).2 =
      (s.UpsertUserSettingV1 upsert).2 := by
  cases hw : s.writeErr with
  | some err =>
    rw [store.UpsertUserSettingV1_writeErr _ _ err hw]
    show (s.UpsertUserSettingV1 upsert).2 = s
    rw [store.UpsertUserSettingV1_writeErr _ _ err hw]
  | none =>
    rw [store.UpsertUserSettingV1_ok _ _ hw]
    rw [store.UpsertUserSettingV1_ok _ _ (by simpa using hw)]
    simp [List.filter_filter]

theorem api.v2.DeleteUserAccessToken.loop_eq (AccessToken : String)
    (userAccessTokens updated : List storepb.AccessTokensUserSetting_AccessToken) :
    api.v2.DeleteUserAccessToken.loop AccessToken userAccessTokens updated =
      updated ++ userAccessTokens.filter (fun e => e.AccessToken != AccessToken) := by
  induction userAccessTokens generalizing updated with
  | nil => simp [api.v2.DeleteUserAccessToken.loop]
  | cons e rest ih =>
    by_cases h : e.AccessToken = AccessToken
    · simp [api.v2.DeleteUserAccessToken.loop, h, ih]
    · simp [api.v2.DeleteUserAccessToken.loop, h, ih]

theorem api.v2.DeleteUserAccessToken_eq (s : api.v2.APIV2Service) (ctx : api.v2.Context)
    (request : apiv2pb.DeleteUserAccessTokenRequest) (user : store.User)
    (stored : List storepb.AccessTokensUserSetting_AccessToken)
    (huser : api.v2.getCurrentUser ctx s.Store = .ok (some user))
    (hread : s.Store.GetUserAccessTokens user.ID = .ok stored) :
    api.v2.DeleteUserAccessToken s ctx request =
      match s.Store.UpsertUserSettingV1
          { UserId := user.ID,
            Key := storepb.UserSettingKey.USER_SETTING_ACCESS_TOKENS,
            Value := .UserSetting_AccessTokens
              { AccessTokens := stored.filter (fun e => e.AccessToken != request.AccessToken) } } with
      | (.error _, st) => (.status codes.Code.Internal, st)
      | (.ok _, st) => (.ok {}, st) := by
  simp only [api.v2.DeleteUserAccessToken, huser, hread, api.v2.DeleteUserAccessToken.loop_eq,
    List.nil_append]

theorem api.v2.DeleteUserAccessToken_ok (s : api.v2.APIV2Service) (ctx : api.v2.Context)
    (request : apiv2pb.DeleteUserAccessTokenRequest) (user : store.User)
    (stored : List storepb.AccessTokensUserSetting_AccessToken)
    (huser : api.v2.getCurrentUser ctx s.Store = .ok (some user))
    (hread : s.Store.GetUserAccessTokens user.ID = .ok stored)
    (hwrite : s.Store.writeErr = none) :
    api.v2.DeleteUserAccessToken s ctx request =
      (.ok {},
       (s.Store.UpsertUserSettingV1
        { UserId := user.ID,
          Key := storepb.UserSettingKey.USER_SETTING_ACCESS_TOKENS,
          Value := .UserSetting_AccessTokens
            { AccessTokens :=
                stored.filter (fun e => e.AccessToken != request.AccessToken) } }).2) := by
  rw [api.v2.DeleteUserAccessToken_eq s ctx request user stored huser hread,
    store.UpsertUserSettingV1_ok _ _ hwrite]

/-! ## Personal access token registry: revocation and append (api/v2) -/

/-- C3: when the caller lookup and the read of the stored list succeed,
`DeleteUserAccessToken` performs exactly one write, of the stored list with every record
whose token string equals the requested one removed (the other records unchanged and in
their order) under the access-tokens key of the caller; when the write succeeds the call
succeeds and that list is what the store then holds. -/
theorem api.v2.DeleteUserAccessToken_writes_filtered (s : api.v2.APIV2Service)
    (ctx : api.v2.Context) (request : apiv2pb.DeleteUserAccessTokenRequest)
    (user : store.User) (stored : List storepb.AccessTokensUserSetting_AccessToken)
    (huser : api.v2.getCurrentUser ctx s.Store = .ok (some user))
    (hread : s.Store.GetUserAccessTokens user.ID = .ok stored) :
    (api.v2.DeleteUserAccessToken s ctx request).2 =
      (s.Store.UpsertUserSettingV1
        { UserId := user.ID,
          Key := storepb.UserSettingKey.USER_SETTING_ACCESS_TOKENS,
          Value := .UserSetting_AccessTokens
            { AccessTokens :=
                stored.filter (fun e => e.AccessToken != request.AccessToken) } }).2 ∧
    (stored.filter (fun e => e.AccessToken != request.AccessToken)).Sublist stored ∧
    (∀ e, e ∈ stored.filter (fun e => e.AccessToken != request.AccessToken) ↔
      (e ∈ stored ∧ e.AccessToken ≠ request.AccessToken)) ∧
    (s.Store.writeErr = none →
      (api.v2.DeleteUserAccessToken s ctx request).1 = .ok {} ∧
      (api.v2.DeleteUserAccessToken s ctx request).2.GetUserAccessTokens user.ID =
        .ok (stored.filter (fun e => e.AccessToken != request.AccessToken))) := by
  rw [api.v2.DeleteUserAccessToken_eq s ctx request user stored huser hread]
  refine ⟨?_, List.filter_sublist _, ?_, ?_⟩
  · cases hw : s.Store.writeErr with
    | none => rw [store.UpsertUserSettingV1_ok _ _ hw]
    | some err => rw [store.UpsertUserSettingV1_writeErr _ _ err hw]
  · intro e
    simp [List.mem_filter]
  · intro hw
    have hback := store.GetUserAccessTokens_UpsertUserSettingV1 s.Store user.ID
      (stored.filter (fun e => e.AccessToken != request.AccessToken))
      (store.GetUserAccessTokens_readErr _ _ _ hread) hw
    rw [store.UpsertUserSettingV1_ok _ _ hw] at hback ⊢
    exact ⟨rfl, hback⟩

/-- C3 on the sample store: revoking `t1` removes both records that hold it and keeps the
record of `t2`. -/
theorem api.v2.DeleteUserAccessToken_writes_filtered_witness :
    api.v2.getCurrentUser sample.ctx sample.service.Store = .ok (some sample.alice) ∧
    sample.service.Store.GetUserAccessTokens sample.alice.ID = .ok sample.records ∧
    sample.service.Store.writeErr = none ∧
    (api.v2.DeleteUserAccessToken sample.service sample.ctx
      { Username := "alice", AccessToken := "t1" }).1 = .ok {} ∧
    (api.v2.DeleteUserAccessToken sample.service sample.ctx
      { Username := "alice", AccessToken := "t1" }).2.GetUserAccessTokens 1 =
        .ok [{ AccessToken := "t2", Description := "ci" }] :=
  ⟨rfl, rfl, rfl,
    (api.v2.DeleteUserAccessToken_writes_filtered sample.service sample.ctx
      { Username := "alice", AccessToken := "t1" } sample.alice sample.records rfl rfl).2.2.2 rfl⟩

/-- C4: with a store whose accesses succeed, two consecutive calls of
`DeleteUserAccessToken` for the same token both succeed, the second leaves the store as
the first left it, and the stored list then holds no record with that token; and when no
stored record has the token, the call succeeds and the stored list keeps its records. -/
theorem api.v2.DeleteUserAccessToken_idempotent (s : api.v2.APIV2Service)
    (ctx : api.v2.Context) (request : apiv2pb.DeleteUserAccessTokenRequest)
    (user : store.User) (stored : List storepb.AccessTokensUserSetting_AccessToken)
    (huser : api.v2.getCurrentUser ctx s.Store = .ok (some user))
    (hread : s.Store.GetUserAccessTokens user.ID = .ok stored)
    (hwrite : s.Store.writeErr = none) :
    (api.v2.DeleteUserAccessToken s ctx request).1 = .ok {} ∧
    (api.v2.DeleteUserAccessToken
      { s with Store := (api.v2.DeleteUserAccessToken s ctx request).2 } ctx request).1 = .ok {} ∧
    (api.v2.DeleteUserAccessToken
      { s with Store := (api.v2.DeleteUserAccessToken s ctx request).2 } ctx request).2 =
        (api.v2.DeleteUserAccessToken s ctx request).2 ∧
    (∃ kept,
      (api.v2.DeleteUserAccessToken s ctx request).2.GetUserAccessTokens user.ID = .ok kept ∧
      (api.v2.DeleteUserAccessToken
        { s with Store := (api.v2.DeleteUserAccessToken s ctx request).2 } ctx
          request).2.GetUserAccessTokens user.ID = .ok kept ∧
      ∀ e ∈ kept, e.AccessToken ≠ request.AccessToken) ∧
    ((∀ e ∈ stored, e.AccessToken ≠ request.AccessToken) →
      (api.v2.DeleteUserAccessToken s ctx request).2.GetUserAccessTokens user.ID = .ok stored) := by
  have hrerr := store.GetUserAccessTokens_readErr _ _ _ hread
  have hfirst := api.v2.DeleteUserAccessToken_ok s ctx request user stored huser hread hwrite
  have huser2 : api.v2.getCurrentUser ctx (api.v2.DeleteUserAccessToken s ctx request).2 =
      .ok (some user) := by
    rw [hfirst, api.v2.getCurrentUser_UpsertUserSettingV1, huser]
  have hread2 : (api.v2.DeleteUserAccessToken s ctx request).2.GetUserAccessTokens user.ID =
      .ok (stored.filter (fun e => e.AccessToken != request.AccessToken)) := by
    rw [hfirst]
    exact store.GetUserAccessTokens_UpsertUserSettingV1 s.Store user.ID _ hrerr hwrite
  have hwrite2 : (api.v2.DeleteUserAccessToken s ctx request).2.writeErr = none := by
    rw [hfirst]
    show (s.Store.UpsertUserSettingV1 _).2.writeErr = none
    rw [(store.UpsertUserSettingV1_frame _ _).2.2.2, hwrite]
  have hsecond := api.v2.DeleteUserAccessToken_ok
    { s with Store := (api.v2.DeleteUserAccessToken s ctx request).2 } ctx request user
    (stored.filter (fun e => e.AccessToken != request.AccessToken)) huser2 hread2 hwrite2
  simp only [List.filter_filter, Bool.and_self] at hsecond
  have hstore2 : (api.v2.DeleteUserAccessToken
      { s with Store := (api.v2.DeleteUserAccessToken s ctx request).2 } ctx request).2 =
        (api.v2.DeleteUserAccessToken s ctx request).2 := by
    rw [hsecond, hfirst]
    exact store.UpsertUserSettingV1_twice s.Store _
  refine ⟨?_, ?_, hstore2, ⟨_, hread2, ?_, ?_⟩, ?_⟩
  · rw [hfirst]
  · rw [hsecond]
  · rw [hstore2]
    exact hread2
  · intro e he
    simpa using (List.mem_filter.mp he).2
  · intro hno
    rw [hread2]
    congr 1
    exact List.filter_eq_self.mpr (fun e he => by simpa using hno e he)

/-- C4 on the sample store: revoking `t1` twice succeeds twice and the second call leaves
the store as the first left it. -/
theorem api.v2.DeleteUserAccessToken_idempotent_witness :
    api.v2.getCurrentUser sample.ctx sample.service.Store = .ok (some sample.alice) ∧
    sample.service.Store.GetUserAccessTokens sample.alice.ID = .ok sample.records ∧
    sample.service.Store.writeErr = none ∧
    (api.v2.DeleteUserAccessToken sample.service sample.ctx
      { Username := "alice", AccessToken := "t1" }).1 = .ok {} ∧
    (api.v2.DeleteUserAccessToken
      { sample.service with
        Store := (api.v2.DeleteUserAccessToken sample.service sample.ctx
          { Username := "alice", AccessToken := "t1" }).2 }
      sample.ctx { Username := "alice", AccessToken := "t1" }).1 = .ok {} ∧
    (api.v2.DeleteUserAccessToken
      { sample.service with
        Store := (api.v2.DeleteUserAccessToken sample.service sample.ctx
          { Username := "alice", AccessToken := "t1" }).2 }
      sample.ctx { Username := "alice", AccessToken := "t1" }).2 =
        (api.v2.DeleteUserAccessToken sample.service sample.ctx
          { Username := "alice", AccessToken := "t1" }).2 :=
  ⟨rfl, rfl, rfl,
    (api.v2.DeleteUserAccessToken_idempotent sample.service sample.ctx
      { Username := "alice", AccessToken := "t1" } sample.alice sample.records rfl rfl rfl).1,
    (api.v2.DeleteUserAccessToken_idempotent sample.service sample.ctx
      { Username := "alice", AccessToken := "t1" } sample.alice sample.records rfl rfl rfl).2.1,
    (api.v2.DeleteUserAccessToken_idempotent sample.service sample.ctx
      { Username := "alice", AccessToken := "t1" } sample.alice sample.records rfl rfl rfl).2.2.1⟩

/-- C5: when the read of the stored list succeeds, `UpsertAccessTokenToStore` performs
exactly one write, of the stored list followed by the single new record of the given token
and description, under the access-tokens key of the given user; when the write succeeds
the call succeeds and that list is what the store then holds. -/
theorem api.v2.UpsertAccessTokenToStore_appends (s : api.v2.APIV2Service) (user : store.User)
    (accessToken description : String)
    (stored : List storepb.AccessTokensUserSetting_AccessToken)
    (hread : s.Store.GetUserAccessTokens user.ID = .ok stored) :
    (api.v2.UpsertAccessTokenToStore s user accessToken description).2 =
      (s.Store.UpsertUserSettingV1
        { UserId := user.ID,
          Key := storepb.UserSettingKey.USER_SETTING_ACCESS_TOKENS,
          Value := .UserSetting_AccessTokens
            { AccessTokens :=
                stored ++ [{ AccessToken := accessToken, Description := description }] } }).2 ∧
    (s.Store.writeErr = none →
      (api.v2.UpsertAccessTokenToStore s user accessToken description).1 = .ok () ∧
      (api.v2.UpsertAccessTokenToStore s user accessToken description).2.GetUserAccessTokens
        user.ID =
          .ok (stored ++ [{ AccessToken := accessToken, Description := description }])) := by
  have hrerr := store.GetUserAccessTokens_readErr _ _ _ hread
  simp only [api.v2.UpsertAccessTokenToStore, hread]
  cases hw : s.Store.writeErr with
  | some err =>
    simp [store.UpsertUserSettingV1_writeErr _ _ err hw]
  | none =>
    have hback := store.GetUserAccessTokens_UpsertUserSettingV1 s.Store user.ID
      (stored ++ [{ AccessToken := accessToken, Description := description }]) hrerr hw
    rw [store.UpsertUserSettingV1_ok _ _ hw] at hback ⊢
    exact ⟨rfl, fun _ => ⟨rfl, hback⟩⟩

/-- C5 on the sample store: the new record comes last, after the three stored ones. -/
theorem api.v2.UpsertAccessTokenToStore_appends_witness :
    sample.service.Store.GetUserAccessTokens sample.alice.ID = .ok sample.records ∧
    sample.service.Store.writeErr = none ∧
    (api.v2.UpsertAccessTokenToStore sample.service sample.alice "t3" "phone").1 = .ok () ∧
    (api.v2.UpsertAccessTokenToStore sample.service sample.alice "t3"
      "phone").2.GetUserAccessTokens 1 =
        .ok [{ AccessToken := "t1", Description := "laptop" },
             { AccessToken := "t2", Description := "ci" },
             { AccessToken := "t1", Description := "copy" },
             { AccessToken := "t3", Description := "phone" }] :=
  ⟨rfl, rfl,
    (api.v2.UpsertAccessTokenToStore_appends sample.service sample.alice "t3" "phone"
      sample.records rfl).2 rfl⟩

/-- C6 on a sample token whose `kid` header is `v2`: the key function and the parse fail. -/
theorem api.v2.keyFunc_spec_witness :
    ¬ ((sample.personal (some 100)).setHeader "kid" (jwt.HeaderValue.str "v2")).Method.Alg = "HS256" ∨
    ¬ ((sample.personal (some 100)).setHeader "kid" (jwt.HeaderValue.str "v2")).header "kid"
        = some (jwt.HeaderValue.str "v1") ∧
    ∃ err,
      api.v2.keyFunc "secret"
        ((sample.personal (some 100)).setHeader "kid" (jwt.HeaderValue.str "v2")) = .error err ∧
      ∀ (J : jwt.Library api.auth.ClaimsMessage) (tokenString : String),
        J.decode tokenString
          = some ((sample.personal (some 100)).setHeader "kid" (jwt.HeaderValue.str "v2")) →
        jwt.ParseWithClaims J tokenString (api.v2.keyFunc "secret") = .error err :=
  Or.inr ⟨by decide,
    (api.v2.keyFunc_spec "secret"
      ((sample.personal (some 100)).setHeader "kid" (jwt.HeaderValue.str "v2"))).2
      (fun h => absurd h.2 (by decide))⟩

/-! ## Personal access token registry: creation (api/v2) -/

theorem api.auth.GenerateAccessToken_signs (J : jwt.Library api.auth.ClaimsMessage)
    (username : String) (userID : Int) (expirationTime : time.Time) (secret : String)
    (clk : time.Clock) :
    api.auth.GenerateAccessToken J username userID expirationTime secret clk =
      (J.SignedString
        (api.auth.GenerateAccessToken.token username userID expirationTime (clk 0)) secret,
       fun n => clk (n + 1)) := by
  simp only [api.auth.GenerateAccessToken, time.Now]
  cases J.SignedString
    (api.auth.GenerateAccessToken.token username userID expirationTime (clk 0)) secret <;> rfl

/-- What a successful `CreateUserAccessToken` went through: the caller, the signed token
string, the claims parsed back from it and the write of the new record. -/
theorem api.v2.CreateUserAccessToken_ok (J : jwt.Library api.auth.ClaimsMessage)
    (s : api.v2.APIV2Service) (ctx : api.v2.Context)
    (request : apiv2pb.CreateUserAccessTokenRequest) (clk : time.Clock)
    (response : apiv2pb.CreateUserAccessTokenResponse) (st : store.Store) (clk1 : time.Clock)
    (hcreate : api.v2.CreateUserAccessToken J s ctx request clk = (.ok response, st, clk1)) :
    ∃ user accessToken parsed issuedAt,
      api.v2.getCurrentUser ctx s.Store = .ok (some user) ∧
      api.v2.CreateUserAccessToken.check s user request = none ∧
      J.SignedString
        (api.auth.GenerateAccessToken.token request.Username user.ID
          (api.v2.CreateUserAccessToken.expiresAt request) (clk 0)) s.Secret = .ok accessToken ∧
      jwt.ParseWithClaims J accessToken (api.v2.keyFunc s.Secret) = .ok parsed ∧
      api.v2.UpsertAccessTokenToStore s user accessToken request.Description = (.ok (), st) ∧
      parsed.Claims.IssuedAt = some issuedAt ∧
      response =
        { AccessToken :=
            { AccessToken := accessToken,
              Description := request.Description,
              IssuedAt := timestamppb.New issuedAt.Time,
              ExpiresAt := parsed.Claims.ExpiresAt.map (fun e => timestamppb.New e.Time) } } := by
  unfold api.v2.CreateUserAccessToken at hcreate
  cases huser : api.v2.getCurrentUser ctx s.Store with
  | error e => simp [huser] at hcreate
  | ok ou =>
    cases ou with
    | none => simp [huser] at hcreate
    | some user =>
      simp only [huser] at hcreate
      cases hcheck : api.v2.CreateUserAccessToken.check s user request with
      | some code => simp [hcheck] at hcreate
      | none =>
        simp only [hcheck, api.auth.GenerateAccessToken_signs] at hcreate
        cases hsign : J.SignedString
            (api.auth.GenerateAccessToken.token request.Username user.ID
              (api.v2.CreateUserAccessToken.expiresAt request) (clk 0)) s.Secret with
        | error e => simp [hsign] at hcreate
        | ok accessToken =>
          simp only [hsign] at hcreate
          cases hparse : jwt.ParseWithClaims J accessToken (api.v2.keyFunc s.Secret) with
          | error e => simp [hparse] at hcreate
          | ok parsed =>
            simp only [hparse] at hcreate
            rcases hup : api.v2.UpsertAccessTokenToStore s user accessToken
                request.Description with ⟨r, st1⟩
            cases r with
            | error e => simp [hup] at hcreate
            | ok u =>
              simp only [hup] at hcreate
              cases hiat : parsed.Claims.IssuedAt with
              | none => simp [hiat] at hcreate
              | some issuedAt =>
                simp only [hiat, Prod.mk.injEq, Outcome.ok.injEq] at hcreate
                obtain ⟨hresp, hst, _⟩ := hcreate
                subst hst
                refine ⟨user, accessToken, parsed, issuedAt, rfl, hcheck, hsign, hparse, hup,
                  hiat, ?_⟩
                rw [← hresp]
                cases parsed.Claims.ExpiresAt <;> rfl

/-- C10, as amended: the token that `CreateUserAccessToken` has issued for a request carries
no expiry when the request supplies none, and carries the supplied expiry truncated to
whole seconds when the request supplies one other than the zero instant of `time.Time`;
and the record a successful call returns has an expires-at field exactly when the claims
parsed back from the issued token have one, with the same value. -/
theorem api.v2.CreateUserAccessToken_expiry (J : jwt.Library api.auth.ClaimsMessage)
    (s : api.v2.APIV2Service) (ctx : api.v2.Context)
    (request : apiv2pb.CreateUserAccessTokenRequest) (clk : time.Clock) :
    (∀ (userID : Int) (now : time.Time),
      (request.ExpiresAt = none →
        (api.auth.GenerateAccessToken.token request.Username userID
          (api.v2.CreateUserAccessToken.expiresAt request) now).Claims.ExpiresAt = none) ∧
      (∀ ts, request.ExpiresAt = some ts → ts.AsTime ≠ time.zeroTime →
        ∃ expiresAt,
          (api.auth.GenerateAccessToken.token request.Username userID
            (api.v2.CreateUserAccessToken.expiresAt request) now).Claims.ExpiresAt
              = some expiresAt ∧
          expiresAt.Time.Unix = ts.AsTime.Unix ∧ expiresAt.Time.Nanosecond = 0)) ∧
    (∀ response st clk1,
      api.v2.CreateUserAccessToken J s ctx request clk = (.ok response, st, clk1) →
      ∃ user parsed,
        api.v2.getCurrentUser ctx s.Store = .ok (some user) ∧
        J.SignedString
          (api.auth.GenerateAccessToken.token request.Username user.ID
            (api.v2.CreateUserAccessToken.expiresAt request) (clk 0)) s.Secret
              = .ok response.AccessToken.AccessToken ∧
        jwt.ParseWithClaims J response.AccessToken.AccessToken (api.v2.keyFunc s.Secret)
          = .ok parsed ∧
        (response.AccessToken.ExpiresAt.isSome ↔ parsed.Claims.ExpiresAt.isSome) ∧
        response.AccessToken.ExpiresAt
          = parsed.Claims.ExpiresAt.map (fun e => timestamppb.New e.Time)) := by
  refine ⟨fun userID now => ⟨?_, ?_⟩, ?_⟩
  · intro hnone
    simp [api.auth.GenerateAccessToken.token, api.auth.GenerateAccessToken.claims,
      api.auth.ClaimsMessage.ExpiresAt, jwt.NewWithClaims, jwt.Token.setHeader,
      api.v2.CreateUserAccessToken.expiresAt, hnone, time.Time.IsZero]
  · intro ts hsome hzero
    refine ⟨jwt.NewNumericDate ts.AsTime, ?_, jwt.NewNumericDate_Unix _⟩
    simp [api.auth.GenerateAccessToken.token, api.auth.GenerateAccessToken.claims,
      api.auth.ClaimsMessage.ExpiresAt, jwt.NewWithClaims, jwt.Token.setHeader,
      api.v2.CreateUserAccessToken.expiresAt, hsome, time.Time.IsZero, hzero]
  · intro response st clk1 hcreate
    obtain ⟨user, accessToken, parsed, issuedAt, huser, _, hsign, hparse, _, _, hresp⟩ :=
      api.v2.CreateUserAccessToken_ok J s ctx request clk response st clk1 hcreate
    subst hresp
    refine ⟨user, parsed, huser, hsign, hparse, ?_, rfl⟩
    cases parsed.Claims.ExpiresAt <;> simp

/-- C10 on the sample request, which supplies the expiry 2000 s: the call succeeds and the
record it returns has that expiry, as the claims parsed back have. -/
theorem api.v2.CreateUserAccessToken_expiry_witness :
    api.v2.CreateUserAccessToken sample.tokens sample.service sample.ctx sample.request
        sample.clock =
      (.ok { AccessToken :=
              { AccessToken := "issued",
                Description := "phone",
                IssuedAt := { Seconds := 1, Nanos := 0 },
                ExpiresAt := some { Seconds := 2000, Nanos := 0 } } },
       (api.v2.UpsertAccessTokenToStore sample.service sample.alice "issued" "phone").2,
       fun n => sample.clock (n + 1)) ∧
    ∃ user parsed,
      api.v2.getCurrentUser sample.ctx sample.service.Store = .ok (some user) ∧
      sample.tokens.SignedString
        (api.auth.GenerateAccessToken.token sample.request.Username user.ID
          (api.v2.CreateUserAccessToken.expiresAt sample.request) (sample.clock 0))
          sample.service.Secret = .ok "issued" ∧
      jwt.ParseWithClaims sample.tokens "issued" (api.v2.keyFunc sample.service.Secret)
        = .ok parsed ∧
      ((some ({ Seconds := 2000, Nanos := 0 } : timestamppb.Timestamp)).isSome
        ↔ parsed.Claims.ExpiresAt.isSome) ∧
      some ({ Seconds := 2000, Nanos := 0 } : timestamppb.Timestamp)
        = parsed.Claims.ExpiresAt.map (fun e => timestamppb.New e.Time) :=
  ⟨rfl,
    (api.v2.CreateUserAccessToken_expiry sample.tokens sample.service sample.ctx sample.request
      sample.clock).2 _ _ _ rfl⟩

/-- C10 fails as stated, in two ways. A request whose expiry is present and is the zero
instant of `time.Time` (year 1) gets a token without expiry; and a request whose expiry
has a sub-second part gets a token whose expiry is another instant, the whole second
below it. The first holds of any issuer: lines 215-218 hand it the same `expiresAt` for
that request as for a request without expiry. -/
theorem api.v2.CreateUserAccessToken_expiry_not_as_supplied :
    (api.auth.GenerateAccessToken.token "alice" 1
      (api.v2.CreateUserAccessToken.expiresAt
        { Username := "alice", Description := "phone",
          ExpiresAt := some { Seconds := -62135596800, Nanos := 0 } })
      (sample.clock 0)).Claims.ExpiresAt = none ∧
    (api.auth.GenerateAccessToken.token "alice" 1
      (api.v2.CreateUserAccessToken.expiresAt
        { Username := "alice", Description := "phone",
          ExpiresAt := some { Seconds := 2000, Nanos := 500 } })
      (sample.clock 0)).Claims.ExpiresAt = some ⟨⟨2000000000000⟩⟩ ∧
    ({ Seconds := 2000, Nanos := 500 } : timestamppb.Timestamp).AsTime = ⟨2000000000500⟩ ∧
    api.v2.CreateUserAccessToken.expiresAt
        { Username := "alice", Description := "phone",
          ExpiresAt := some { Seconds := -62135596800, Nanos := 0 } } =
      api.v2.CreateUserAccessToken.expiresAt
        { Username := "alice", Description := "phone", ExpiresAt := none } := by
  decide

/-! ## The sorting routine on short slices -/

theorem slices.insertionSortCmpFunc.inner_perm {E : Type} (cmp : E → E → Int) (x : E)
    (sorted : List E) : (slices.insertionSortCmpFunc.inner cmp x sorted).Perm (x :: sorted) := by
  induction sorted with
  | nil => exact List.Perm.refl _
  | cons y ys ih =>
    unfold slices.insertionSortCmpFunc.inner
    split
    · exact ((List.Perm.cons y ih).trans (List.Perm.swap x y ys))
    · exact List.Perm.refl _

theorem slices.insertionSortCmpFunc.inner_sorted {E : Type} (cmp : E → E → Int)
    (key : E → Int) (P : E → Prop)
    (hcmp : ∀ a b, P a → P b → (cmp a b < 0 ↔ key a < key b)) (x : E) (hx : P x)
    (sorted : List E) (hP : ∀ y ∈ sorted, P y)
    (hsorted : sorted.Pairwise (fun a b => key b ≤ key a)) :
    (slices.insertionSortCmpFunc.inner cmp x sorted).Pairwise (fun a b => key b ≤ key a) := by
  induction sorted with
  | nil => simp [slices.insertionSortCmpFunc.inner]
  | cons y ys ih =>
    have hy : P y := hP y (List.mem_cons_self _ _)
    have hys : ∀ z ∈ ys, P z := fun z hz => hP z (List.mem_cons_of_mem _ hz)
    obtain ⟨hhead, htail⟩ := List.pairwise_cons.mp hsorted
    unfold slices.insertionSortCmpFunc.inner
    split
    · next hlt =>
      have hkey : key x < key y := (hcmp x y hx hy).mp hlt
      refine List.pairwise_cons.mpr ⟨?_, ih hys htail⟩
      intro z hz
      rcases List.mem_cons.mp
        ((slices.insertionSortCmpFunc.inner_perm cmp x ys).subset hz) with h | h
      · rw [h]
        exact Int.le_of_lt hkey
      · exact hhead z h
    · next hge =>
      have hkey : key y ≤ key x := by
        have := mt (hcmp x y hx hy).mpr hge
        omega
      refine List.pairwise_cons.mpr ⟨?_, hsorted⟩
      intro z hz
      rcases List.mem_cons.mp hz with h | h
      · rw [h]
        exact hkey
      · exact Int.le_trans (hhead z h) hkey

theorem slices.insertionSortCmpFunc.foldl_spec {E : Type} (cmp : E → E → Int)
    (key : E → Int) (P : E → Prop)
    (hcmp : ∀ a b, P a → P b → (cmp a b < 0 ↔ key a < key b))
    (data : List E) (hdata : ∀ y ∈ data, P y) (sorted : List E) (hP : ∀ y ∈ sorted, P y)
    (hsorted : sorted.Pairwise (fun a b => key b ≤ key a)) :
    (data.foldl (fun sorted x => slices.insertionSortCmpFunc.inner cmp x sorted) sorted).Pairwise
      (fun a b => key b ≤ key a) := by
  induction data generalizing sorted with
  | nil => exact hsorted
  | cons x xs ih =>
    have hx : P x := hdata x (List.mem_cons_self _ _)
    refine ih (fun y hy => hdata y (List.mem_cons_of_mem _ hy)) _ ?_
      (slices.insertionSortCmpFunc.inner_sorted cmp key P hcmp x hx sorted hP hsorted)
    intro y hy
    rcases List.mem_cons.mp ((slices.insertionSortCmpFunc.inner_perm cmp x sorted).subset hy)
      with h | h
    · rw [h]
      exact hx
    · exact hP y h

theorem slices.insertionSortCmpFunc.foldl_perm {E : Type} (cmp : E → E → Int)
    (data sorted : List E) :
    (data.foldl (fun sorted x => slices.insertionSortCmpFunc.inner cmp x sorted) sorted).Perm
      (data ++ sorted) := by
  induction data generalizing sorted with
  | nil => exact List.Perm.refl _
  | cons x xs ih =>
    refine (ih _).trans ?_
    refine (List.Perm.append_left xs (slices.insertionSortCmpFunc.inner_perm cmp x sorted)).trans ?_
    exact (List.perm_middle)

/-- The insertion sort that `SortFunc` runs on short slices behaves as documented. -/
theorem slices.shortSlices_Sorts : slices.shortSlices.Sorts := by
  intro E x cmp
  constructor
  · show (slices.insertionSortCmpFunc x cmp).Perm x
    unfold slices.insertionSortCmpFunc
    refine (List.reverse_perm _).trans ?_
    simpa using slices.insertionSortCmpFunc.foldl_perm cmp x []
  · intro key hcmp
    show (slices.insertionSortCmpFunc x cmp).Pairwise (fun a b => key a ≤ key b)
    unfold slices.insertionSortCmpFunc
    rw [List.pairwise_reverse]
    exact slices.insertionSortCmpFunc.foldl_spec cmp key (fun a => a ∈ x)
      (fun a b ha hb => hcmp a ha b hb) x (fun _ h => h) [] (fun _ h => by cases h)
      List.Pairwise.nil

/-! ## Personal access token registry: listing (api/v2) -/

/-- The loop of `ListUserAccessTokens` when every stored token that verifies carries an
issued-at claim: it ends normally, and the entries it adds are, in order, those of the
stored records whose token verifies, each with the token string and description of its
record. -/
theorem api.v2.ListUserAccessTokens.loop_ok (J : jwt.Library api.auth.ClaimsMessage)
    (Secret : String) (stored : List storepb.AccessTokensUserSetting_AccessToken)
    (hiat : ∀ e ∈ stored, ∀ parsed,
      jwt.ParseWithClaims J e.AccessToken (api.v2.keyFunc Secret) = .ok parsed →
      parsed.Claims.IssuedAt ≠ none)
    (accessTokens : List apiv2pb.UserAccessToken) :
    ∃ added,
      api.v2.ListUserAccessTokens.loop J Secret stored accessTokens
        = .ok (accessTokens ++ added) ∧
      added.map (fun u => (u.AccessToken, u.Description)) =
        (stored.filter (fun e =>
          (jwt.ParseWithClaims J e.AccessToken (api.v2.keyFunc Secret)).toBool)).map
          (fun e => (e.AccessToken, e.Description)) := by
  induction stored generalizing accessTokens with
  | nil => exact ⟨[], by simp [api.v2.ListUserAccessTokens.loop], rfl⟩
  | cons e rest ih =>
    have hrest : ∀ e ∈ rest, ∀ parsed,
        jwt.ParseWithClaims J e.AccessToken (api.v2.keyFunc Secret) = .ok parsed →
        parsed.Claims.IssuedAt ≠ none :=
      fun x hx => hiat x (List.mem_cons_of_mem _ hx)
    cases hparse : jwt.ParseWithClaims J e.AccessToken (api.v2.keyFunc Secret) with
    | error err =>
      obtain ⟨added, hloop, hmap⟩ := ih hrest accessTokens
      refine ⟨added, ?_, ?_⟩
      · simp only [api.v2.ListUserAccessTokens.loop, hparse, hloop]
      · simp only [List.filter_cons, hparse, Except.toBool]
        simpa using hmap
    | ok parsed =>
      cases hissued : parsed.Claims.IssuedAt with
      | none => exact absurd hissued (hiat e (List.mem_cons_self _ _) parsed hparse)
      | some issuedAt =>
        obtain ⟨added, hloop, hmap⟩ := ih hrest
          (accessTokens ++
            [{ AccessToken := e.AccessToken,
               Description := e.Description,
               IssuedAt := timestamppb.New issuedAt.Time,
               ExpiresAt :=
                 match parsed.Claims.ExpiresAt with
                 | some expiresAt => some (timestamppb.New expiresAt.Time)
                 | none => none }])
        refine ⟨({ AccessToken := e.AccessToken,
                   Description := e.Description,
                   IssuedAt := timestamppb.New issuedAt.Time,
                   ExpiresAt :=
                     match parsed.Claims.ExpiresAt with
                     | some expiresAt => some (timestamppb.New expiresAt.Time)
                     | none => none } : apiv2pb.UserAccessToken) :: added, ?_, ?_⟩
        · simp only [api.v2.ListUserAccessTokens.loop, hparse, hissued, hloop,
            List.append_assoc, List.singleton_append]
        · simp only [List.filter_cons, hparse, Except.toBool, List.map_cons, hmap]
          simp

/-- The loop of `ListUserAccessTokens` panics as soon as a stored token verifies whose
claims carry no issued-at. -/
theorem api.v2.ListUserAccessTokens.loop_panic (J : jwt.Library api.auth.ClaimsMessage)
    (Secret : String) (stored : List storepb.AccessTokensUserSetting_AccessToken)
    (hiat : ∃ e ∈ stored, ∃ parsed,
      jwt.ParseWithClaims J e.AccessToken (api.v2.keyFunc Secret) = .ok parsed ∧
      parsed.Claims.IssuedAt = none)
    (accessTokens : List apiv2pb.UserAccessToken) :
    api.v2.ListUserAccessTokens.loop J Secret stored accessTokens = .panic := by
  induction stored generalizing accessTokens with
  | nil =>
    obtain ⟨e, he, _⟩ := hiat
    cases he
  | cons e rest ih =>
    obtain ⟨x, hx, px, hpx, hnone⟩ := hiat
    cases hparse : jwt.ParseWithClaims J e.AccessToken (api.v2.keyFunc Secret) with
    | error err =>
      have hxrest : x ∈ rest := by
        rcases List.mem_cons.mp hx with h | h
        · subst h
          rw [hparse] at hpx
          cases hpx
        · exact h
      simp only [api.v2.ListUserAccessTokens.loop, hparse]
      exact ih ⟨x, hxrest, px, hpx, hnone⟩ accessTokens
    | ok parsed =>
      cases hissued : parsed.Claims.IssuedAt with
      | none => simp only [api.v2.ListUserAccessTokens.loop, hparse, hissued]
      | some issuedAt =>
        have hxrest : x ∈ rest := by
          rcases List.mem_cons.mp hx with h | h
          · subst h
            rw [hparse] at hpx
            cases hpx
            rw [hissued] at hnone
            cases hnone
          · exact h
        simp only [api.v2.ListUserAccessTokens.loop, hparse, hissued]
        exact ih ⟨x, hxrest, px, hpx, hnone⟩ _

/-- Every entry the loop of `ListUserAccessTokens` adds is built from a stored record
whose token verifies, and takes its issued-at from the claims of that token. -/
theorem api.v2.ListUserAccessTokens.loop_mem (J : jwt.Library api.auth.ClaimsMessage)
    (Secret : String) (stored : List storepb.AccessTokensUserSetting_AccessToken)
    (accessTokens result : List apiv2pb.UserAccessToken)
    (hloop : api.v2.ListUserAccessTokens.loop J Secret stored accessTokens = .ok result) :
    ∀ u ∈ result, u ∈ accessTokens ∨
      ∃ e ∈ stored, ∃ parsed issuedAt,
        jwt.ParseWithClaims J e.AccessToken (api.v2.keyFunc Secret) = .ok parsed ∧
        parsed.Claims.IssuedAt = some issuedAt ∧
        u.AccessToken = e.AccessToken ∧ u.Description = e.Description ∧
        u.IssuedAt = timestamppb.New issuedAt.Time := by
  induction stored generalizing accessTokens with
  | nil =>
    simp only [api.v2.ListUserAccessTokens.loop, Outcome.ok.injEq] at hloop
    subst hloop
    exact fun u hu => Or.inl hu
  | cons e rest ih =>
    cases hparse : jwt.ParseWithClaims J e.AccessToken (api.v2.keyFunc Secret) with
    | error err =>
      simp only [api.v2.ListUserAccessTokens.loop, hparse] at hloop
      intro u hu
      rcases ih accessTokens hloop u hu with h | ⟨x, hx, h⟩
      · exact Or.inl h
      · exact Or.inr ⟨x, List.mem_cons_of_mem _ hx, h⟩
    | ok parsed =>
      cases hissued : parsed.Claims.IssuedAt with
      | none =>
        simp only [api.v2.ListUserAccessTokens.loop, hparse, hissued] at hloop
        cases hloop
      | some issuedAt =>
        simp only [api.v2.ListUserAccessTokens.loop, hparse, hissued] at hloop
        intro u hu
        rcases ih _ hloop u hu with h | ⟨x, hx, h⟩
        · rcases List.mem_append.mp h with h1 | h1
          · exact Or.inl h1
          · rw [List.mem_singleton] at h1
            subst h1
            exact Or.inr ⟨e, List.mem_cons_self _ _, parsed, issuedAt, hparse, hissued,
              rfl, rfl, rfl⟩
        · exact Or.inr ⟨x, List.mem_cons_of_mem _ hx, h⟩

/-- The comparison function of `ListUserAccessTokens` orders two entries as their
issued-at seconds do, as long as both lie within 2^62 of zero. -/
theorem api.v2.ListUserAccessTokens.cmp_neg_iff (i j : apiv2pb.UserAccessToken)
    (hi : -2 ^ 62 ≤ i.IssuedAt.Seconds ∧ i.IssuedAt.Seconds < 2 ^ 62)
    (hj : -2 ^ 62 ≤ j.IssuedAt.Seconds ∧ j.IssuedAt.Seconds < 2 ^ 62) :
    api.v2.ListUserAccessTokens.cmp i j < 0 ↔ i.IssuedAt.Seconds < j.IssuedAt.Seconds := by
  simp only [api.v2.ListUserAccessTokens.cmp, api.v2.wrapInt64]
  norm_num at hi hj ⊢
  omega

theorem api.v2.ListUserAccessTokens_eq (J : jwt.Library api.auth.ClaimsMessage)
    (L : slices.Library) (s : api.v2.APIV2Service) (ctx : api.v2.Context)
    (request : apiv2pb.ListUserAccessTokensRequest) (user : store.User) (userID : Int)
    (stored : List storepb.AccessTokensUserSetting_AccessToken)
    (huser : api.v2.getCurrentUser ctx s.Store = .ok (some user))
    (hid : api.v2.ListUserAccessTokens.userID s user request = .ok userID)
    (hread : s.Store.GetUserAccessTokens userID = .ok stored) :
    api.v2.ListUserAccessTokens J L s ctx request =
      match api.v2.ListUserAccessTokens.loop J s.Secret stored [] with
      | .panic => (.panic, s.Store)
      | .status code => (.status code, s.Store)
      | .ok accessTokens =>
        (.ok { AccessTokens := L.SortFunc _ accessTokens api.v2.ListUserAccessTokens.cmp },
         s.Store) := by
  simp only [api.v2.ListUserAccessTokens, huser, hid, hread]

/-- Listing on stored lists in which every token that verifies carries an issued-at claim:
the call succeeds, leaves the store as it was, and returns, up to order, the token strings
and descriptions of exactly the stored records whose token verifies. -/
theorem api.v2.ListUserAccessTokens_lists_verified (J : jwt.Library api.auth.ClaimsMessage)
    (L : slices.Library) (s : api.v2.APIV2Service) (ctx : api.v2.Context)
    (request : apiv2pb.ListUserAccessTokensRequest) (user : store.User) (userID : Int)
    (stored : List storepb.AccessTokensUserSetting_AccessToken)
    (hsort : L.Sorts)
    (huser : api.v2.getCurrentUser ctx s.Store = .ok (some user))
    (hid : api.v2.ListUserAccessTokens.userID s user request = .ok userID)
    (hread : s.Store.GetUserAccessTokens userID = .ok stored)
    (hiat : ∀ e ∈ stored, ∀ parsed,
      jwt.ParseWithClaims J e.AccessToken (api.v2.keyFunc s.Secret) = .ok parsed →
      parsed.Claims.IssuedAt ≠ none) :
    ∃ listed,
      api.v2.ListUserAccessTokens J L s ctx request = (.ok { AccessTokens := listed }, s.Store) ∧
      (listed.map (fun u => (u.AccessToken, u.Description))).Perm
        ((stored.filter (fun e =>
          (jwt.ParseWithClaims J e.AccessToken (api.v2.keyFunc s.Secret)).toBool)).map
          (fun e => (e.AccessToken, e.Description))) := by
  obtain ⟨added, hloop, hmap⟩ := api.v2.ListUserAccessTokens.loop_ok J s.Secret stored hiat []
  rw [List.nil_append] at hloop
  refine ⟨L.SortFunc _ added api.v2.ListUserAccessTokens.cmp, ?_, ?_⟩
  · rw [api.v2.ListUserAccessTokens_eq J L s ctx request user userID stored huser hid hread,
      hloop]
  · rw [← hmap]
    exact ((hsort _ added api.v2.ListUserAccessTokens.cmp).1).map _

/-- Listing on stored lists in which the issued-at of every token that verifies lies within
2^62 seconds of the epoch: whenever the call returns a response, its entries are ascending
in their issued-at seconds. -/
theorem api.v2.ListUserAccessTokens_ascending (J : jwt.Library api.auth.ClaimsMessage)
    (L : slices.Library) (s : api.v2.APIV2Service) (ctx : api.v2.Context)
    (request : apiv2pb.ListUserAccessTokensRequest) (user : store.User) (userID : Int)
    (stored : List storepb.AccessTokensUserSetting_AccessToken)
    (hsort : L.Sorts)
    (huser : api.v2.getCurrentUser ctx s.Store = .ok (some user))
    (hid : api.v2.ListUserAccessTokens.userID s user request = .ok userID)
    (hread : s.Store.GetUserAccessTokens userID = .ok stored)
    (hrange : ∀ e ∈ stored, ∀ parsed issuedAt,
      jwt.ParseWithClaims J e.AccessToken (api.v2.keyFunc s.Secret) = .ok parsed →
      parsed.Claims.IssuedAt = some issuedAt →
      -2 ^ 62 ≤ issuedAt.Time.Unix ∧ issuedAt.Time.Unix < 2 ^ 62)
    (response : apiv2pb.ListUserAccessTokensResponse)
    (hlist : (api.v2.ListUserAccessTokens J L s ctx request).1 = .ok response) :
    response.AccessTokens.Pairwise (fun a b => a.IssuedAt.Seconds ≤ b.IssuedAt.Seconds) := by
  rw [api.v2.ListUserAccessTokens_eq J L s ctx request user userID stored huser hid hread]
    at hlist
  cases hloop : api.v2.ListUserAccessTokens.loop J s.Secret stored [] with
  | panic =>
    rw [hloop] at hlist
    cases hlist
  | status code =>
    rw [hloop] at hlist
    cases hlist
  | ok accessTokens =>
    rw [hloop] at hlist
    simp only [Outcome.ok.injEq] at hlist
    subst hlist
    have hbound : ∀ u ∈ accessTokens,
        -2 ^ 62 ≤ u.IssuedAt.Seconds ∧ u.IssuedAt.Seconds < 2 ^ 62 := by
      intro u hu
      rcases api.v2.ListUserAccessTokens.loop_mem J s.Secret stored [] accessTokens hloop u hu
        with h | ⟨e, he, parsed, issuedAt, hparse, hissued, _, _, hu3⟩
      · cases h
      · rw [hu3]
        exact hrange e he parsed issuedAt hparse hissued
    exact (hsort _ accessTokens api.v2.ListUserAccessTokens.cmp).2
      (fun u => u.IssuedAt.Seconds)
      (fun a ha b hb => api.v2.ListUserAccessTokens.cmp_neg_iff a b (hbound a ha) (hbound b hb))

/-- C1: for every stored access-token list in which each token that verifies carries an
issued-at claim, as every token signed by this service does, `ListUserAccessTokens` (when
the caller lookup, the authorization and the store read succeed, and the sort routine
meets its contract) returns success and leaves the store as it was; the token strings and
descriptions it returns are, up to order, exactly those of the stored records whose token
verifies, and a record whose token fails verification, for whatever reason, is left out
without turning the call into an error. -/
theorem api.v2.ListUserAccessTokens_returns_verified (J : jwt.Library api.auth.ClaimsMessage)
    (L : slices.Library) (s : api.v2.APIV2Service) (ctx : api.v2.Context)
    (request : apiv2pb.ListUserAccessTokensRequest) (user : store.User) (userID : Int)
    (stored : List storepb.AccessTokensUserSetting_AccessToken)
    (hsort : L.Sorts)
    (huser : api.v2.getCurrentUser ctx s.Store = .ok (some user))
    (hid : api.v2.ListUserAccessTokens.userID s user request = .ok userID)
    (hread : s.Store.GetUserAccessTokens userID = .ok stored)
    (hiat : ∀ e ∈ stored, ∀ parsed,
      jwt.ParseWithClaims J e.AccessToken (api.v2.keyFunc s.Secret) = .ok parsed →
      parsed.Claims.IssuedAt ≠ none) :
    ∃ listed,
      api.v2.ListUserAccessTokens J L s ctx request = (.ok { AccessTokens := listed }, s.Store) ∧
      (listed.map (fun u => (u.AccessToken, u.Description))).Perm
        ((stored.filter (fun e =>
          (jwt.ParseWithClaims J e.AccessToken (api.v2.keyFunc s.Secret)).toBool)).map
          (fun e => (e.AccessToken, e.Description))) ∧
      ∀ e ∈ stored,
        (jwt.ParseWithClaims J e.AccessToken (api.v2.keyFunc s.Secret)).toBool = false →
        ∀ u ∈ listed, u.AccessToken ≠ e.AccessToken := by
  obtain ⟨listed, hcall, hperm⟩ := api.v2.ListUserAccessTokens_lists_verified J L s ctx request
    user userID stored hsort huser hid hread hiat
  refine ⟨listed, hcall, hperm, ?_⟩
  intro e _ hfail u hu heq
  have hmem : (u.AccessToken, u.Description) ∈
      listed.map (fun u => (u.AccessToken, u.Description)) :=
    List.mem_map.mpr ⟨u, hu, rfl⟩
  obtain ⟨x, hx, hpair⟩ := List.mem_map.mp (hperm.subset hmem)
  have hverifies := (List.mem_filter.mp hx).2
  have htoken : x.AccessToken = e.AccessToken := by
    rw [← heq]
    exact congrArg Prod.fst hpair
  rw [htoken, hfail] at hverifies
  cases hverifies

/-- C1 on the sample data: `alice` holds the tokens `t1` and `t2`, which verify and carry
an issued-at claim, and between them the string `revoked`, which does not verify; the call
succeeds and returns `t2` and `t1` with their descriptions, leaving `revoked` out. -/
theorem api.v2.ListUserAccessTokens_returns_verified_witness :
    (jwt.ParseWithClaims sample.tokens "revoked" (api.v2.keyFunc "secret")).toBool = false ∧
    api.v2.ListUserAccessTokens sample.tokens slices.shortSlices
      (sample.serviceWith
        [{ AccessToken := "t1", Description := "laptop" },
         { AccessToken := "revoked", Description := "old" },
         { AccessToken := "t2", Description := "ci" }])
      sample.ctx { Username := "alice" } =
        (.ok { AccessTokens :=
                [{ AccessToken := "t2", Description := "ci",
                   IssuedAt := { Seconds := 50, Nanos := 0 }, ExpiresAt := none },
                 { AccessToken := "t1", Description := "laptop",
                   IssuedAt := { Seconds := 100, Nanos := 0 }, ExpiresAt := none }] },
         (sample.serviceWith
           [{ AccessToken := "t1", Description := "laptop" },
            { AccessToken := "revoked", Description := "old" },
            { AccessToken := "t2", Description := "ci" }]).Store) ∧
    ∃ listed,
      api.v2.ListUserAccessTokens sample.tokens slices.shortSlices
        (sample.serviceWith
          [{ AccessToken := "t1", Description := "laptop" },
           { AccessToken := "revoked", Description := "old" },
           { AccessToken := "t2", Description := "ci" }])
        sample.ctx { Username := "alice" } =
          (.ok { AccessTokens := listed },
           (sample.serviceWith
             [{ AccessToken := "t1", Description := "laptop" },
              { AccessToken := "revoked", Description := "old" },
              { AccessToken := "t2", Description := "ci" }]).Store) ∧
      (listed.map (fun u => (u.AccessToken, u.Description))).Perm
        [("t1", "laptop"), ("t2", "ci")] ∧
      ∀ u ∈ listed, u.AccessToken ≠ "revoked" := by
  refine ⟨rfl, by decide, ?_⟩
  obtain ⟨listed, hcall, hperm, hout⟩ :=
    api.v2.ListUserAccessTokens_returns_verified sample.tokens slices.shortSlices
      (sample.serviceWith
        [{ AccessToken := "t1", Description := "laptop" },
         { AccessToken := "revoked", Description := "old" },
         { AccessToken := "t2", Description := "ci" }])
      sample.ctx { Username := "alice" } sample.alice 1
      [{ AccessToken := "t1", Description := "laptop" },
       { AccessToken := "revoked", Description := "old" },
       { AccessToken := "t2", Description := "ci" }]
      slices.shortSlices_Sorts rfl rfl rfl
      (by
        intro e he parsed hparse hnone
        simp only [List.mem_cons, List.mem_singleton, List.not_mem_nil, or_false] at he
        rcases he with h | h | h <;> subst h
        · have h1 : jwt.ParseWithClaims sample.tokens "t1" (api.v2.keyFunc "secret")
              = .ok (sample.personal (some 100)) := rfl
          rw [show (sample.serviceWith _).Secret = "secret" from rfl] at hparse
          rw [h1] at hparse
          cases hparse
          cases hnone
        · have h1 : jwt.ParseWithClaims sample.tokens "revoked" (api.v2.keyFunc "secret")
              = .error "token is malformed" := rfl
          rw [show (sample.serviceWith _).Secret = "secret" from rfl] at hparse
          rw [h1] at hparse
          cases hparse
        · have h1 : jwt.ParseWithClaims sample.tokens "t2" (api.v2.keyFunc "secret")
              = .ok (sample.personal (some 50)) := rfl
          rw [show (sample.serviceWith _).Secret = "secret" from rfl] at hparse
          rw [h1] at hparse
          cases hparse
          cases hnone)
  exact ⟨listed, hcall, hperm, hout _ (List.mem_cons_of_mem _ (List.mem_cons_self _ _)) rfl⟩

/-- C2: for every stored access-token list in which the issued-at of each token that
verifies lies within 2^62 seconds of the epoch, as every reading of the clock that the
issuer takes does, the entries that `ListUserAccessTokens` returns (with a sort routine
that meets its contract) are sorted by issued time in ascending order, most recent last:
of every two adjacent returned entries, and of every two returned entries at all, the
earlier one has issued-at seconds less than or equal to those of the later one. -/
theorem api.v2.ListUserAccessTokens_sorted_by_issued_time
    (J : jwt.Library api.auth.ClaimsMessage)
    (L : slices.Library) (s : api.v2.APIV2Service) (ctx : api.v2.Context)
    (request : apiv2pb.ListUserAccessTokensRequest) (user : store.User) (userID : Int)
    (stored : List storepb.AccessTokensUserSetting_AccessToken)
    (hsort : L.Sorts)
    (huser : api.v2.getCurrentUser ctx s.Store = .ok (some user))
    (hid : api.v2.ListUserAccessTokens.userID s user request = .ok userID)
    (hread : s.Store.GetUserAccessTokens userID = .ok stored)
    (hrange : ∀ e ∈ stored, ∀ parsed issuedAt,
      jwt.ParseWithClaims J e.AccessToken (api.v2.keyFunc s.Secret) = .ok parsed →
      parsed.Claims.IssuedAt = some issuedAt →
      -2 ^ 62 ≤ issuedAt.Time.Unix ∧ issuedAt.Time.Unix < 2 ^ 62)
    (response : apiv2pb.ListUserAccessTokensResponse)
    (hlist : (api.v2.ListUserAccessTokens J L s ctx request).1 = .ok response) :
    response.AccessTokens.Chain' (fun a b => a.IssuedAt.Seconds ≤ b.IssuedAt.Seconds) ∧
    response.AccessTokens.Pairwise (fun a b => a.IssuedAt.Seconds ≤ b.IssuedAt.Seconds) := by
  have hpairwise := api.v2.ListUserAccessTokens_ascending J L s ctx request user userID stored
    hsort huser hid hread hrange response hlist
  exact ⟨hpairwise.chain', hpairwise⟩

/-- C2 on the sample data: `alice` holds `t1`, issued at 100 s, `t2`, issued at 50 s, and
`t1` once more; the call returns `t2` first and the two records of `t1` after it. -/
theorem api.v2.ListUserAccessTokens_sorted_by_issued_time_witness :
    (api.v2.ListUserAccessTokens sample.tokens slices.shortSlices sample.service sample.ctx
      { Username := "alice" }).1 =
      .ok { AccessTokens :=
              [{ AccessToken := "t2", Description := "ci",
                 IssuedAt := { Seconds := 50, Nanos := 0 }, ExpiresAt := none },
               { AccessToken := "t1", Description := "laptop",
                 IssuedAt := { Seconds := 100, Nanos := 0 }, ExpiresAt := none },
               { AccessToken := "t1", Description := "copy",
                 IssuedAt := { Seconds := 100, Nanos := 0 }, ExpiresAt := none }] } ∧
    List.Chain' (fun a b : apiv2pb.UserAccessToken => a.IssuedAt.Seconds ≤ b.IssuedAt.Seconds)
      [{ AccessToken := "t2", Description := "ci",
         IssuedAt := { Seconds := 50, Nanos := 0 }, ExpiresAt := none },
       { AccessToken := "t1", Description := "laptop",
         IssuedAt := { Seconds := 100, Nanos := 0 }, ExpiresAt := none },
       { AccessToken := "t1", Description := "copy",
         IssuedAt := { Seconds := 100, Nanos := 0 }, ExpiresAt := none }] :=
  ⟨by decide,
   (api.v2.ListUserAccessTokens_sorted_by_issued_time sample.tokens slices.shortSlices
      sample.service sample.ctx { Username := "alice" } sample.alice 1 sample.records
      slices.shortSlices_Sorts rfl rfl rfl
      (by
        intro e he parsed issuedAt hparse hissued
        simp only [sample.records, List.mem_cons, List.mem_singleton, List.not_mem_nil,
          or_false] at he
        have h1 : jwt.ParseWithClaims sample.tokens "t1" (api.v2.keyFunc "secret")
            = .ok (sample.personal (some 100)) := rfl
        have h2 : jwt.ParseWithClaims sample.tokens "t2" (api.v2.keyFunc "secret")
            = .ok (sample.personal (some 50)) := rfl
        rw [show sample.service.Secret = "secret" from rfl] at hparse
        rcases he with h | h | h <;> subst h
        · rw [h1] at hparse
          cases hparse
          cases hissued
          decide
        · rw [h2] at hparse
          cases hparse
          cases hissued
          decide
        · rw [h1] at hparse
          cases hparse
          cases hissued
          decide)
      _ (by decide)).1⟩

/-- Outside that range the comparison function is no order. With a verifying token issued
at 1700000000 s and one issued at -9223372036854774784 s, an instant that no clock reading
gives, the `int64` difference of the comparison function wraps around, and
`ListUserAccessTokens` returns the later-issued entry first, whichever way round the two
are stored. -/
theorem api.v2.ListUserAccessTokens_not_ascending_on_overflow :
    (api.v2.ListUserAccessTokens sample.tokens slices.shortSlices
      (sample.serviceWith
        [{ AccessToken := "ancient", Description := "imported" },
         { AccessToken := "recent", Description := "laptop" }])
      sample.ctx { Username := "alice" }).1 =
      .ok { AccessTokens :=
              [{ AccessToken := "recent", Description := "laptop",
                 IssuedAt := { Seconds := 1700000000, Nanos := 0 }, ExpiresAt := none },
               { AccessToken := "ancient", Description := "imported",
                 IssuedAt := { Seconds := -9223372036854774784, Nanos := 0 },
                 ExpiresAt := none }] } ∧
    (api.v2.ListUserAccessTokens sample.tokens slices.shortSlices
      (sample.serviceWith
        [{ AccessToken := "recent", Description := "laptop" },
         { AccessToken := "ancient", Description := "imported" }])
      sample.ctx { Username := "alice" }).1 =
      .ok { AccessTokens :=
              [{ AccessToken := "recent", Description := "laptop",
                 IssuedAt := { Seconds := 1700000000, Nanos := 0 }, ExpiresAt := none },
               { AccessToken := "ancient", Description := "imported",
                 IssuedAt := { Seconds := -9223372036854774784, Nanos := 0 },
                 ExpiresAt := none }] } ∧
    api.v2.wrapInt64 (1700000000 - -9223372036854774784) = -9223372035154776832 := by
  decide

/-! ## Session cookies (api/v1/auth) -/

/-- C17: a successful `GenerateTokensAndSetCookies` sets exactly two cookies, first the
access-token cookie holding the access token signed in the call, then the refresh-token
cookie holding the refresh token signed in the call, both expiring at the third clock
reading of the call plus 604740 seconds (the refresh duration less one minute). -/
theorem api.v1.auth.GenerateTokensAndSetCookies_sets_two_cookies
    (J : jwt.Library api.v1.auth.claimsMessage) (c : echo.Context) (user : store.User)
    (secret : String) (clk : time.Clock)
    (hok : (api.v1.auth.GenerateTokensAndSetCookies J c user secret clk).1 = .ok ()) :
    ∃ accessToken refreshToken,
      (api.v1.auth.GenerateAccessToken J user.Username user.ID secret clk).1
        = .ok accessToken ∧
      (api.v1.auth.GenerateRefreshToken J user.Username user.ID secret
        (api.v1.auth.GenerateTokensAndSetCookies.refreshClock clk)).1 = .ok refreshToken ∧
      (api.v1.auth.GenerateTokensAndSetCookies J c user secret clk).2.1.cookies =
        c.cookies ++
          [{ Name := "memos.access-token", Value := accessToken, Path := "/", Domain := "",
             Expires := ⟨(clk 2).unixNano + 604740 * 1000000000⟩, MaxAge := 0,
             Secure := false, HttpOnly := true,
             SameSite := http.SameSite.SameSiteStrictMode },
           { Name := "memos.refresh-token", Value := refreshToken, Path := "/", Domain := "",
             Expires := ⟨(clk 2).unixNano + 604740 * 1000000000⟩, MaxAge := 0,
             Secure := false, HttpOnly := true,
             SameSite := http.SameSite.SameSiteStrictMode }] ∧
      api.v1.auth.CookieExpDuration
        = api.v1.auth.refreshTokenDuration - time.Minute ∧
      api.v1.auth.CookieExpDuration = 604740 * time.Second := by
  obtain ⟨accessToken, refreshToken, ha, hr, heq⟩ :=
    api.v1.auth.GenerateTokensAndSetCookies_ok J c user secret clk hok
  refine ⟨accessToken, refreshToken, ?_, ?_, ?_, by decide, by decide⟩
  · rw [api.v1.auth.GenerateAccessToken_eq, ha]
  · rw [api.v1.auth.GenerateRefreshToken_eq, hr]
  · rw [heq]
    simp only [api.v1.auth.setTokenCookie_cookies, List.append_assoc, List.singleton_append]
    rfl

/-- C17 on the sample clock: the third reading is 2 s, so both cookies expire at 604742 s. -/
theorem api.v1.auth.GenerateTokensAndSetCookies_sets_two_cookies_witness :
    (api.v1.auth.GenerateTokensAndSetCookies sample.signer ⟨[]⟩ sample.alice "secret"
      sample.clock).1 = .ok () ∧
    ∃ accessToken refreshToken,
      (api.v1.auth.GenerateAccessToken sample.signer sample.alice.Username sample.alice.ID
        "secret" sample.clock).1 = .ok accessToken ∧
      (api.v1.auth.GenerateRefreshToken sample.signer sample.alice.Username sample.alice.ID
        "secret" (api.v1.auth.GenerateTokensAndSetCookies.refreshClock sample.clock)).1
          = .ok refreshToken ∧
      (api.v1.auth.GenerateTokensAndSetCookies sample.signer ⟨[]⟩ sample.alice "secret"
        sample.clock).2.1.cookies =
        [] ++
          [{ Name := "memos.access-token", Value := accessToken, Path := "/", Domain := "",
             Expires := ⟨604742000000000⟩, MaxAge := 0,
             Secure := false, HttpOnly := true,
             SameSite := http.SameSite.SameSiteStrictMode },
           { Name := "memos.refresh-token", Value := refreshToken, Path := "/", Domain := "",
             Expires := ⟨604742000000000⟩, MaxAge := 0,
             Secure := false, HttpOnly := true,
             SameSite := http.SameSite.SameSiteStrictMode }] ∧
      api.v1.auth.CookieExpDuration
        = api.v1.auth.refreshTokenDuration - time.Minute ∧
      api.v1.auth.CookieExpDuration = 604740 * time.Second :=
  ⟨rfl,
    api.v1.auth.GenerateTokensAndSetCookies_sets_two_cookies sample.signer ⟨[]⟩ sample.alice
      "secret" sample.clock rfl⟩

theorem api.v1.auth.RemoveTokensAndCookies_eq (c : echo.Context) (clk : time.Clock) :
    api.v1.auth.RemoveTokensAndCookies c clk =
      ({ cookies := c.cookies ++
          [{ Name := "memos.access-token", Value := "", Path := "/", Domain := "",
             Expires := (clk 0).Add (-1 * time.Hour), MaxAge := 0,
             Secure := false, HttpOnly := true,
             SameSite := http.SameSite.SameSiteStrictMode },
           { Name := "memos.refresh-token", Value := "", Path := "/", Domain := "",
             Expires := (clk 0).Add (-1 * time.Hour), MaxAge := 0,
             Secure := false, HttpOnly := true,
             SameSite := http.SameSite.SameSiteStrictMode }] },
       fun n => clk (n + 1)) := by
  simp only [api.v1.auth.RemoveTokensAndCookies, time.Now, api.v1.auth.setTokenCookie,
    echo.Context.SetCookie, List.append_assoc, List.singleton_append, http.Cookie.new,
    api.v1.auth.AccessTokenCookieName, api.v1.auth.RefreshTokenCookieName]

/-- C18: every cookie set by `setTokenCookie`, whatever its name, value and expiry, and so
every cookie that `GenerateTokensAndSetCookies` (whether it succeeds or fails) or
`RemoveTokensAndCookies` adds to the response, has path `/`, is HTTP-only and has the
strict same-site mode. -/
theorem api.v1.auth.cookies_scoped_http_only_strict
    (J : jwt.Library api.v1.auth.claimsMessage) (c : echo.Context) (user : store.User)
    (secret name token : String) (expiration : time.Time) (clk : time.Clock) :
    (∃ set, (api.v1.auth.setTokenCookie c name token expiration).cookies = c.cookies ++ set ∧
      set.length = 1 ∧
      ∀ cookie ∈ set, cookie.Name = name ∧ cookie.Value = token ∧
        cookie.Expires = expiration ∧ cookie.Path = "/" ∧ cookie.HttpOnly = true ∧
        cookie.SameSite = http.SameSite.SameSiteStrictMode) ∧
    (∃ set, (api.v1.auth.GenerateTokensAndSetCookies J c user secret clk).2.1.cookies
        = c.cookies ++ set ∧
      ∀ cookie ∈ set, cookie.Path = "/" ∧ cookie.HttpOnly = true ∧
        cookie.SameSite = http.SameSite.SameSiteStrictMode) ∧
    (∃ set, (api.v1.auth.RemoveTokensAndCookies c clk).1.cookies = c.cookies ++ set ∧
      ∀ cookie ∈ set, cookie.Path = "/" ∧ cookie.HttpOnly = true ∧
        cookie.SameSite = http.SameSite.SameSiteStrictMode) := by
  refine ⟨⟨_, api.v1.auth.setTokenCookie_cookies c name token expiration, rfl, ?_⟩, ?_, ?_⟩
  · intro cookie hmem
    rw [List.mem_singleton] at hmem
    subst hmem
    exact ⟨rfl, rfl, rfl, rfl, rfl, rfl⟩
  · rw [api.v1.auth.GenerateTokensAndSetCookies_eq]
    cases J.SignedString
        (api.v1.auth.GenerateAccessToken.token user.Username user.ID clk) secret with
    | error e => exact ⟨[], by simp, fun _ h => by cases h⟩
    | ok accessToken =>
      cases J.SignedString
          (api.v1.auth.GenerateRefreshToken.token user.Username user.ID
            (api.v1.auth.GenerateTokensAndSetCookies.refreshClock clk)) secret with
      | error e =>
        refine ⟨_, api.v1.auth.setTokenCookie_cookies _ _ _ _, ?_⟩
        intro cookie hmem
        rw [List.mem_singleton] at hmem
        subst hmem
        exact ⟨rfl, rfl, rfl⟩
      | ok refreshToken =>
        refine ⟨[{ Name := api.v1.auth.AccessTokenCookieName, Value := accessToken,
                   Path := "/", Domain := "",
                   Expires := (clk 2).Add api.v1.auth.CookieExpDuration, MaxAge := 0,
                   Secure := false, HttpOnly := true,
                   SameSite := http.SameSite.SameSiteStrictMode },
                 { Name := api.v1.auth.RefreshTokenCookieName, Value := refreshToken,
                   Path := "/", Domain := "",
                   Expires := (clk 2).Add api.v1.auth.CookieExpDuration, MaxAge := 0,
                   Secure := false, HttpOnly := true,
                   SameSite := http.SameSite.SameSiteStrictMode }], ?_, ?_⟩
        · show (api.v1.auth.setTokenCookie (api.v1.auth.setTokenCookie c _ _ _) _ _ _).cookies
            = _
          simp only [api.v1.auth.setTokenCookie_cookies, List.append_assoc,
            List.singleton_append]
        · intro cookie hmem
          simp only [List.mem_cons, List.mem_singleton, List.not_mem_nil, or_false] at hmem
          rcases hmem with h | h <;> subst h <;> exact ⟨rfl, rfl, rfl⟩
  · rw [api.v1.auth.RemoveTokensAndCookies_eq]
    refine ⟨_, rfl, ?_⟩
    intro cookie hmem
    simp only [List.mem_cons, List.mem_singleton, List.not_mem_nil, or_false] at hmem
    rcases hmem with h | h <;> subst h <;> exact ⟨rfl, rfl, rfl⟩

/-- C19: `RemoveTokensAndCookies`, a function of the response context and the clock alone
with no error result, adds the access-token cookie and the refresh-token cookie, both with
an empty value and an expiry exactly one hour (3600 s) before the clock reading it takes,
hence in the past. -/
theorem api.v1.auth.RemoveTokensAndCookies_expires_both (c : echo.Context)
    (clk : time.Clock) :
    api.v1.auth.RemoveTokensAndCookies c clk =
      ({ cookies := c.cookies ++
          [{ Name := "memos.access-token", Value := "", Path := "/", Domain := "",
             Expires := ⟨(clk 0).unixNano - 3600 * 1000000000⟩, MaxAge := 0,
             Secure := false, HttpOnly := true,
             SameSite := http.SameSite.SameSiteStrictMode },
           { Name := "memos.refresh-token", Value := "", Path := "/", Domain := "",
             Expires := ⟨(clk 0).unixNano - 3600 * 1000000000⟩, MaxAge := 0,
             Secure := false, HttpOnly := true,
             SameSite := http.SameSite.SameSiteStrictMode }] },
       fun n => clk (n + 1)) ∧
    (⟨(clk 0).unixNano - 3600 * 1000000000⟩ : time.Time).Before (clk 0) := by
  constructor
  · rw [api.v1.auth.RemoveTokensAndCookies_eq]
    have h : (clk 0).Add (-1 * time.Hour) = ⟨(clk 0).unixNano - 3600 * 1000000000⟩ := by
      simp only [time.Time.Add, time.Hour, time.Minute, time.Second]
      congr 1
    rw [h]
  · simp only [time.Time.Before]
    omega

/-! ## Personal access token registry: frame, gating and failure (api/v2) -/

/-- C16: `ListUserAccessTokens` never writes: whatever the stored list holds and however
the call ends, the store after the call is the store before it, so every stored record,
listed or skipped, is still there. -/
theorem api.v2.ListUserAccessTokens_leaves_store (J : jwt.Library api.auth.ClaimsMessage)
    (L : slices.Library) (s : api.v2.APIV2Service) (ctx : api.v2.Context)
    (request : apiv2pb.ListUserAccessTokensRequest) :
    (api.v2.ListUserAccessTokens J L s ctx request).2 = s.Store ∧
    ∀ userID, (api.v2.ListUserAccessTokens J L s ctx request).2.GetUserAccessTokens userID
      = s.Store.GetUserAccessTokens userID := by
  have h : (api.v2.ListUserAccessTokens J L s ctx request).2 = s.Store := by
    unfold api.v2.ListUserAccessTokens
    repeat' split
    all_goals rfl
  exact ⟨h, fun userID => by rw [h]⟩

/-- Listing panics whenever the list it reads holds a token that verifies and carries no
issued-at claim. -/
theorem api.v2.ListUserAccessTokens_panics (J : jwt.Library api.auth.ClaimsMessage)
    (L : slices.Library) (s : api.v2.APIV2Service) (ctx : api.v2.Context)
    (request : apiv2pb.ListUserAccessTokensRequest) (user : store.User) (userID : Int)
    (stored : List storepb.AccessTokensUserSetting_AccessToken)
    (huser : api.v2.getCurrentUser ctx s.Store = .ok (some user))
    (hid : api.v2.ListUserAccessTokens.userID s user request = .ok userID)
    (hread : s.Store.GetUserAccessTokens userID = .ok stored)
    (hiat : ∃ e ∈ stored, ∃ parsed,
      jwt.ParseWithClaims J e.AccessToken (api.v2.keyFunc s.Secret) = .ok parsed ∧
      parsed.Claims.IssuedAt = none) :
    api.v2.ListUserAccessTokens J L s ctx request = (.panic, s.Store) := by
  rw [api.v2.ListUserAccessTokens_eq J L s ctx request user userID stored huser hid hread,
    api.v2.ListUserAccessTokens.loop_panic J s.Secret stored hiat []]

/-- C14: for a caller whose user name differs from the one in the request,
`ListUserAccessTokens` and `CreateUserAccessToken` return `PermissionDenied` when the
caller has the normal user role, and `NotFound` when the caller has another role and the
lookup of the named user either gives no user or fails; in both cases the store is left as
it was, whatever it holds and whether or not its settings can be read, and no clock reading
is taken, so no token is issued. -/
theorem api.v2.access_token_calls_gated (J : jwt.Library api.auth.ClaimsMessage)
    (L : slices.Library) (s : api.v2.APIV2Service) (ctx : api.v2.Context)
    (listRequest : apiv2pb.ListUserAccessTokensRequest)
    (createRequest : apiv2pb.CreateUserAccessTokenRequest) (clk : time.Clock)
    (user : store.User)
    (huser : api.v2.getCurrentUser ctx s.Store = .ok (some user))
    (hlist : user.Username ≠ listRequest.Username)
    (hcreate : user.Username ≠ createRequest.Username) :
    (user.Role = store.Role.RoleUser →
      api.v2.ListUserAccessTokens J L s ctx listRequest
        = (.status codes.Code.PermissionDenied, s.Store) ∧
      api.v2.CreateUserAccessToken J s ctx createRequest clk
        = (.status codes.Code.PermissionDenied, s.Store, clk)) ∧
    (user.Role ≠ store.Role.RoleUser →
      ((s.Store.GetUser { Username := listRequest.Username } = .ok none ∨
          ∃ err, s.Store.GetUser { Username := listRequest.Username } = .error err) →
        api.v2.ListUserAccessTokens J L s ctx listRequest
          = (.status codes.Code.NotFound, s.Store)) ∧
      ((s.Store.GetUser { Username := createRequest.Username } = .ok none ∨
          ∃ err, s.Store.GetUser { Username := createRequest.Username } = .error err) →
        api.v2.CreateUserAccessToken J s ctx createRequest clk
          = (.status codes.Code.NotFound, s.Store, clk))) := by
  refine ⟨fun hrole => ⟨?_, ?_⟩, fun hrole => ⟨fun hlookup => ?_, fun hlookup => ?_⟩⟩
  · simp [api.v2.ListUserAccessTokens, huser, api.v2.ListUserAccessTokens.userID, hlist, hrole]
  · simp [api.v2.CreateUserAccessToken, huser, api.v2.CreateUserAccessToken.check, hcreate,
      hrole]
  · have hnone : ∀ requestUser, s.Store.GetUser { Username := listRequest.Username }
        ≠ .ok (some requestUser) := by
      intro requestUser h
      rcases hlookup with h1 | ⟨err, h1⟩ <;>
      · rw [h1] at h
        cases h
    have hid : api.v2.ListUserAccessTokens.userID s user listRequest
        = .status codes.Code.NotFound := by
      simp only [api.v2.ListUserAccessTokens.userID, bne_iff_ne, ne_eq, hlist,
        not_false_eq_true, ↓reduceIte, beq_iff_eq, hrole]
    simp only [api.v2.ListUserAccessTokens, huser, hid]
  · have hnone : ∀ requestUser, s.Store.GetUser { Username := createRequest.Username }
        ≠ .ok (some requestUser) := by
      intro requestUser h
      rcases hlookup with h1 | ⟨err, h1⟩ <;>
      · rw [h1] at h
        cases h
    have hcheck : api.v2.CreateUserAccessToken.check s user createRequest
        = some codes.Code.NotFound := by
      simp only [api.v2.CreateUserAccessToken.check, bne_iff_ne, ne_eq, hcreate,
        not_false_eq_true, ↓reduceIte, beq_iff_eq, hrole]
    simp only [api.v2.CreateUserAccessToken, huser, hcheck]

/-- C14 on the sample data: `alice`, a normal user, is denied the tokens of `root`, also
when the settings cannot be read; `root`, the host, gets `NotFound` for the unknown user
`nobody`, and also for `alice`, who exists, in the store where the lookup of `alice` fails
while the lookup of `root`, the caller, completes. -/
theorem api.v2.access_token_calls_gated_witness :
    (api.v2.ListUserAccessTokens sample.tokens slices.shortSlices
        { Secret := "secret", Store := sample.unreadable } sample.ctx { Username := "root" }
      = (.status codes.Code.PermissionDenied, sample.unreadable) ∧
     api.v2.CreateUserAccessToken sample.tokens
        { Secret := "secret", Store := sample.unreadable } sample.ctx
        { Username := "root", Description := "phone", ExpiresAt := none } sample.clock
      = (.status codes.Code.PermissionDenied, sample.unreadable, sample.clock)) ∧
    (sample.shared.GetUser { Username := "nobody" } = .ok none ∧
     api.v2.ListUserAccessTokens sample.tokens slices.shortSlices
        { Secret := "secret", Store := sample.shared } sample.rootCtx { Username := "nobody" }
      = (.status codes.Code.NotFound, sample.shared) ∧
     api.v2.CreateUserAccessToken sample.tokens
        { Secret := "secret", Store := sample.shared } sample.rootCtx
        { Username := "nobody", Description := "phone", ExpiresAt := none } sample.clock
      = (.status codes.Code.NotFound, sample.shared, sample.clock)) ∧
    (api.v2.getCurrentUser sample.rootCtx sample.flaky = .ok (some sample.root) ∧
     sample.flaky.GetUser { Username := "alice" } = .error "timeout" ∧
     api.v2.ListUserAccessTokens sample.tokens slices.shortSlices
        { Secret := "secret", Store := sample.flaky } sample.rootCtx { Username := "alice" }
      = (.status codes.Code.NotFound, sample.flaky) ∧
     api.v2.CreateUserAccessToken sample.tokens
        { Secret := "secret", Store := sample.flaky } sample.rootCtx
        { Username := "alice", Description := "phone", ExpiresAt := none } sample.clock
      = (.status codes.Code.NotFound, sample.flaky, sample.clock)) :=
  ⟨(api.v2.access_token_calls_gated sample.tokens slices.shortSlices
      { Secret := "secret", Store := sample.unreadable } sample.ctx { Username := "root" }
      { Username := "root", Description := "phone", ExpiresAt := none } sample.clock
      sample.alice rfl (by decide) (by decide)).1 rfl,
   ⟨rfl,
    ((api.v2.access_token_calls_gated sample.tokens slices.shortSlices
      { Secret := "secret", Store := sample.shared } sample.rootCtx { Username := "nobody" }
      { Username := "nobody", Description := "phone", ExpiresAt := none } sample.clock
      sample.root rfl (by decide) (by decide)).2 (by decide)).1 (Or.inl rfl),
    ((api.v2.access_token_calls_gated sample.tokens slices.shortSlices
      { Secret := "secret", Store := sample.shared } sample.rootCtx { Username := "nobody" }
      { Username := "nobody", Description := "phone", ExpiresAt := none } sample.clock
      sample.root rfl (by decide) (by decide)).2 (by decide)).2 (Or.inl rfl)⟩,
   ⟨rfl, rfl,
    ((api.v2.access_token_calls_gated sample.tokens slices.shortSlices
      { Secret := "secret", Store := sample.flaky } sample.rootCtx { Username := "alice" }
      { Username := "alice", Description := "phone", ExpiresAt := none } sample.clock
      sample.root rfl (by decide) (by decide)).2 (by decide)).1 (Or.inr ⟨"timeout", rfl⟩),
    ((api.v2.access_token_calls_gated sample.tokens slices.shortSlices
      { Secret := "secret", Store := sample.flaky } sample.rootCtx { Username := "alice" }
      { Username := "alice", Description := "phone", ExpiresAt := none } sample.clock
      sample.root rfl (by decide) (by decide)).2 (by decide)).2 (Or.inr ⟨"timeout", rfl⟩)⟩⟩

/-- C12: no partial write. When `CreateUserAccessToken` fails at the caller lookup, at the
authorization check, at the issuance of the token or at its re-verification, and when
`DeleteUserAccessToken` or `UpsertAccessTokenToStore` fails to read the stored list, the
call returns its error with the store exactly as it was before the call. -/
theorem api.v2.no_partial_write (J : jwt.Library api.auth.ClaimsMessage)
    (s : api.v2.APIV2Service) (ctx : api.v2.Context)
    (createRequest : apiv2pb.CreateUserAccessTokenRequest)
    (deleteRequest : apiv2pb.DeleteUserAccessTokenRequest) (clk : time.Clock)
    (user : store.User) (accessToken description : String) :
    (∀ err, api.v2.getCurrentUser ctx s.Store = .error err →
      api.v2.CreateUserAccessToken J s ctx createRequest clk
        = (.status codes.Code.Internal, s.Store, clk)) ∧
    (api.v2.getCurrentUser ctx s.Store = .ok (some user) →
      ∀ code, api.v2.CreateUserAccessToken.check s user createRequest = some code →
      api.v2.CreateUserAccessToken J s ctx createRequest clk
        = (.status code, s.Store, clk)) ∧
    (api.v2.getCurrentUser ctx s.Store = .ok (some user) →
      api.v2.CreateUserAccessToken.check s user createRequest = none →
      ∀ err,
        (api.auth.GenerateAccessToken J createRequest.Username user.ID
          (api.v2.CreateUserAccessToken.expiresAt createRequest) s.Secret clk).1
            = .error err →
      api.v2.CreateUserAccessToken J s ctx createRequest clk
        = (.status codes.Code.Internal, s.Store, fun n => clk (n + 1))) ∧
    (api.v2.getCurrentUser ctx s.Store = .ok (some user) →
      api.v2.CreateUserAccessToken.check s user createRequest = none →
      ∀ issued err,
        (api.auth.GenerateAccessToken J createRequest.Username user.ID
          (api.v2.CreateUserAccessToken.expiresAt createRequest) s.Secret clk).1
            = .ok issued →
        jwt.ParseWithClaims J issued (api.v2.keyFunc s.Secret) = .error err →
      api.v2.CreateUserAccessToken J s ctx createRequest clk
        = (.status codes.Code.Internal, s.Store, fun n => clk (n + 1))) ∧
    (api.v2.getCurrentUser ctx s.Store = .ok (some user) →
      ∀ err, s.Store.GetUserAccessTokens user.ID = .error err →
      api.v2.DeleteUserAccessToken s ctx deleteRequest
        = (.status codes.Code.Internal, s.Store)) ∧
    (∀ err, s.Store.GetUserAccessTokens user.ID = .error err →
      api.v2.UpsertAccessTokenToStore s user accessToken description
        = (.error ("failed to get user access tokens: " ++ err), s.Store)) := by
  refine ⟨?_, ?_, ?_, ?_, ?_, ?_⟩
  · intro err herr
    simp only [api.v2.CreateUserAccessToken, herr]
  · intro huser code hcheck
    simp only [api.v2.CreateUserAccessToken, huser, hcheck]
  · intro huser hcheck err hsign
    rw [api.auth.GenerateAccessToken_signs] at hsign
    simp only at hsign
    simp only [api.v2.CreateUserAccessToken, huser, hcheck, api.auth.GenerateAccessToken_signs,
      hsign]
  · intro huser hcheck issued err hsign hparse
    rw [api.auth.GenerateAccessToken_signs] at hsign
    simp only at hsign
    simp only [api.v2.CreateUserAccessToken, huser, hcheck, api.auth.GenerateAccessToken_signs,
      hsign, hparse]
  · intro huser err hread
    simp only [api.v2.DeleteUserAccessToken, huser, hread]
  · intro err hread
    simp only [api.v2.UpsertAccessTokenToStore, hread]

/-- C12 on the sample data, one failing call for each of the six cases: a store whose user
lookup fails; `alice` asking for a token of `root`; a library that cannot sign; a service
secret under which the signed token does not verify; and, for revocation and for the
append, a store whose settings cannot be read. -/
theorem api.v2.no_partial_write_witness :
    api.v2.CreateUserAccessToken sample.tokens
        { Secret := "secret", Store := { sample.settings with lookupErr := some "timeout" } }
        sample.ctx sample.request sample.clock
      = (.status codes.Code.Internal,
         { sample.settings with lookupErr := some "timeout" }, sample.clock) ∧
    api.v2.CreateUserAccessToken sample.tokens sample.service sample.ctx
        { Username := "root", Description := "phone", ExpiresAt := none } sample.clock
      = (.status codes.Code.PermissionDenied, sample.settings, sample.clock) ∧
    api.v2.CreateUserAccessToken sample.failing sample.service sample.ctx sample.request
        sample.clock
      = (.status codes.Code.Internal, sample.settings, fun n => sample.clock (n + 1)) ∧
    api.v2.CreateUserAccessToken sample.tokens
        { Secret := "rotated", Store := sample.settings } sample.ctx sample.request
        sample.clock
      = (.status codes.Code.Internal, sample.settings, fun n => sample.clock (n + 1)) ∧
    api.v2.DeleteUserAccessToken { Secret := "secret", Store := sample.unreadable } sample.ctx
        { Username := "alice", AccessToken := "t1" }
      = (.status codes.Code.Internal, sample.unreadable) ∧
    api.v2.UpsertAccessTokenToStore { Secret := "secret", Store := sample.unreadable }
        sample.alice "t3" "phone"
      = (.error ("failed to get user access tokens: " ++ "database is locked"),
         sample.unreadable) :=
  ⟨(api.v2.no_partial_write sample.tokens
      { Secret := "secret", Store := { sample.settings with lookupErr := some "timeout" } }
      sample.ctx sample.request { Username := "alice", AccessToken := "t1" } sample.clock
      sample.alice "t3" "phone").1 "timeout" rfl,
   (api.v2.no_partial_write sample.tokens sample.service sample.ctx
      { Username := "root", Description := "phone", ExpiresAt := none }
      { Username := "alice", AccessToken := "t1" } sample.clock
      sample.alice "t3" "phone").2.1 rfl codes.Code.PermissionDenied rfl,
   (api.v2.no_partial_write sample.failing sample.service sample.ctx sample.request
      { Username := "alice", AccessToken := "t1" } sample.clock
      sample.alice "t3" "phone").2.2.1 rfl rfl "key is invalid" rfl,
   (api.v2.no_partial_write sample.tokens { Secret := "rotated", Store := sample.settings }
      sample.ctx sample.request { Username := "alice", AccessToken := "t1" } sample.clock
      sample.alice "t3" "phone").2.2.2.1 rfl rfl "issued" "token is invalid" rfl rfl,
   (api.v2.no_partial_write sample.tokens { Secret := "secret", Store := sample.unreadable }
      sample.ctx sample.request { Username := "alice", AccessToken := "t1" } sample.clock
      sample.alice "t3" "phone").2.2.2.2.1 rfl "database is locked" rfl,
   (api.v2.no_partial_write sample.tokens { Secret := "secret", Store := sample.unreadable }
      sample.ctx sample.request { Username := "alice", AccessToken := "t1" } sample.clock
      sample.alice "t3" "phone").2.2.2.2.2 "database is locked" rfl⟩

/-! ## Personal access token registry: creation for another user, and listing after creation -/

/-- C11 at a failing input: `root`, who has the host role, creates a token for the existing
user `alice` (id 1). The call succeeds with a library that signs only the token whose
subject is `2`, the id of `root`, and fails with one that signs only the token whose
subject is `1`; and the new record is appended to the stored list of user 2, the list of
`alice` staying as it was. -/
theorem api.v2.CreateUserAccessToken_for_other_user_uses_caller :
    api.v2.getCurrentUser sample.rootCtx sample.shared = .ok (some sample.root) ∧
    sample.shared.GetUser { Username := "alice" } = .ok (some sample.alice) ∧
    (api.v2.CreateUserAccessToken
      (sample.issuing (api.auth.GenerateAccessToken.token "alice" 2
        (api.v2.CreateUserAccessToken.expiresAt sample.request) (sample.clock 0)))
      { Secret := "secret", Store := sample.shared } sample.rootCtx sample.request
      sample.clock).1 =
      .ok { AccessToken :=
              { AccessToken := "issued", Description := "phone",
                IssuedAt := { Seconds := 1, Nanos := 0 },
                ExpiresAt := some { Seconds := 2000, Nanos := 0 } } } ∧
    (api.auth.GenerateAccessToken.token "alice" 2
      (api.v2.CreateUserAccessToken.expiresAt sample.request)
      (sample.clock 0)).Claims.RegisteredClaims.Subject = "2" ∧
    (api.v2.CreateUserAccessToken
      (sample.issuing (api.auth.GenerateAccessToken.token "alice" 1
        (api.v2.CreateUserAccessToken.expiresAt sample.request) (sample.clock 0)))
      { Secret := "secret", Store := sample.shared } sample.rootCtx sample.request
      sample.clock).1 = .status codes.Code.Internal ∧
    (api.v2.CreateUserAccessToken
      (sample.issuing (api.auth.GenerateAccessToken.token "alice" 2
        (api.v2.CreateUserAccessToken.expiresAt sample.request) (sample.clock 0)))
      { Secret := "secret", Store := sample.shared } sample.rootCtx sample.request
      sample.clock).2.1.GetUserAccessTokens 2 =
        .ok [{ AccessToken := "issued", Description := "phone" }] ∧
    (api.v2.CreateUserAccessToken
      (sample.issuing (api.auth.GenerateAccessToken.token "alice" 2
        (api.v2.CreateUserAccessToken.expiresAt sample.request) (sample.clock 0)))
      { Secret := "secret", Store := sample.shared } sample.rootCtx sample.request
      sample.clock).2.1.GetUserAccessTokens 1 = .ok sample.records :=
  ⟨rfl, rfl, by decide, by decide, by decide, rfl, rfl⟩

theorem jwt.ParseWithClaims_ok {C : Type} (J : jwt.Library C) (tokenString : String)
    (keyFunc : jwt.Token C → Except String String) (parsed : jwt.Token C)
    (h : jwt.ParseWithClaims J tokenString keyFunc = .ok parsed) :
    J.decode tokenString = some parsed ∧
    ∃ key, keyFunc parsed = .ok key ∧ J.verify tokenString parsed key = true := by
  unfold jwt.ParseWithClaims at h
  cases hd : J.decode tokenString with
  | none => simp [hd] at h
  | some t =>
    simp only [hd] at h
    cases hk : keyFunc t with
    | error e => simp [hk] at h
    | ok key =>
      simp only [hk] at h
      by_cases hv : J.verify tokenString t key = true
      · simp only [hv, ↓reduceIte, Except.ok.injEq] at h
        subst h
        exact ⟨rfl, key, hk, hv⟩
      · simp [hv] at h

theorem jwt.ParseWithClaims_of_decode {C : Type} (J : jwt.Library C) (tokenString : String)
    (keyFunc : jwt.Token C → Except String String) (t parsed : jwt.Token C)
    (hd : J.decode tokenString = some t)
    (h : jwt.ParseWithClaims J tokenString keyFunc = .ok parsed) : parsed = t := by
  have := (jwt.ParseWithClaims_ok J tokenString keyFunc parsed h).1
  rw [hd] at this
  exact (Option.some.inj this).symm

/-- A successful `UpsertAccessTokenToStore` read a stored list and left it, followed by the
new record, as the stored list of the user. -/
theorem api.v2.UpsertAccessTokenToStore_ok (s : api.v2.APIV2Service) (user : store.User)
    (accessToken description : String) (st : store.Store)
    (h : api.v2.UpsertAccessTokenToStore s user accessToken description = (.ok (), st)) :
    ∃ stored,
      s.Store.GetUserAccessTokens user.ID = .ok stored ∧
      st.GetUserAccessTokens user.ID =
        .ok (stored ++ [{ AccessToken := accessToken, Description := description }]) := by
  unfold api.v2.UpsertAccessTokenToStore at h
  cases hread : s.Store.GetUserAccessTokens user.ID with
  | error e => simp [hread] at h
  | ok stored =>
    have hrerr := store.GetUserAccessTokens_readErr _ _ _ hread
    simp only [hread] at h
    cases hw : s.Store.writeErr with
    | some err =>
      rw [store.UpsertUserSettingV1_writeErr _ _ err hw] at h
      simp at h
    | none =>
      have hback := store.GetUserAccessTokens_UpsertUserSettingV1 s.Store user.ID
        (stored ++ [{ AccessToken := accessToken, Description := description }]) hrerr hw
      rw [store.UpsertUserSettingV1_ok _ _ hw] at h hback
      simp only [Prod.mk.injEq, true_and] at h
      subst h
      exact ⟨stored, rfl, hback⟩

/-- When the loop of `ListUserAccessTokens` ends normally, its result holds the entry of
every stored record whose token verifies. -/
theorem api.v2.ListUserAccessTokens.loop_contains (J : jwt.Library api.auth.ClaimsMessage)
    (Secret : String) (stored : List storepb.AccessTokensUserSetting_AccessToken)
    (accessTokens result : List apiv2pb.UserAccessToken)
    (hloop : api.v2.ListUserAccessTokens.loop J Secret stored accessTokens = .ok result) :
    (∀ u ∈ accessTokens, u ∈ result) ∧
    ∀ e ∈ stored, ∀ parsed issuedAt,
      jwt.ParseWithClaims J e.AccessToken (api.v2.keyFunc Secret) = .ok parsed →
      parsed.Claims.IssuedAt = some issuedAt →
      ({ AccessToken := e.AccessToken,
         Description := e.Description,
         IssuedAt := timestamppb.New issuedAt.Time,
         ExpiresAt := parsed.Claims.ExpiresAt.map (fun x => timestamppb.New x.Time) } :
        apiv2pb.UserAccessToken) ∈ result := by
  induction stored generalizing accessTokens with
  | nil =>
    simp only [api.v2.ListUserAccessTokens.loop, Outcome.ok.injEq] at hloop
    subst hloop
    exact ⟨fun u hu => hu, fun e he => by cases he⟩
  | cons x rest ih =>
    cases hparse : jwt.ParseWithClaims J x.AccessToken (api.v2.keyFunc Secret) with
    | error err =>
      simp only [api.v2.ListUserAccessTokens.loop, hparse] at hloop
      obtain ⟨hacc, hrest⟩ := ih accessTokens hloop
      refine ⟨hacc, ?_⟩
      intro e he parsed issuedAt hp hi
      rcases List.mem_cons.mp he with h | h
      · subst h
        rw [hparse] at hp
        cases hp
      · exact hrest e h parsed issuedAt hp hi
    | ok px =>
      cases hissued : px.Claims.IssuedAt with
      | none =>
        simp only [api.v2.ListUserAccessTokens.loop, hparse, hissued] at hloop
        cases hloop
      | some ix =>
        simp only [api.v2.ListUserAccessTokens.loop, hparse, hissued] at hloop
        obtain ⟨hacc, hrest⟩ := ih _ hloop
        refine ⟨fun u hu => hacc u (List.mem_append_left _ hu), ?_⟩
        intro e he parsed issuedAt hp hi
        rcases List.mem_cons.mp he with h | h
        · subst h
          rw [hparse] at hp
          cases hp
          rw [hissued] at hi
          cases hi
          refine hacc _ (List.mem_append_right _ (List.mem_singleton.mpr ?_))
          cases px.Claims.ExpiresAt <;> rfl
        · exact hrest e h parsed issuedAt hp hi

/-- C13: after a successful `CreateUserAccessToken`, a `ListUserAccessTokens` that reads the
stored list holding the new record, with the same secret and a sort routine that behaves
as documented, at a time when the new token still verifies, contains the very record that
the creation returned (same token string, description, issued-at and expires-at or absence
of it) whenever it returns a listing; and it does return one when every stored token that
verifies carries an issued-at claim. -/
theorem api.v2.CreateUserAccessToken_listed_afterwards
    (J J1 : jwt.Library api.auth.ClaimsMessage) (L : slices.Library)
    (s : api.v2.APIV2Service) (ctx : api.v2.Context)
    (request : apiv2pb.CreateUserAccessTokenRequest) (clk : time.Clock)
    (response : apiv2pb.CreateUserAccessTokenResponse) (st : store.Store) (clk1 : time.Clock)
    (user : store.User) (ctx1 : api.v2.Context)
    (request1 : apiv2pb.ListUserAccessTokensRequest) (user1 : store.User)
    (hsort : L.Sorts)
    (hdecode : J1.decode = J.decode)
    (huser : api.v2.getCurrentUser ctx s.Store = .ok (some user))
    (hcreate : api.v2.CreateUserAccessToken J s ctx request clk = (.ok response, st, clk1))
    (huser1 : api.v2.getCurrentUser ctx1 st = .ok (some user1))
    (hid : api.v2.ListUserAccessTokens.userID { s with Store := st } user1 request1
      = .ok user.ID)
    (hverifies : (jwt.ParseWithClaims J1 response.AccessToken.AccessToken
      (api.v2.keyFunc s.Secret)).toBool = true) :
    (∀ listed,
      (api.v2.ListUserAccessTokens J1 L { s with Store := st } ctx1 request1).1 = .ok listed →
      response.AccessToken ∈ listed.AccessTokens) ∧
    (∀ after, st.GetUserAccessTokens user.ID = .ok after →
      (∀ e ∈ after, ∀ parsed,
        jwt.ParseWithClaims J1 e.AccessToken (api.v2.keyFunc s.Secret) = .ok parsed →
        parsed.Claims.IssuedAt ≠ none) →
      ∃ listed,
        (api.v2.ListUserAccessTokens J1 L { s with Store := st } ctx1 request1).1
          = .ok listed) := by
  obtain ⟨user0, accessToken, parsed, issuedAt, huser0, _, _, hparse, hup, hiat, hresp⟩ :=
    api.v2.CreateUserAccessToken_ok J s ctx request clk response st clk1 hcreate
  have hsame : user0 = user := by
    rw [huser] at huser0
    cases huser0
    rfl
  subst hsame
  obtain ⟨stored, _, hread1⟩ :=
    api.v2.UpsertAccessTokenToStore_ok s user0 accessToken request.Description st hup
  have heq := api.v2.ListUserAccessTokens_eq J1 L { s with Store := st } ctx1 request1 user1
    user0.ID _ huser1 hid hread1
  constructor
  · intro listed hlisted
    rw [heq] at hlisted
    cases hloop : api.v2.ListUserAccessTokens.loop J1 s.Secret
        (stored ++ [{ AccessToken := accessToken, Description := request.Description }]) [] with
    | panic =>
      simp only [hloop] at hlisted
      cases hlisted
    | status code =>
      simp only [hloop] at hlisted
      cases hlisted
    | ok result =>
      simp only [hloop, Outcome.ok.injEq] at hlisted
      subst hlisted
      have hv : (jwt.ParseWithClaims J1 accessToken (api.v2.keyFunc s.Secret)).toBool
          = true := by
        rw [hresp] at hverifies
        exact hverifies
      cases hparse1 : jwt.ParseWithClaims J1 accessToken (api.v2.keyFunc s.Secret) with
      | error err =>
        rw [hparse1] at hv
        cases hv
      | ok parsed1 =>
        have hd : J1.decode accessToken = some parsed := by
          rw [hdecode]
          exact (jwt.ParseWithClaims_ok J accessToken _ parsed hparse).1
        have hp : parsed1 = parsed :=
          jwt.ParseWithClaims_of_decode J1 accessToken _ parsed parsed1 hd hparse1
        subst hp
        have hmem := (api.v2.ListUserAccessTokens.loop_contains J1 s.Secret _ [] result
          hloop).2 { AccessToken := accessToken, Description := request.Description }
          (List.mem_append_right _ (List.mem_singleton.mpr rfl)) parsed1 issuedAt hparse1 hiat
        rw [hresp]
        exact ((hsort _ result api.v2.ListUserAccessTokens.cmp).1.mem_iff).mpr hmem
  · intro after hafter hall
    rw [hread1] at hafter
    cases hafter
    obtain ⟨added, hloop, _⟩ := api.v2.ListUserAccessTokens.loop_ok J1 s.Secret _ hall []
    refine ⟨{ AccessTokens := L.SortFunc _ ([] ++ added) api.v2.ListUserAccessTokens.cmp }, ?_⟩
    rw [heq]
    simp only [hloop]

/-- C13 on the sample data: `alice` creates the token `issued` and then lists her tokens;
the listing of four entries holds the record the creation returned. -/
theorem api.v2.CreateUserAccessToken_listed_afterwards_witness :
    slices.shortSlices.Sorts ∧
    api.v2.CreateUserAccessToken sample.tokens sample.service sample.ctx sample.request
        sample.clock =
      (.ok { AccessToken :=
              { AccessToken := "issued", Description := "phone",
                IssuedAt := { Seconds := 1, Nanos := 0 },
                ExpiresAt := some { Seconds := 2000, Nanos := 0 } } },
       (api.v2.UpsertAccessTokenToStore sample.service sample.alice "issued" "phone").2,
       fun n => sample.clock (n + 1)) ∧
    (api.v2.ListUserAccessTokens sample.tokens slices.shortSlices
      { sample.service with
        Store := (api.v2.UpsertAccessTokenToStore sample.service sample.alice "issued"
          "phone").2 }
      sample.ctx { Username := "alice" }).1 =
      .ok { AccessTokens :=
        [{ AccessToken := "issued", Description := "phone",
           IssuedAt := { Seconds := 1, Nanos := 0 },
           ExpiresAt := some { Seconds := 2000, Nanos := 0 } },
         { AccessToken := "t2", Description := "ci",
           IssuedAt := { Seconds := 50, Nanos := 0 }, ExpiresAt := none },
         { AccessToken := "t1", Description := "laptop",
           IssuedAt := { Seconds := 100, Nanos := 0 }, ExpiresAt := none },
         { AccessToken := "t1", Description := "copy",
           IssuedAt := { Seconds := 100, Nanos := 0 }, ExpiresAt := none }] } ∧
    ({ AccessToken := "issued", Description := "phone",
       IssuedAt := { Seconds := 1, Nanos := 0 },
       ExpiresAt := some { Seconds := 2000, Nanos := 0 } } : apiv2pb.UserAccessToken) ∈
      [({ AccessToken := "issued", Description := "phone",
          IssuedAt := { Seconds := 1, Nanos := 0 },
          ExpiresAt := some { Seconds := 2000, Nanos := 0 } } : apiv2pb.UserAccessToken),
       { AccessToken := "t2", Description := "ci",
         IssuedAt := { Seconds := 50, Nanos := 0 }, ExpiresAt := none },
       { AccessToken := "t1", Description := "laptop",
         IssuedAt := { Seconds := 100, Nanos := 0 }, ExpiresAt := none },
       { AccessToken := "t1", Description := "copy",
         IssuedAt := { Seconds := 100, Nanos := 0 }, ExpiresAt := none }] :=
  ⟨slices.shortSlices_Sorts, rfl, by decide,
    (api.v2.CreateUserAccessToken_listed_afterwards sample.tokens sample.tokens
      slices.shortSlices sample.service sample.ctx sample.request sample.clock _ _ _
      sample.alice sample.ctx { Username := "alice" } sample.alice
      slices.shortSlices_Sorts rfl rfl rfl rfl rfl rfl).1 _ (by decide)⟩

/-! ## Order of entries issued in the same second -/

theorem slices.insertionSortCmpFunc.inner_filter {E : Type} (cmp : E → E → Int)
    (key : E → Int) (hcmp : ∀ a b, key a = key b → ¬ cmp a b < 0) (k : Int) (x : E)
    (sorted : List E) :
    (slices.insertionSortCmpFunc.inner cmp x sorted).filter (fun u => decide (key u = k)) =
      (x :: sorted).filter (fun u => decide (key u = k)) := by
  induction sorted with
  | nil => rfl
  | cons y ys ih =>
    unfold slices.insertionSortCmpFunc.inner
    split
    · next hlt =>
      have hne : key x ≠ key y := fun h => hcmp x y h hlt
      by_cases hx : key x = k
      · have hy : key y ≠ k := fun h => hne (hx.trans h.symm)
        simp [List.filter_cons, hx, hy, ih]
      · by_cases hy : key y = k
        · simp [List.filter_cons, hx, hy, ih]
        · simp [List.filter_cons, hx, hy, ih]
    · rfl

theorem slices.insertionSortCmpFunc.foldl_filter {E : Type} (cmp : E → E → Int)
    (key : E → Int) (hcmp : ∀ a b, key a = key b → ¬ cmp a b < 0) (k : Int)
    (data sorted : List E) :
    (data.foldl (fun sorted x => slices.insertionSortCmpFunc.inner cmp x sorted) sorted).filter
        (fun u => decide (key u = k)) =
      data.reverse.filter (fun u => decide (key u = k)) ++
        sorted.filter (fun u => decide (key u = k)) := by
  induction data generalizing sorted with
  | nil => simp
  | cons x xs ih =>
    rw [List.foldl_cons, ih, slices.insertionSortCmpFunc.inner_filter cmp key hcmp]
    simp [List.filter_append, List.filter_cons]
    split <;> simp

/-- The insertion sort of the library is stable: when `cmp` never puts one of two elements
of equal key before the other, the elements of each key keep their order. -/
theorem slices.insertionSortCmpFunc_stable {E : Type} (cmp : E → E → Int) (key : E → Int)
    (hcmp : ∀ a b, key a = key b → ¬ cmp a b < 0) (k : Int) (data : List E) :
    (slices.insertionSortCmpFunc data cmp).filter (fun u => decide (key u = k)) =
      data.filter (fun u => decide (key u = k)) := by
  unfold slices.insertionSortCmpFunc
  rw [List.filter_reverse, slices.insertionSortCmpFunc.foldl_filter cmp key hcmp]
  simp [List.filter_reverse]

/-- On a slice of at most 12 elements the modelled library runs the insertion sort. -/
theorem slices.modelled_short {E : Type} (x : List E) (cmp : E → E → Int)
    (h : x.length ≤ 12) :
    slices.modelled.SortFunc E x cmp = slices.insertionSortCmpFunc x cmp := by
  simp [slices.modelled, slices.SortFunc, slices.pdqsortCmpFunc, h,
    slices.insertionSortCmpFunc.range]

/-- When the loop of `ListUserAccessTokens` ends normally, the entries it has built are, in
order, those of the stored records whose token verifies. -/
theorem api.v2.ListUserAccessTokens.loop_survivors (J : jwt.Library api.auth.ClaimsMessage)
    (Secret : String) (stored : List storepb.AccessTokensUserSetting_AccessToken)
    (result : List apiv2pb.UserAccessToken)
    (hloop : api.v2.ListUserAccessTokens.loop J Secret stored [] = .ok result) :
    result.map (fun u => (u.AccessToken, u.Description)) =
      (stored.filter (fun e =>
        (jwt.ParseWithClaims J e.AccessToken (api.v2.keyFunc Secret)).toBool)).map
        (fun e => (e.AccessToken, e.Description)) := by
  have hiat : ∀ e ∈ stored, ∀ parsed,
      jwt.ParseWithClaims J e.AccessToken (api.v2.keyFunc Secret) = .ok parsed →
      parsed.Claims.IssuedAt ≠ none := by
    intro e he parsed hparse hnone
    rw [api.v2.ListUserAccessTokens.loop_panic J Secret stored ⟨e, he, parsed, hparse, hnone⟩ []]
      at hloop
    cases hloop
  obtain ⟨added, hok, hmap⟩ := api.v2.ListUserAccessTokens.loop_ok J Secret stored hiat []
  rw [hloop, List.nil_append, Outcome.ok.injEq] at hok
  rw [hok]
  exact hmap

/-- C15, as amended: when at most 12 stored entries survive verification, and the sort
routine runs its insertion sort on slices of that size (as `golang.org/x/exp/slices`
does), the entries of a returned listing that share their issued-at seconds stand in the
order in which the surviving entries are stored. -/
theorem api.v2.ListUserAccessTokens_stable_up_to_twelve
    (J : jwt.Library api.auth.ClaimsMessage) (L : slices.Library)
    (s : api.v2.APIV2Service) (ctx : api.v2.Context)
    (request : apiv2pb.ListUserAccessTokensRequest) (user : store.User) (userID : Int)
    (stored : List storepb.AccessTokensUserSetting_AccessToken)
    (response : apiv2pb.ListUserAccessTokensResponse)
    (hL : ∀ (x : List apiv2pb.UserAccessToken) (cmp : _ → _ → Int), x.length ≤ 12 →
      L.SortFunc _ x cmp = slices.insertionSortCmpFunc x cmp)
    (huser : api.v2.getCurrentUser ctx s.Store = .ok (some user))
    (hid : api.v2.ListUserAccessTokens.userID s user request = .ok userID)
    (hread : s.Store.GetUserAccessTokens userID = .ok stored)
    (hshort : (stored.filter (fun e =>
      (jwt.ParseWithClaims J e.AccessToken (api.v2.keyFunc s.Secret)).toBool)).length ≤ 12)
    (hlist : (api.v2.ListUserAccessTokens J L s ctx request).1 = .ok response) :
    ∃ survivors,
      api.v2.ListUserAccessTokens.loop J s.Secret stored [] = .ok survivors ∧
      survivors.map (fun u => (u.AccessToken, u.Description)) =
        (stored.filter (fun e =>
          (jwt.ParseWithClaims J e.AccessToken (api.v2.keyFunc s.Secret)).toBool)).map
          (fun e => (e.AccessToken, e.Description)) ∧
      ∀ seconds : Int,
        response.AccessTokens.filter (fun u => decide (u.IssuedAt.Seconds = seconds)) =
          survivors.filter (fun u => decide (u.IssuedAt.Seconds = seconds)) := by
  rw [api.v2.ListUserAccessTokens_eq J L s ctx request user userID stored huser hid hread]
    at hlist
  cases hloop : api.v2.ListUserAccessTokens.loop J s.Secret stored [] with
  | panic =>
    rw [hloop] at hlist
    cases hlist
  | status code =>
    rw [hloop] at hlist
    cases hlist
  | ok survivors =>
    rw [hloop] at hlist
    simp only [Outcome.ok.injEq] at hlist
    subst hlist
    have hmap := api.v2.ListUserAccessTokens.loop_survivors J s.Secret stored survivors hloop
    have hlen : survivors.length ≤ 12 := by
      have := congrArg List.length hmap
      simp only [List.length_map] at this
      omega
    refine ⟨survivors, rfl, hmap, ?_⟩
    intro seconds
    show (L.SortFunc _ survivors api.v2.ListUserAccessTokens.cmp).filter _ = _
    rw [hL survivors _ hlen]
    refine slices.insertionSortCmpFunc_stable _ (fun u => u.IssuedAt.Seconds) ?_ seconds survivors
    intro a b hab
    simp only [api.v2.ListUserAccessTokens.cmp, hab, sub_self, api.v2.wrapInt64]
    decide

/-- C15 on the sample store: the two records of token `t1`, both issued at 100 s, come out
in their stored order, `laptop` before `copy`. -/
theorem api.v2.ListUserAccessTokens_stable_up_to_twelve_witness :
    (sample.records.filter (fun e =>
      (jwt.ParseWithClaims sample.tokens e.AccessToken
        (api.v2.keyFunc sample.service.Secret)).toBool)).length ≤ 12 ∧
    (api.v2.ListUserAccessTokens sample.tokens slices.modelled sample.service sample.ctx
      { Username := "alice" }).1 =
      .ok { AccessTokens :=
        [{ AccessToken := "t2", Description := "ci",
           IssuedAt := { Seconds := 50, Nanos := 0 }, ExpiresAt := none },
         { AccessToken := "t1", Description := "laptop",
           IssuedAt := { Seconds := 100, Nanos := 0 }, ExpiresAt := none },
         { AccessToken := "t1", Description := "copy",
           IssuedAt := { Seconds := 100, Nanos := 0 }, ExpiresAt := none }] } ∧
    ∃ survivors,
      api.v2.ListUserAccessTokens.loop sample.tokens sample.service.Secret sample.records []
        = .ok survivors ∧
      survivors.map (fun u => (u.AccessToken, u.Description)) =
        (sample.records.filter (fun e =>
          (jwt.ParseWithClaims sample.tokens e.AccessToken
            (api.v2.keyFunc sample.service.Secret)).toBool)).map
          (fun e => (e.AccessToken, e.Description)) ∧
      ∀ seconds : Int,
        ([{ AccessToken := "t2", Description := "ci",
            IssuedAt := { Seconds := 50, Nanos := 0 }, ExpiresAt := none },
          { AccessToken := "t1", Description := "laptop",
            IssuedAt := { Seconds := 100, Nanos := 0 }, ExpiresAt := none },
          { AccessToken := "t1", Description := "copy",
            IssuedAt := { Seconds := 100, Nanos := 0 }, ExpiresAt := none }] :
          List apiv2pb.UserAccessToken).filter
            (fun u => decide (u.IssuedAt.Seconds = seconds)) =
          survivors.filter (fun u => decide (u.IssuedAt.Seconds = seconds)) :=
  ⟨by decide, by decide,
    api.v2.ListUserAccessTokens_stable_up_to_twelve sample.tokens slices.modelled
      sample.service sample.ctx { Username := "alice" } sample.alice 1 sample.records _
      (fun x cmp h => slices.modelled_short x cmp h) rfl rfl rfl (by decide) (by decide)⟩

/-- C15 fails as stated: with thirteen stored tokens that all verify, the library does one
partition around the entry at index 6 before its insertion sorts, and the listing returns
`k05` before `k01` to `k04` (all issued at 1 s) and `k06` before `k00` (both issued at
5 s), against their stored order. -/
theorem api.v2.ListUserAccessTokens_unstable_on_thirteen :
    api.v2.ListUserAccessTokens.loop sample.tokens13 "secret" sample.records13 [] =
      .ok (sample.thirteen.map (fun e =>
        { AccessToken := e.1, Description := e.1,
          IssuedAt := { Seconds := e.2, Nanos := 0 }, ExpiresAt := none })) ∧
    slices.SortFunc
      (sample.thirteen.map (fun e =>
        ({ AccessToken := e.1, Description := e.1,
           IssuedAt := { Seconds := e.2, Nanos := 0 }, ExpiresAt := none } :
          apiv2pb.UserAccessToken)))
      api.v2.ListUserAccessTokens.cmp =
      some ([("k05", 1), ("k01", 1), ("k02", 1), ("k03", 1), ("k04", 1), ("k06", 5),
             ("k00", 5), ("k07", 9), ("k08", 9), ("k09", 9), ("k10", 9), ("k11", 9),
             ("k12", 9)].map (fun e =>
        { AccessToken := e.1, Description := e.1,
          IssuedAt := { Seconds := e.2, Nanos := 0 }, ExpiresAt := none })) ∧
    (api.v2.ListUserAccessTokens sample.tokens13 slices.modelled
      (sample.serviceWith sample.records13) sample.ctx { Username := "alice" }).1 =
      .ok { AccessTokens :=
        [("k05", 1), ("k01", 1), ("k02", 1), ("k03", 1), ("k04", 1), ("k06", 5),
         ("k00", 5), ("k07", 9), ("k08", 9), ("k09", 9), ("k10", 9), ("k11", 9),
         ("k12", 9)].map (fun e =>
          { AccessToken := e.1, Description := e.1,
            IssuedAt := { Seconds := e.2, Nanos := 0 }, ExpiresAt := none }) } := by
  refine ⟨by decide, by decide, by decide⟩

/-! ## Revocation touches the record of the caller only -/

theorem store.find_filter_of_imp {α : Type} (p q : α → Bool) (l : List α)
    (h : ∀ x, p x = true → q x = true) : (l.filter q).find? p = l.find? p := by
  induction l with
  | nil => rfl
  | cons x xs ih =>
    by_cases hq : q x = true
    · simp only [List.filter_cons, hq, ↓reduceIte, List.find?_cons, ih]
    · have hp : p x = false := by
        cases hpx : p x with
        | false => rfl
        | true => exact absurd (h x hpx) hq
      simp only [List.filter_cons, hq, Bool.false_eq_true, ↓reduceIte, List.find?_cons, hp, ih]

/-- A write leaves the record of every other user and of every other key as it was. -/
theorem store.findSetting_UpsertUserSettingV1 (s : store.Store) (upsert : storepb.UserSetting)
    (userID : Int) (key : storepb.UserSettingKey)
    (h : ¬ (userID = upsert.UserId ∧ key = upsert.Key)) :
    (s.UpsertUserSettingV1 upsert).2.findSetting userID key = s.findSetting userID key := by
  cases hw : s.writeErr with
  | some err => rw [store.UpsertUserSettingV1_writeErr _ _ err hw]
  | none =>
    rw [store.UpsertUserSettingV1_ok _ _ hw]
    have hhead : (upsert.UserId == userID && upsert.Key == key) = false := by
      rw [Bool.and_eq_false_iff]
      by_cases hu : upsert.UserId = userID
      · right
        simp only [beq_eq_false_iff_ne, ne_eq]
        exact fun hk => h ⟨hu.symm, hk.symm⟩
      · left
        simpa using hu
    simp only [store.Store.findSetting, List.find?_cons, hhead]
    apply store.find_filter_of_imp
    intro x hx
    simp only [Bool.and_eq_true, beq_iff_eq] at hx
    simp only [Bool.not_eq_true', Bool.and_eq_false_iff, beq_eq_false_iff_ne, ne_eq]
    by_cases hu : x.UserId = upsert.UserId
    · right
      exact fun hk => h ⟨hx.1.symm.trans hu, hx.2.symm.trans hk⟩
    · exact Or.inl hu

/-- C21: whatever user and token the request names, `DeleteUserAccessToken` either leaves
the store as it was or performs one write, under the access-tokens key of the id of the
current caller; so the user records, and the settings record of every other user or under
every other key, are after the call what they were before it. -/
theorem api.v2.DeleteUserAccessToken_touches_caller_only (s : api.v2.APIV2Service)
    (ctx : api.v2.Context) (request : apiv2pb.DeleteUserAccessTokenRequest) :
    ((api.v2.DeleteUserAccessToken s ctx request).2 = s.Store ∨
      ∃ user tokens,
        api.v2.getCurrentUser ctx s.Store = .ok (some user) ∧
        (api.v2.DeleteUserAccessToken s ctx request).2 =
          (s.Store.UpsertUserSettingV1
            { UserId := user.ID,
              Key := storepb.UserSettingKey.USER_SETTING_ACCESS_TOKENS,
              Value := .UserSetting_AccessTokens { AccessTokens := tokens } }).2) ∧
    (api.v2.DeleteUserAccessToken s ctx request).2.users = s.Store.users ∧
    (∀ (userID : Int) (key : storepb.UserSettingKey),
      (∀ user, api.v2.getCurrentUser ctx s.Store = .ok (some user) →
        ¬ (userID = user.ID ∧ key = storepb.UserSettingKey.USER_SETTING_ACCESS_TOKENS)) →
      (api.v2.DeleteUserAccessToken s ctx request).2.findSetting userID key
        = s.Store.findSetting userID key) ∧
    (∀ (userID : Int),
      (∀ user, api.v2.getCurrentUser ctx s.Store = .ok (some user) → userID ≠ user.ID) →
      (api.v2.DeleteUserAccessToken s ctx request).2.GetUserAccessTokens userID
        = s.Store.GetUserAccessTokens userID) := by
  have hcases : (api.v2.DeleteUserAccessToken s ctx request).2 = s.Store ∨
      ∃ user tokens,
        api.v2.getCurrentUser ctx s.Store = .ok (some user) ∧
        (api.v2.DeleteUserAccessToken s ctx request).2 =
          (s.Store.UpsertUserSettingV1
            { UserId := user.ID,
              Key := storepb.UserSettingKey.USER_SETTING_ACCESS_TOKENS,
              Value := .UserSetting_AccessTokens { AccessTokens := tokens } }).2 := by
    cases huser : api.v2.getCurrentUser ctx s.Store with
    | error e =>
      left
      simp only [api.v2.DeleteUserAccessToken, huser]
    | ok ou =>
      cases ou with
      | none =>
        left
        simp only [api.v2.DeleteUserAccessToken, huser]
      | some user =>
        cases hread : s.Store.GetUserAccessTokens user.ID with
        | error e =>
          left
          simp only [api.v2.DeleteUserAccessToken, huser, hread]
        | ok stored =>
          right
          refine ⟨user, stored.filter (fun e => e.AccessToken != request.AccessToken), rfl, ?_⟩
          rw [api.v2.DeleteUserAccessToken_eq s ctx request user stored huser hread]
          cases hw : s.Store.writeErr with
          | none => rw [store.UpsertUserSettingV1_ok _ _ hw]
          | some err => rw [store.UpsertUserSettingV1_writeErr _ _ err hw]
  have hfind : ∀ (userID : Int) (key : storepb.UserSettingKey),
      (∀ user, api.v2.getCurrentUser ctx s.Store = .ok (some user) →
        ¬ (userID = user.ID ∧ key = storepb.UserSettingKey.USER_SETTING_ACCESS_TOKENS)) →
      (api.v2.DeleteUserAccessToken s ctx request).2.findSetting userID key
        = s.Store.findSetting userID key := by
    intro userID key hother
    rcases hcases with h | ⟨user, tokens, huser, h⟩
    · rw [h]
    · rw [h]
      exact store.findSetting_UpsertUserSettingV1 _ _ userID key (hother user huser)
  refine ⟨hcases, ?_, hfind, ?_⟩
  · rcases hcases with h | ⟨user, tokens, _, h⟩
    · rw [h]
    · rw [h]
      exact (store.UpsertUserSettingV1_frame _ _).1
  · intro userID hother
    have hf := hfind userID storepb.UserSettingKey.USER_SETTING_ACCESS_TOKENS
      (fun user huser hh => hother user huser hh.1)
    have hr : (api.v2.DeleteUserAccessToken s ctx request).2.readErr = s.Store.readErr := by
      rcases hcases with h | ⟨user, tokens, _, h⟩
      · rw [h]
      · rw [h]
        exact (store.UpsertUserSettingV1_frame _ _).2.2.1
    simp only [store.Store.GetUserAccessTokens, hf, hr]

/-- C21 on a sample store: `alice` revokes `t1` in a request that names `root`; her own
list loses its two `t1` records, while the record of `root`, which holds the same token
string, and her setting under another key stay as they were. -/
theorem api.v2.DeleteUserAccessToken_touches_caller_only_witness :
    api.v2.getCurrentUser sample.ctx sample.crowded = .ok (some sample.alice) ∧
    (api.v2.DeleteUserAccessToken { Secret := "secret", Store := sample.crowded } sample.ctx
      { Username := "root", AccessToken := "t1" }).2.GetUserAccessTokens 1
        = .ok [{ AccessToken := "t2", Description := "ci" }] ∧
    (api.v2.DeleteUserAccessToken { Secret := "secret", Store := sample.crowded } sample.ctx
      { Username := "root", AccessToken := "t1" }).2.GetUserAccessTokens 2
        = sample.crowded.GetUserAccessTokens 2 ∧
    sample.crowded.GetUserAccessTokens 2
      = .ok [{ AccessToken := "t1", Description := "desk" }] ∧
    (api.v2.DeleteUserAccessToken { Secret := "secret", Store := sample.crowded } sample.ctx
      { Username := "root", AccessToken := "t1" }).2.findSetting 1
        storepb.UserSettingKey.USER_SETTING_KEY_UNSPECIFIED
        = sample.crowded.findSetting 1 storepb.UserSettingKey.USER_SETTING_KEY_UNSPECIFIED ∧
    sample.crowded.findSetting 1 storepb.UserSettingKey.USER_SETTING_KEY_UNSPECIFIED
      = some { UserId := 1, Key := storepb.UserSettingKey.USER_SETTING_KEY_UNSPECIFIED,
               Value := .other "locale=en" } :=
  ⟨rfl, rfl,
    (api.v2.DeleteUserAccessToken_touches_caller_only
      { Secret := "secret", Store := sample.crowded } sample.ctx
      { Username := "root", AccessToken := "t1" }).2.2.2 2
      (fun user huser => by cases huser; decide),
    rfl,
    (api.v2.DeleteUserAccessToken_touches_caller_only
      { Secret := "secret", Store := sample.crowded } sample.ctx
      { Username := "root", AccessToken := "t1" }).2.2.1 1
      storepb.UserSettingKey.USER_SETTING_KEY_UNSPECIFIED
      (fun user _ h => by cases h.2),
    rfl⟩

/-! ## The invariant of the registry

A property that holds of the token the issuer builds holds of every stored token that
verifies: this is so in a store without records and is kept by every call that writes, so
it is so in every store the registry can come to hold. Two such properties are that the
claims carry an issued-at, and that the issued-at is a reading of the clock. -/

/-- A write to the record of one user leaves the stored list of every other user as it
was. -/
theorem store.GetUserAccessTokens_UpsertUserSettingV1_other (s : store.Store)
    (upsert : storepb.UserSetting) (userID : Int) (h : userID ≠ upsert.UserId) :
    (s.UpsertUserSettingV1 upsert).2.GetUserAccessTokens userID
      = s.GetUserAccessTokens userID := by
  have hf := store.findSetting_UpsertUserSettingV1 s upsert userID
    storepb.UserSettingKey.USER_SETTING_ACCESS_TOKENS (fun hh => h hh.1)
  obtain ⟨_, _, hr, _⟩ := store.UpsertUserSettingV1_frame s upsert
  simp only [store.Store.GetUserAccessTokens, hf, hr]

/-- A stored list read after a write of access tokens is the written one, for the user
written to, or the list that was stored before. -/
theorem store.GetUserAccessTokens_after_write (s : store.Store) (writtenID userID : Int)
    (written stored : List storepb.AccessTokensUserSetting_AccessToken)
    (h : (s.UpsertUserSettingV1
        { UserId := writtenID,
          Key := storepb.UserSettingKey.USER_SETTING_ACCESS_TOKENS,
          Value := .UserSetting_AccessTokens { AccessTokens := written } }).2.GetUserAccessTokens
      userID = .ok stored) :
    stored = written ∨ s.GetUserAccessTokens userID = .ok stored := by
  cases hw : s.writeErr with
  | some err =>
    rw [store.UpsertUserSettingV1_writeErr _ _ err hw] at h
    exact Or.inr h
  | none =>
    by_cases hid : userID = writtenID
    · subst hid
      obtain ⟨_, _, hr, _⟩ := store.UpsertUserSettingV1_frame s
        { UserId := userID,
          Key := storepb.UserSettingKey.USER_SETTING_ACCESS_TOKENS,
          Value := .UserSetting_AccessTokens { AccessTokens := written } }
      have hrerr := store.GetUserAccessTokens_readErr _ _ _ h
      rw [hr] at hrerr
      rw [store.GetUserAccessTokens_UpsertUserSettingV1 s userID written hrerr hw] at h
      cases h
      exact Or.inl rfl
    · rw [store.GetUserAccessTokens_UpsertUserSettingV1_other s _ userID hid] at h
      exact Or.inr h

/-- A store without settings records holds no token, so every property holds of its
stored tokens that verify. -/
theorem store.no_settings_invariant (J : jwt.Library api.auth.ClaimsMessage) (Secret : String)
    (P : jwt.Token api.auth.ClaimsMessage → Prop)
    (st : store.Store) (hempty : st.settings = []) :
    ∀ userID stored, st.GetUserAccessTokens userID = .ok stored →
      ∀ e ∈ stored, ∀ parsed,
        jwt.ParseWithClaims J e.AccessToken (api.v2.keyFunc Secret) = .ok parsed →
        P parsed := by
  intro userID stored hread e he
  cases hr : st.readErr with
  | some err => simp [store.Store.GetUserAccessTokens, hr] at hread
  | none =>
    simp only [store.Store.GetUserAccessTokens, hr, store.Store.findSetting, hempty,
      List.find?_nil, Except.ok.injEq] at hread
    subst hread
    cases he

/-- `DeleteUserAccessToken` keeps the invariant, however the call ends: it only removes
records. -/
theorem api.v2.DeleteUserAccessToken_keeps_invariant (J : jwt.Library api.auth.ClaimsMessage)
    (P : jwt.Token api.auth.ClaimsMessage → Prop)
    (s : api.v2.APIV2Service) (ctx : api.v2.Context)
    (request : apiv2pb.DeleteUserAccessTokenRequest)
    (hinv : ∀ userID stored, s.Store.GetUserAccessTokens userID = .ok stored →
      ∀ e ∈ stored, ∀ parsed,
        jwt.ParseWithClaims J e.AccessToken (api.v2.keyFunc s.Secret) = .ok parsed →
        P parsed) :
    ∀ userID stored,
      (api.v2.DeleteUserAccessToken s ctx request).2.GetUserAccessTokens userID = .ok stored →
      ∀ e ∈ stored, ∀ parsed,
        jwt.ParseWithClaims J e.AccessToken (api.v2.keyFunc s.Secret) = .ok parsed →
        P parsed := by
  intro userID stored hread e he parsed hparse
  cases huser : api.v2.getCurrentUser ctx s.Store with
  | error err =>
    simp only [api.v2.DeleteUserAccessToken, huser] at hread
    exact hinv userID stored hread e he parsed hparse
  | ok found =>
    cases found with
    | none =>
      simp only [api.v2.DeleteUserAccessToken, huser] at hread
      exact hinv userID stored hread e he parsed hparse
    | some user =>
      cases hold : s.Store.GetUserAccessTokens user.ID with
      | error err =>
        simp only [api.v2.DeleteUserAccessToken, huser, hold] at hread
        exact hinv userID stored hread e he parsed hparse
      | ok before =>
        rw [api.v2.DeleteUserAccessToken_eq s ctx request user before huser hold] at hread
        have hst : ∀ st : Except String storepb.UserSetting × store.Store,
            (match st with
              | (.error _, st) =>
                ((.status codes.Code.Internal, st) :
                  Outcome apiv2pb.DeleteUserAccessTokenResponse × store.Store)
              | (.ok _, st) => (.ok {}, st)).2 = st.2 := by
          intro st
          rcases st with ⟨r, st⟩
          cases r <;> rfl
        rw [hst] at hread
        rcases store.GetUserAccessTokens_after_write s.Store user.ID userID _ stored hread
          with h | h
        · subst h
          exact hinv user.ID before hold e (List.mem_of_mem_filter he) parsed hparse
        · exact hinv userID stored h e he parsed hparse

/-- `CreateUserAccessToken` keeps the invariant, however the call ends, when the property
holds of the token the issuer builds in the call and the token library parses a string it
has signed back to the token that was signed: the one record the call adds holds the token
of the issuer. -/
theorem api.v2.CreateUserAccessToken_keeps_invariant (J : jwt.Library api.auth.ClaimsMessage)
    (P : jwt.Token api.auth.ClaimsMessage → Prop)
    (s : api.v2.APIV2Service) (ctx : api.v2.Context)
    (request : apiv2pb.CreateUserAccessTokenRequest) (clk : time.Clock)
    (hround : ∀ t key tokenString, J.SignedString t key = .ok tokenString →
      J.decode tokenString = some t)
    (hissuer : ∀ userID, P (api.auth.GenerateAccessToken.token request.Username userID
      (api.v2.CreateUserAccessToken.expiresAt request) (clk 0)))
    (hinv : ∀ userID stored, s.Store.GetUserAccessTokens userID = .ok stored →
      ∀ e ∈ stored, ∀ parsed,
        jwt.ParseWithClaims J e.AccessToken (api.v2.keyFunc s.Secret) = .ok parsed →
        P parsed) :
    ∀ userID stored,
      (api.v2.CreateUserAccessToken J s ctx request clk).2.1.GetUserAccessTokens userID
        = .ok stored →
      ∀ e ∈ stored, ∀ parsed,
        jwt.ParseWithClaims J e.AccessToken (api.v2.keyFunc s.Secret) = .ok parsed →
        P parsed := by
  intro userID stored hread e he parsed hparse
  cases huser : api.v2.getCurrentUser ctx s.Store with
  | error err =>
    simp only [api.v2.CreateUserAccessToken, huser] at hread
    exact hinv userID stored hread e he parsed hparse
  | ok found =>
    cases found with
    | none =>
      simp only [api.v2.CreateUserAccessToken, huser] at hread
      exact hinv userID stored hread e he parsed hparse
    | some user =>
      cases hcheck : api.v2.CreateUserAccessToken.check s user request with
      | some code =>
        simp only [api.v2.CreateUserAccessToken, huser, hcheck] at hread
        exact hinv userID stored hread e he parsed hparse
      | none =>
        cases hsign : J.SignedString
            (api.auth.GenerateAccessToken.token request.Username user.ID
              (api.v2.CreateUserAccessToken.expiresAt request) (clk 0)) s.Secret with
        | error err =>
          simp only [api.v2.CreateUserAccessToken, huser, hcheck,
            api.auth.GenerateAccessToken_signs, hsign] at hread
          exact hinv userID stored hread e he parsed hparse
        | ok accessToken =>
          cases hback : jwt.ParseWithClaims J accessToken (api.v2.keyFunc s.Secret) with
          | error err =>
            simp only [api.v2.CreateUserAccessToken, huser, hcheck,
              api.auth.GenerateAccessToken_signs, hsign, hback] at hread
            exact hinv userID stored hread e he parsed hparse
          | ok issued =>
            have hstore : (api.v2.CreateUserAccessToken J s ctx request clk).2.1 =
                (api.v2.UpsertAccessTokenToStore s user accessToken request.Description).2 := by
              simp only [api.v2.CreateUserAccessToken, huser, hcheck,
                api.auth.GenerateAccessToken_signs, hsign, hback]
              rcases api.v2.UpsertAccessTokenToStore s user accessToken request.Description
                with ⟨r, st⟩
              cases r with
              | error err => rfl
              | ok u => cases issued.Claims.IssuedAt <;> rfl
            rw [hstore] at hread
            cases hold : s.Store.GetUserAccessTokens user.ID with
            | error err =>
              simp only [api.v2.UpsertAccessTokenToStore, hold] at hread
              exact hinv userID stored hread e he parsed hparse
            | ok before =>
              have hst : ∀ st : Except String storepb.UserSetting × store.Store,
                  (match st with
                    | (.error err, st) =>
                      ((.error ("failed to upsert user setting: " ++ err), st) :
                        Except String Unit × store.Store)
                    | (.ok _, st) => (.ok (), st)).2 = st.2 := by
                intro st
                rcases st with ⟨r, st⟩
                cases r <;> rfl
              simp only [api.v2.UpsertAccessTokenToStore, hold] at hread
              rw [hst] at hread
              rcases store.GetUserAccessTokens_after_write s.Store user.ID userID _ stored hread
                with h | h
              · subst h
                rcases List.mem_append.mp he with h1 | h1
                · exact hinv user.ID before hold e h1 parsed hparse
                · rw [List.mem_singleton] at h1
                  subst h1
                  have hdecode := hround _ _ _ hsign
                  have hparsed := (jwt.ParseWithClaims_ok J accessToken _ parsed hparse).1
                  rw [hdecode] at hparsed
                  cases hparsed
                  exact hissuer user.ID
              · exact hinv userID stored h e he parsed hparse

/-- The token the issuer builds carries an issued-at claim, which is the clock reading of
the call in whole seconds; so it lies within 2^62 seconds of the epoch when the reading
does. -/
theorem api.auth.GenerateAccessToken.token_issued_at (username : String) (userID : Int)
    (expirationTime now : time.Time) :
    (api.auth.GenerateAccessToken.token username userID expirationTime now).Claims.IssuedAt
      ≠ none ∧
    ∀ issuedAt,
      (api.auth.GenerateAccessToken.token username userID expirationTime now).Claims.IssuedAt
        = some issuedAt →
      issuedAt.Time.Unix = now.Unix := by
  refine ⟨?_, ?_⟩
  · intro h
    cases h
  intro issuedAt h
  have h1 : (api.auth.GenerateAccessToken.token username userID expirationTime
      now).Claims.IssuedAt = some (jwt.NewNumericDate now) := rfl
  rw [h1] at h
  cases h
  exact (jwt.NewNumericDate_Unix now).1

/-! ## Totality of listing -/

/-- Every token that the library of the thirteen token strings parses carries an issued-at
claim. -/
theorem sample.tokens13_issued (tokenString Secret : String)
    (parsed : jwt.Token api.auth.ClaimsMessage)
    (h : jwt.ParseWithClaims sample.tokens13 tokenString (api.v2.keyFunc Secret) = .ok parsed) :
    parsed.Claims.IssuedAt ≠ none := by
  have hd := (jwt.ParseWithClaims_ok sample.tokens13 tokenString _ parsed h).1
  simp only [sample.tokens13, Option.map_eq_some'] at hd
  obtain ⟨sec, _, hsec⟩ := hd
  rw [← hsec]
  intro hnone
  cases hnone

/-- The user that `ListUserAccessTokens` resolves is a user id or a status, never a fault. -/
theorem api.v2.ListUserAccessTokens.userID_ne_panic (s : api.v2.APIV2Service)
    (user : store.User) (request : apiv2pb.ListUserAccessTokensRequest) :
    api.v2.ListUserAccessTokens.userID s user request ≠ .panic := by
  intro h
  unfold api.v2.ListUserAccessTokens.userID at h
  split at h
  · split at h
    · cases h
    · split at h <;> cases h
  · cases h

/-- C20, as amended: `ListUserAccessTokens` is total over the stored data in which every
token that verifies carries an issued-at claim, as every token signed by this service does.
On such a store, whoever calls and whatever the outcome of verifying each stored token,
the call never faults; and when the caller lookup, the authorization and the store read
succeed, building the entries ends normally and the call returns a response, the sorted
entries, with the store as it was. -/
theorem api.v2.ListUserAccessTokens_total (J : jwt.Library api.auth.ClaimsMessage)
    (L : slices.Library) (s : api.v2.APIV2Service) (ctx : api.v2.Context)
    (request : apiv2pb.ListUserAccessTokensRequest)
    (hiat : ∀ userID stored, s.Store.GetUserAccessTokens userID = .ok stored →
      ∀ e ∈ stored, ∀ parsed,
        jwt.ParseWithClaims J e.AccessToken (api.v2.keyFunc s.Secret) = .ok parsed →
        parsed.Claims.IssuedAt ≠ none) :
    (api.v2.ListUserAccessTokens J L s ctx request).1 ≠ .panic ∧
    ∀ user userID stored,
      api.v2.getCurrentUser ctx s.Store = .ok (some user) →
      api.v2.ListUserAccessTokens.userID s user request = .ok userID →
      s.Store.GetUserAccessTokens userID = .ok stored →
      ∃ accessTokens,
        api.v2.ListUserAccessTokens.loop J s.Secret stored [] = .ok accessTokens ∧
        api.v2.ListUserAccessTokens J L s ctx request =
          (.ok { AccessTokens := L.SortFunc _ accessTokens api.v2.ListUserAccessTokens.cmp },
           s.Store) := by
  have hcase : ∀ user userID stored,
      api.v2.getCurrentUser ctx s.Store = .ok (some user) →
      api.v2.ListUserAccessTokens.userID s user request = .ok userID →
      s.Store.GetUserAccessTokens userID = .ok stored →
      ∃ accessTokens,
        api.v2.ListUserAccessTokens.loop J s.Secret stored [] = .ok accessTokens ∧
        api.v2.ListUserAccessTokens J L s ctx request =
          (.ok { AccessTokens := L.SortFunc _ accessTokens api.v2.ListUserAccessTokens.cmp },
           s.Store) := by
    intro user userID stored huser hid hread
    obtain ⟨added, hloop, _⟩ :=
      api.v2.ListUserAccessTokens.loop_ok J s.Secret stored (hiat userID stored hread) []
    rw [List.nil_append] at hloop
    refine ⟨added, hloop, ?_⟩
    rw [api.v2.ListUserAccessTokens_eq J L s ctx request user userID stored huser hid hread,
      hloop]
  refine ⟨?_, hcase⟩
  intro hpanic
  cases huser : api.v2.getCurrentUser ctx s.Store with
  | error err =>
    simp only [api.v2.ListUserAccessTokens, huser] at hpanic
    cases hpanic
  | ok found =>
    cases found with
    | none =>
      simp only [api.v2.ListUserAccessTokens, huser] at hpanic
      cases hpanic
    | some user =>
      cases hid : api.v2.ListUserAccessTokens.userID s user request with
      | panic => exact api.v2.ListUserAccessTokens.userID_ne_panic s user request hid
      | status code =>
        simp only [api.v2.ListUserAccessTokens, huser, hid] at hpanic
        cases hpanic
      | ok userID =>
        cases hread : s.Store.GetUserAccessTokens userID with
        | error err =>
          simp only [api.v2.ListUserAccessTokens, huser, hid, hread] at hpanic
          cases hpanic
        | ok stored =>
          obtain ⟨accessTokens, _, hcall⟩ := hcase user userID stored huser hid hread
          rw [hcall] at hpanic
          cases hpanic

/-- C20 on the sample data: every token that the library of the thirteen token strings
parses carries an issued-at claim, so the listing of the thirteen records of `alice`, and
of those records with a string that does not verify among them, never faults and returns
a response. -/
theorem api.v2.ListUserAccessTokens_total_witness :
    (api.v2.ListUserAccessTokens sample.tokens13 slices.modelled
      (sample.serviceWith sample.records13) sample.ctx { Username := "alice" }).1 ≠ .panic ∧
    (∃ accessTokens,
      api.v2.ListUserAccessTokens.loop sample.tokens13 "secret"
        ({ AccessToken := "revoked", Description := "old" } :: sample.records13) []
        = .ok accessTokens ∧
      api.v2.ListUserAccessTokens sample.tokens13 slices.modelled
        (sample.serviceWith ({ AccessToken := "revoked", Description := "old" } ::
          sample.records13))
        sample.ctx { Username := "alice" } =
          (.ok { AccessTokens :=
                  slices.modelled.SortFunc _ accessTokens api.v2.ListUserAccessTokens.cmp },
           (sample.serviceWith ({ AccessToken := "revoked", Description := "old" } ::
             sample.records13)).Store)) :=
  ⟨(api.v2.ListUserAccessTokens_total sample.tokens13 slices.modelled
      (sample.serviceWith sample.records13) sample.ctx { Username := "alice" }
      (fun _ _ _ e _ parsed hparse =>
        sample.tokens13_issued e.AccessToken _ parsed hparse)).1,
   (api.v2.ListUserAccessTokens_total sample.tokens13 slices.modelled
      (sample.serviceWith ({ AccessToken := "revoked", Description := "old" } ::
        sample.records13))
      sample.ctx { Username := "alice" }
      (fun _ _ _ e _ parsed hparse =>
        sample.tokens13_issued e.AccessToken _ parsed hparse)).2
      sample.alice 1 _ rfl rfl rfl⟩

/-- C20 fails as stated: the stored list of the caller holds one token, which verifies
(HS256, key version `v1`, accepted signature) and whose claims carry no issued-at, the
case the claim names; the call reads the issued-at through the absent value and panics,
so it returns no response. No token signed by this service is of that kind. -/
theorem api.v2.ListUserAccessTokens_faults_on_absent_issued_at :
    (jwt.ParseWithClaims sample.tokens "no-iat" (api.v2.keyFunc "secret")).toBool = true ∧
    (sample.personal none).Claims.IssuedAt = none ∧
    api.v2.ListUserAccessTokens sample.tokens slices.shortSlices
      (sample.serviceWith [{ AccessToken := "no-iat", Description := "imported" }])
      sample.ctx { Username := "alice" } =
        (.panic,
         (sample.serviceWith
           [{ AccessToken := "no-iat", Description := "imported" }]).Store) := by
  decide
